import Mathlib

/-!
# Health HAL for STM32MP (battery and disk telemetry samplers)

A shallow embedding of the three entry points of the repository

* `health_service.cpp` (HAL 2.0, namespace `V2_0`),
* `HealthImpl.cpp` (HAL 2.1, namespace `V2_1`),
* `health.cpp` (AIDL, namespace `aidl`),

and theorems about them.

Conventions of the embedding.

* A `std::string` is a Lean `String`; one `Char` stands for one `char`.
* The pseudo-filesystem is a function from a path to the content of the file,
  `none` when `android::base::ReadFileToString` returns `false`.
* A C++ function that writes through a pointer argument is a function from the
  pointed-to object to a `Run`: the `LOG(ERROR)` lines it emitted, how it
  completed, and the pointed-to object at that moment.
* `std::stoi` can throw and `std::string::pop_back` has the precondition
  `!empty()`; both ways of leaving the straight-line path are completions of
  their own (`Completion.threw`, `Completion.undefined`).
* `LOG(DEBUG)` output is not modelled.
-/

namespace Health

/-! ## C and C++ library functions used by the source -/

/-- The filesystem seen by `android::base::ReadFileToString`. -/
abbrev FileSystem := String → Option String

/-- Call `android::base::ReadFileToString(file, &buffer)`: `some buffer` when it
returns `true`, `none` when it returns `false`. -/
def ReadFileToString (fs : FileSystem) (file : String) : Option String := fs file

/-- How a call of a modelled function ends. -/
inductive Completion (ρ : Type) where
  /-- Ordinary `return r`. -/
  | returned (r : ρ)
  /-- An exception of `std::stoi` leaves the function (nothing catches it). -/
  | threw (what : String)
  /-- The function reached `pop_back()` on an empty string, whose behaviour the
  language leaves undefined. -/
  | undefined
  deriving DecidableEq, Repr

/-- Outcome of a call: the `LOG(ERROR)` lines, the completion, and the object
behind the pointer argument as the code had written it at that moment. -/
structure Run (ρ σ : Type) where
  log : List String
  completion : Completion ρ
  state : σ
  deriving DecidableEq, Repr

/-- The predicate `isspace` of the "C" locale. -/
def isspace (c : Char) : Bool :=
  c == ' ' || c == '\t' || c == '\n' || c == '\x0b' || c == '\x0c' || c == '\r'

/-- The predicate `isdigit`. -/
def isdigit (c : Char) : Bool :=
  decide (48 ≤ c.toNat) && decide (c.toNat ≤ 57)

/-- Value of one decimal digit. -/
def digitValue (c : Char) : Nat := c.toNat - 48

/-- Value of a run of decimal digits, most significant first. -/
def decimalValue (digits : List Char) : Nat :=
  digits.foldl (fun acc c => 10 * acc + digitValue c) 0

/-- Optional sign in front of a numeral: `(negative, rest)`. -/
def takeSign : List Char → Bool × List Char
  | [] => (false, [])
  | c :: rest =>
    if c = '-' then (true, rest) else if c = '+' then (false, rest) else (false, c :: rest)

def INT_MAX : Int := 2147483647

def INT_MIN : Int := -2147483648

/-- The function `std::stoi(str)` (base 10, no position output): `strtol` on the
text, skipping leading white space, reading an optional sign and the longest run
of digits, ignoring what follows. It throws `std::invalid_argument` when there is
no digit to convert and `std::out_of_range` when the value is not an `int`. -/
def stoi (str : String) : Except String Int :=
  let (negative, rest) := takeSign (str.data.dropWhile isspace)
  let digits := rest.takeWhile isdigit
  if digits.isEmpty then
    .error "std::invalid_argument"
  else
    let magnitude : Int := (decimalValue digits : Nat)
    let value : Int := if negative then -magnitude else magnitude
    if value < INT_MIN ∨ INT_MAX < value then .error "std::out_of_range" else .ok value

/-- The member `std::string::pop_back()`: removes the last character; `none` when
the string is empty (precondition `!empty()` violated). -/
def pop_back (buffer : String) : Option String :=
  if buffer.data.isEmpty then none else some ⟨buffer.data.dropLast⟩

/-- The text a `const char*` obtained with `c_str()` denotes: the characters
before the first NUL. -/
def c_str (buffer : String) : String :=
  ⟨buffer.data.takeWhile (fun c => c != '\x00')⟩

def ULLONG_MAX : Nat := 18446744073709551615

/-- A `std::stringstream` being read: the characters not yet consumed and the
two state bits the extraction operator looks at. -/
structure stringstream where
  unread : List Char
  eofbit : Bool
  failbit : Bool
  deriving DecidableEq, Repr

/-- The constructor `std::stringstream ss(buffer)`. -/
def stringstream.ofString (buffer : String) : stringstream :=
  ⟨buffer.data, false, false⟩

/-- Stage 2 of `num_get` for a decimal integer: an optional sign, then the
longest run of digits, are taken from the stream: `(field, unread)`. -/
def accumulate : List Char → List Char × List Char
  | [] => ([], [])
  | c :: rest =>
    if c = '+' ∨ c = '-' then
      (c :: rest.takeWhile isdigit, rest.dropWhile isdigit)
    else
      ((c :: rest).takeWhile isdigit, (c :: rest).dropWhile isdigit)

/-- Stage 3 of `num_get` for an `unsigned long long` target: the value stored and
whether `failbit` is raised. A field without digits stores 0 and fails, a value
above `ULLONG_MAX` stores `ULLONG_MAX` and fails, a minus sign negates modulo
2^64. -/
def convertUnsigned (field : List Char) : Nat × Bool :=
  let (negative, digits) := takeSign field
  if digits.isEmpty then
    (0, true)
  else
    let n := decimalValue digits
    if ULLONG_MAX < n then
      (ULLONG_MAX, true)
    else
      (if negative then (2 ^ 64 - n) % 2 ^ 64 else n, false)

/-- The extraction `ss >> x` for `x` of type `uint64_t`: the stream afterwards
and the value stored in `x`, `none` when `x` is left as it was. The sentry
refuses a stream whose `eofbit` or `failbit` is set, otherwise skips white
space and, finding the end of the text there, sets both bits. -/
def extract (ss : stringstream) : stringstream × Option Nat :=
  if ss.eofbit || ss.failbit then
    ({ ss with failbit := true }, none)
  else
    let unread := ss.unread.dropWhile isspace
    if unread.isEmpty then
      (⟨[], true, true⟩, none)
    else
      let (field, unread) := accumulate unread
      let (value, fail) := convertUnsigned field
      (⟨unread, unread.isEmpty, fail⟩, some value)

/-- The loop `for (uint i = ...; i < kDiskStatsSize; i++) ss >> word i of stats`,
with `count` iterations left; `setWord i v stats` is the store through
`reinterpret_cast<uint64_t*>(&stats) + i`. -/
def extractWords {D : Type} (setWord : Nat → Nat → D → D) :
    Nat → Nat → stringstream → D → stringstream × D
  | 0, _, ss, stats => (ss, stats)
  | count + 1, i, ss, stats =>
    match extract ss with
    | (ss, none) => extractWords setWord count (i + 1) ss stats
    | (ss, some v) => extractWords setWord count (i + 1) ss (setWord i v stats)

/-! ## Data model -/

/-- Battery status values (`android::BATTERY_STATUS_*`, AIDL `BatteryStatus`). -/
inductive BatteryStatus where
  | UNKNOWN | CHARGING | DISCHARGING | NOT_CHARGING | FULL
  deriving DecidableEq, Repr

/-- Battery health values (`android::BATTERY_HEALTH_*`, AIDL `BatteryHealth`). -/
inductive BatteryHealth where
  | UNKNOWN | GOOD | OVERHEAT | DEAD | OVER_VOLTAGE | UNSPECIFIED_FAILURE | COLD
  deriving DecidableEq, Repr

/-- The struct `android::BatteryProperties` filled by the HAL 2.0 and HAL 2.1
samplers. -/
structure BatteryProperties where
  chargerAcOnline : Bool
  chargerUsbOnline : Bool
  chargerWirelessOnline : Bool
  maxChargingCurrent : Int
  maxChargingVoltage : Int
  batteryStatus : BatteryStatus
  batteryHealth : BatteryHealth
  batteryPresent : Bool
  batteryLevel : Int
  batteryVoltage : Int
  batteryTemperature : Int
  batteryCurrent : Int
  batteryCycleCount : Int
  batteryFullCharge : Int
  batteryChargeCounter : Int
  batteryTechnology : String
  deriving DecidableEq, Repr

def kBatteryStatsFile : String := "/sys/class/power_supply/"

def kBatteryName : String := "dummy-battery"

def kAcChargerName : String := "dummy-charger-ac"

def kUsbChargerName : String := "dummy-charger-usb_c"

/-- The local `battery` of every sampler:
`std::string(kBatteryStatsFile).append(std::string(kBatteryName)).append("/")`. -/
def battery : String := (kBatteryStatsFile.append kBatteryName).append "/"

/-- Path of the AC charger flag file. -/
def acOnlineFile : String := (kBatteryStatsFile.append kAcChargerName).append "/online"

/-- Path of the USB charger flag file. -/
def usbOnlineFile : String := (kBatteryStatsFile.append kUsbChargerName).append "/online"

/-- The line `LOG(ERROR) << file << ": ReadFileToString failed."`. -/
def readFailed (file : String) : String := file.append ": ReadFileToString failed."

abbrev BATTERY_STATUS_UNKNOWN := BatteryStatus.UNKNOWN
abbrev BATTERY_STATUS_CHARGING := BatteryStatus.CHARGING
abbrev BATTERY_STATUS_DISCHARGING := BatteryStatus.DISCHARGING
abbrev BATTERY_STATUS_NOT_CHARGING := BatteryStatus.NOT_CHARGING
abbrev BATTERY_STATUS_FULL := BatteryStatus.FULL
abbrev BATTERY_HEALTH_UNKNOWN := BatteryHealth.UNKNOWN
abbrev BATTERY_HEALTH_GOOD := BatteryHealth.GOOD
abbrev BATTERY_HEALTH_OVERHEAT := BatteryHealth.OVERHEAT
abbrev BATTERY_HEALTH_DEAD := BatteryHealth.DEAD
abbrev BATTERY_HEALTH_OVER_VOLTAGE := BatteryHealth.OVER_VOLTAGE
abbrev BATTERY_HEALTH_UNSPECIFIED_FAILURE := BatteryHealth.UNSPECIFIED_FAILURE

def kDiskStatsSize : Nat := 11

/-- The struct `StorageAttribute` of HAL 2.0. -/
structure StorageAttribute where
  isInternal : Bool
  isBootDevice : Bool
  name : String
  deriving DecidableEq, Repr

/-- The struct `DiskStats` of HAL 2.0: eleven `uint64_t` counters in this order,
then the attributes. -/
structure DiskStats where
  reads : Nat
  readMerges : Nat
  readSectors : Nat
  readTicks : Nat
  writes : Nat
  writeMerges : Nat
  writeSectors : Nat
  writeTicks : Nat
  ioInFlight : Nat
  ioTicks : Nat
  ioInQueue : Nat
  attr : StorageAttribute
  deriving DecidableEq, Repr

/-- Value initialisation `DiskStats stats = {}`. -/
def DiskStats.zero : DiskStats :=
  ⟨0, 0, 0, 0, 0, 0, 0, 0, 0, 0, 0, ⟨false, false, ""⟩⟩

/-- The store `*(reinterpret_cast<uint64_t*>(&stats) + i) = v` for `i < 11`: the
`i`-th 64-bit word of the struct is its `i`-th counter. -/
def DiskStats.setWord (i v : Nat) (stats : DiskStats) : DiskStats :=
  match i with
  | 0 => { stats with reads := v }
  | 1 => { stats with readMerges := v }
  | 2 => { stats with readSectors := v }
  | 3 => { stats with readTicks := v }
  | 4 => { stats with writes := v }
  | 5 => { stats with writeMerges := v }
  | 6 => { stats with writeSectors := v }
  | 7 => { stats with writeTicks := v }
  | 8 => { stats with ioInFlight := v }
  | 9 => { stats with ioTicks := v }
  | 10 => { stats with ioInQueue := v }
  | _ => stats

/-- The eleven counters of a record, in declaration order. -/
def DiskStats.counters (stats : DiskStats) : List Nat :=
  [stats.reads, stats.readMerges, stats.readSectors, stats.readTicks, stats.writes,
   stats.writeMerges, stats.writeSectors, stats.writeTicks, stats.ioInFlight,
   stats.ioTicks, stats.ioInQueue]

/-- The enum `Result` of HAL 2.0. -/
inductive Result where
  | SUCCESS | NOT_SUPPORTED | UNKNOWN
  deriving DecidableEq, Repr

/-- Name of the boot device; `EMMC_STORAGE` is the build flag of that name. -/
def kBootDeviceName (EMMC_STORAGE : Bool) : String :=
  if EMMC_STORAGE then "mmcblk1" else "mmcblk0"

/-- Path of the statistics file of the boot device. -/
def kBootDeviceStatsFile (EMMC_STORAGE : Bool) : String :=
  if EMMC_STORAGE then "/sys/block/mmcblk1/stat" else "/sys/block/mmcblk0/stat"

/-- The two conversions of `hal_conversion.h` between the HAL 1.0 health record
(type `L`) and `BatteryProperties`; they belong to the platform, not to this
repository, and are left abstract. -/
structure HalConversion (L : Type) where
  convertFromHealthInfo : L → BatteryProperties
  convertToHealthInfo : BatteryProperties → L → L

/-! ## HAL 2.1: `HealthImpl.cpp` -/

namespace V2_1

/-- The HAL 2.0 record nested in the HAL 2.1 one: the HAL 1.0 record `legacy`
and the fields this repository never touches. -/
structure HealthInfo_2_0 (L E : Type) where
  legacy : L
  others : E

/-- The HAL 2.1 `HealthInfo`: the HAL 2.0 record `legacy` and the fields this
repository never touches. -/
structure HealthInfo (L E E1 : Type) where
  legacy : HealthInfo_2_0 L E
  others : E1

/-- The chain of `buffer.compare` tests of `HealthImpl.cpp` lines 226-236, applied
to the buffer after `pop_back()`: the value assigned to `battery_props->batteryStatus`. -/
def batteryStatusOf (buffer : String) : BatteryStatus :=
  if buffer = "Charging" then
    BATTERY_STATUS_CHARGING
  else if buffer = "Discharging" then
    BATTERY_STATUS_DISCHARGING
  else if buffer = "Not-charging" then
    BATTERY_STATUS_NOT_CHARGING
  else if buffer = "Full" then
    BATTERY_STATUS_FULL
  else
    BATTERY_STATUS_UNKNOWN

/-- The chain of `buffer.compare` tests of `HealthImpl.cpp` lines 248-260, applied
to the buffer after `pop_back()`: the value assigned to `battery_props->batteryHealth`. -/
def batteryHealthOf (buffer : String) : BatteryHealth :=
  if buffer = "Good" then
    BATTERY_HEALTH_GOOD
  else if buffer = "Overheat" then
    BATTERY_HEALTH_OVERHEAT
  else if buffer = "Dead" then
    BATTERY_HEALTH_DEAD
  else if buffer = "Overvoltage" then
    BATTERY_HEALTH_OVER_VOLTAGE
  else if buffer = "Failure" then
    BATTERY_HEALTH_UNSPECIFIED_FAILURE
  else
    BATTERY_HEALTH_UNKNOWN

/-- Method `HealthImpl::BoardBatteryUpdate`, `HealthImpl.cpp` lines 104-280. -/
def BoardBatteryUpdate (fs : FileSystem) (battery_props : BatteryProperties) :
    Run Bool BatteryProperties :=
  -- consider that the battery is always present
  let battery_props := { battery_props with batteryPresent := true }
  let file := battery.append "technology"
  match ReadFileToString fs file with
  | none => ⟨[readFailed file], .returned false, battery_props⟩
  | some buffer =>
  let battery_props := { battery_props with batteryTechnology := c_str buffer }
  let file := battery.append "capacity"
  match ReadFileToString fs file with
  | none => ⟨[readFailed file], .returned false, battery_props⟩
  | some buffer =>
  match stoi buffer with
  | .error what => ⟨[], .threw what, battery_props⟩
  | .ok v =>
  let battery_props := { battery_props with batteryLevel := v }
  let file := battery.append "current_max"
  match ReadFileToString fs file with
  | none => ⟨[readFailed file], .returned false, battery_props⟩
  | some buffer =>
  match stoi buffer with
  | .error what => ⟨[], .threw what, battery_props⟩
  | .ok v =>
  let battery_props := { battery_props with maxChargingCurrent := v }
  let file := battery.append "current_now"
  match ReadFileToString fs file with
  | none => ⟨[readFailed file], .returned false, battery_props⟩
  | some buffer =>
  match stoi buffer with
  | .error what => ⟨[], .threw what, battery_props⟩
  | .ok v =>
  let battery_props := { battery_props with batteryCurrent := v }
  let file := battery.append "voltage_max"
  match ReadFileToString fs file with
  | none => ⟨[readFailed file], .returned false, battery_props⟩
  | some buffer =>
  match stoi buffer with
  | .error what => ⟨[], .threw what, battery_props⟩
  | .ok v =>
  let battery_props := { battery_props with maxChargingVoltage := v }
  -- read value in µV, returned value in mV
  let file := battery.append "voltage_now"
  match ReadFileToString fs file with
  | none => ⟨[readFailed file], .returned false, battery_props⟩
  | some buffer =>
  match stoi buffer with
  | .error what => ⟨[], .threw what, battery_props⟩
  | .ok v =>
  let battery_props := { battery_props with batteryVoltage := v.tdiv 1000 }
  -- read value in units of 0.1°C, returned value in °C
  let file := battery.append "temp"
  match ReadFileToString fs file with
  | none => ⟨[readFailed file], .returned false, battery_props⟩
  | some buffer =>
  match stoi buffer with
  | .error what => ⟨[], .threw what, battery_props⟩
  | .ok v =>
  let battery_props := { battery_props with batteryTemperature := v.tdiv 10 }
  let file := battery.append "cycle_count"
  match ReadFileToString fs file with
  | none => ⟨[readFailed file], .returned false, battery_props⟩
  | some buffer =>
  match stoi buffer with
  | .error what => ⟨[], .threw what, battery_props⟩
  | .ok v =>
  let battery_props := { battery_props with batteryCycleCount := v }
  let file := battery.append "charge_full"
  match ReadFileToString fs file with
  | none => ⟨[readFailed file], .returned false, battery_props⟩
  | some buffer =>
  match stoi buffer with
  | .error what => ⟨[], .threw what, battery_props⟩
  | .ok v =>
  let battery_props := { battery_props with batteryFullCharge := v }
  let file := battery.append "charge_counter"
  match ReadFileToString fs file with
  | none => ⟨[readFailed file], .returned false, battery_props⟩
  | some buffer =>
  match stoi buffer with
  | .error what => ⟨[], .threw what, battery_props⟩
  | .ok v =>
  let battery_props := { battery_props with batteryChargeCounter := v }
  -- AC charger status
  let file := acOnlineFile
  match ReadFileToString fs file with
  | none => ⟨[readFailed file], .returned false, battery_props⟩
  | some buffer =>
  let battery_props := { battery_props with chargerAcOnline := buffer != "0" }
  -- USB charger status
  let file := usbOnlineFile
  match ReadFileToString fs file with
  | none => ⟨[readFailed file], .returned false, battery_props⟩
  | some buffer =>
  let battery_props := { battery_props with chargerUsbOnline := buffer != "0" }
  -- No Wireless charger available
  let battery_props := { battery_props with chargerWirelessOnline := false }
  -- Batter status (full, charging, discharging, not-charging)
  let file := battery.append "status"
  match ReadFileToString fs file with
  | none => ⟨[readFailed file], .returned false, battery_props⟩
  | some buffer =>
  -- remove last space
  match pop_back buffer with
  | none => ⟨[], .undefined, battery_props⟩
  | some buffer =>
  let battery_props := { battery_props with batteryStatus := batteryStatusOf buffer }
  -- Batter health (good, overheat, dead, overvoltage, failure)
  let file := battery.append "health"
  match ReadFileToString fs file with
  | none => ⟨[readFailed file], .returned false, battery_props⟩
  | some buffer =>
  -- remove last space
  match pop_back buffer with
  | none => ⟨[], .undefined, battery_props⟩
  | some buffer =>
  let battery_props := { battery_props with batteryHealth := batteryHealthOf buffer }
  ⟨[], .returned true, battery_props⟩

/-- Method `HealthImpl::UpdateHealthInfo`, `HealthImpl.cpp` lines 95-102. The
state of the run is the caller's `*health_info`; `props` is a local. -/
def UpdateHealthInfo {L E E1 : Type} (conv : HalConversion L) (fs : FileSystem)
    (health_info : HealthInfo L E E1) : Run Unit (HealthInfo L E E1) :=
  let props := conv.convertFromHealthInfo health_info.legacy.legacy
  let r := BoardBatteryUpdate fs props
  match r.completion with
  | .returned res =>
    if res then
      let props := r.state
      ⟨r.log, .returned (),
        { health_info with
          legacy := { health_info.legacy with
            legacy := conv.convertToHealthInfo props health_info.legacy.legacy } }⟩
    else
      ⟨r.log, .returned (), health_info⟩
  | .threw what => ⟨r.log, .threw what, health_info⟩
  | .undefined => ⟨r.log, .undefined, health_info⟩

/-- Method `HealthImpl::getDiskStats`, `HealthImpl.cpp` lines 282-314: the
`LOG(ERROR)` lines and the two arguments handed to `_hidl_cb`. -/
def getDiskStats (EMMC_STORAGE : Bool) (fs : FileSystem) :
    List String × Result × List DiskStats :=
  let stats : List DiskStats := []
  -- Integrate only the boot device stats by default
  let bootDeviceStat := DiskStats.zero
  let bootDeviceStat :=
    { bootDeviceStat with attr := { bootDeviceStat.attr with isInternal := true } }
  let bootDeviceStat :=
    { bootDeviceStat with attr := { bootDeviceStat.attr with isBootDevice := true } }
  let bootDeviceStat :=
    { bootDeviceStat with
      attr := { bootDeviceStat.attr with name := kBootDeviceName EMMC_STORAGE } }
  match ReadFileToString fs (kBootDeviceStatsFile EMMC_STORAGE) with
  | none => ([readFailed (kBootDeviceStatsFile EMMC_STORAGE)], Result.NOT_SUPPORTED, [])
  | some buffer =>
  let ss := stringstream.ofString buffer
  let (_, bootDeviceStat) := extractWords DiskStats.setWord kDiskStatsSize 0 ss bootDeviceStat
  -- stats.resize(1); stats[0] = bootDeviceStat;
  let stats :=
    (stats.take 1 ++ List.replicate (1 - stats.length) DiskStats.zero).set 0 bootDeviceStat
  if stats.length = 0 then
    ([], Result.NOT_SUPPORTED, [])
  else
    ([], Result.SUCCESS, stats)

end V2_1

/-! ## HAL 2.0: `health_service.cpp` -/

namespace V2_0

/-- The chain of `buffer.compare` tests of `health_service.cpp` lines 170-180, applied
to the buffer after `pop_back()`: the value assigned to `battery_props->batteryStatus`. -/
def batteryStatusOf (buffer : String) : BatteryStatus :=
  if buffer = "Charging" then
    BATTERY_STATUS_CHARGING
  else if buffer = "Discharging" then
    BATTERY_STATUS_DISCHARGING
  else if buffer = "Not-charging" then
    BATTERY_STATUS_NOT_CHARGING
  else if buffer = "Full" then
    BATTERY_STATUS_FULL
  else
    BATTERY_STATUS_UNKNOWN

/-- The chain of `buffer.compare` tests of `health_service.cpp` lines 192-204, applied
to the buffer after `pop_back()`: the value assigned to `battery_props->batteryHealth`. -/
def batteryHealthOf (buffer : String) : BatteryHealth :=
  if buffer = "Good" then
    BATTERY_HEALTH_GOOD
  else if buffer = "Overheat" then
    BATTERY_HEALTH_OVERHEAT
  else if buffer = "Dead" then
    BATTERY_HEALTH_DEAD
  else if buffer = "Overvoltage" then
    BATTERY_HEALTH_OVER_VOLTAGE
  else if buffer = "Failure" then
    BATTERY_HEALTH_UNSPECIFIED_FAILURE
  else
    BATTERY_HEALTH_UNKNOWN

/-- Function `healthd_board_battery_update`, `health_service.cpp` lines 47-224. -/
def healthd_board_battery_update (fs : FileSystem) (battery_props : BatteryProperties) :
    Run Int BatteryProperties :=
  -- consider that the battery is always present
  let battery_props := { battery_props with batteryPresent := true }
  let file := battery.append "technology"
  match ReadFileToString fs file with
  | none => ⟨[readFailed file], .returned 1, battery_props⟩
  | some buffer =>
  let battery_props := { battery_props with batteryTechnology := c_str buffer }
  let file := battery.append "capacity"
  match ReadFileToString fs file with
  | none => ⟨[readFailed file], .returned 1, battery_props⟩
  | some buffer =>
  match stoi buffer with
  | .error what => ⟨[], .threw what, battery_props⟩
  | .ok v =>
  let battery_props := { battery_props with batteryLevel := v }
  let file := battery.append "current_max"
  match ReadFileToString fs file with
  | none => ⟨[readFailed file], .returned 1, battery_props⟩
  | some buffer =>
  match stoi buffer with
  | .error what => ⟨[], .threw what, battery_props⟩
  | .ok v =>
  let battery_props := { battery_props with maxChargingCurrent := v }
  let file := battery.append "current_now"
  match ReadFileToString fs file with
  | none => ⟨[readFailed file], .returned 1, battery_props⟩
  | some buffer =>
  match stoi buffer with
  | .error what => ⟨[], .threw what, battery_props⟩
  | .ok v =>
  let battery_props := { battery_props with batteryCurrent := v }
  let file := battery.append "voltage_max"
  match ReadFileToString fs file with
  | none => ⟨[readFailed file], .returned 1, battery_props⟩
  | some buffer =>
  match stoi buffer with
  | .error what => ⟨[], .threw what, battery_props⟩
  | .ok v =>
  let battery_props := { battery_props with maxChargingVoltage := v }
  -- read value in µV, returned value in mV
  let file := battery.append "voltage_now"
  match ReadFileToString fs file with
  | none => ⟨[readFailed file], .returned 1, battery_props⟩
  | some buffer =>
  match stoi buffer with
  | .error what => ⟨[], .threw what, battery_props⟩
  | .ok v =>
  let battery_props := { battery_props with batteryVoltage := v.tdiv 1000 }
  -- read value in units of 0.1°C, returned value in °C
  let file := battery.append "temp"
  match ReadFileToString fs file with
  | none => ⟨[readFailed file], .returned 1, battery_props⟩
  | some buffer =>
  match stoi buffer with
  | .error what => ⟨[], .threw what, battery_props⟩
  | .ok v =>
  let battery_props := { battery_props with batteryTemperature := v.tdiv 10 }
  let file := battery.append "cycle_count"
  match ReadFileToString fs file with
  | none => ⟨[readFailed file], .returned 1, battery_props⟩
  | some buffer =>
  match stoi buffer with
  | .error what => ⟨[], .threw what, battery_props⟩
  | .ok v =>
  let battery_props := { battery_props with batteryCycleCount := v }
  let file := battery.append "charge_full"
  match ReadFileToString fs file with
  | none => ⟨[readFailed file], .returned 1, battery_props⟩
  | some buffer =>
  match stoi buffer with
  | .error what => ⟨[], .threw what, battery_props⟩
  | .ok v =>
  let battery_props := { battery_props with batteryFullCharge := v }
  let file := battery.append "charge_counter"
  match ReadFileToString fs file with
  | none => ⟨[readFailed file], .returned 1, battery_props⟩
  | some buffer =>
  match stoi buffer with
  | .error what => ⟨[], .threw what, battery_props⟩
  | .ok v =>
  let battery_props := { battery_props with batteryChargeCounter := v }
  -- AC charger status
  let file := acOnlineFile
  match ReadFileToString fs file with
  | none => ⟨[readFailed file], .returned 1, battery_props⟩
  | some buffer =>
  let battery_props := { battery_props with chargerAcOnline := buffer != "0" }
  -- USB charger status
  let file := usbOnlineFile
  match ReadFileToString fs file with
  | none => ⟨[readFailed file], .returned 1, battery_props⟩
  | some buffer =>
  let battery_props := { battery_props with chargerUsbOnline := buffer != "0" }
  -- No Wireless charger available
  let battery_props := { battery_props with chargerWirelessOnline := false }
  -- Batter status (full, charging, discharging, not-charging)
  let file := battery.append "status"
  match ReadFileToString fs file with
  | none => ⟨[readFailed file], .returned 1, battery_props⟩
  | some buffer =>
  -- remove last space
  match pop_back buffer with
  | none => ⟨[], .undefined, battery_props⟩
  | some buffer =>
  let battery_props := { battery_props with batteryStatus := batteryStatusOf buffer }
  -- Batter health (good, overheat, dead, overvoltage, failure)
  let file := battery.append "health"
  match ReadFileToString fs file with
  | none => ⟨[readFailed file], .returned 1, battery_props⟩
  | some buffer =>
  -- remove last space
  match pop_back buffer with
  | none => ⟨[], .undefined, battery_props⟩
  | some buffer =>
  let battery_props := { battery_props with batteryHealth := batteryHealthOf buffer }
  ⟨[], .returned 0, battery_props⟩

/-- Function `get_disk_stats`, `health_service.cpp` lines 228-250; the state is
the caller's `vec_stats`. -/
def get_disk_stats (EMMC_STORAGE : Bool) (fs : FileSystem) (vec_stats : List DiskStats) :
    Run Unit (List DiskStats) :=
  let stats := DiskStats.zero
  let stats := { stats with attr := { stats.attr with isInternal := true } }
  let stats := { stats with attr := { stats.attr with isBootDevice := true } }
  let stats := { stats with attr := { stats.attr with name := kBootDeviceName EMMC_STORAGE } }
  match ReadFileToString fs (kBootDeviceStatsFile EMMC_STORAGE) with
  | none => ⟨[readFailed (kBootDeviceStatsFile EMMC_STORAGE)], .returned (), vec_stats⟩
  | some buffer =>
  -- Regular diskstats entries
  let ss := stringstream.ofString buffer
  let (_, stats) := extractWords DiskStats.setWord kDiskStatsSize 0 ss stats
  -- vec_stats.resize(1); vec_stats[0] = stats;
  let vec_stats :=
    (vec_stats.take 1 ++ List.replicate (1 - vec_stats.length) DiskStats.zero).set 0 stats
  ⟨[], .returned (), vec_stats⟩

end V2_0

/-! ## AIDL: `health.cpp` -/

namespace aidl

/-- The fields of the AIDL parcelable `HealthInfo` that `health.cpp` writes. -/
structure HealthInfo where
  chargerAcOnline : Bool
  chargerUsbOnline : Bool
  chargerWirelessOnline : Bool
  maxChargingCurrentMicroamps : Int
  maxChargingVoltageMicrovolts : Int
  batteryStatus : BatteryStatus
  batteryHealth : BatteryHealth
  batteryPresent : Bool
  batteryLevel : Int
  batteryVoltageMillivolts : Int
  batteryTemperatureTenthsCelsius : Int
  batteryCurrentMicroamps : Int
  batteryCycleCount : Int
  batteryFullChargeUah : Int
  batteryChargeCounterUah : Int
  batteryTechnology : String
  deriving DecidableEq, Repr

/-- Binder exception codes used by the source. -/
inductive ExceptionCode where
  | EX_UNSUPPORTED_OPERATION
  deriving DecidableEq, Repr

abbrev EX_UNSUPPORTED_OPERATION := ExceptionCode.EX_UNSUPPORTED_OPERATION

/-- The class `ndk::ScopedAStatus`, as far as the source builds values of it. -/
inductive ScopedAStatus where
  | ok
  | fromExceptionCode (code : ExceptionCode)
  deriving DecidableEq, Repr

/-- The chain of `buffer.compare` tests of `health.cpp` lines 127-137, applied
to the buffer after `pop_back()`: the value assigned to `health_info->batteryStatus`. -/
def batteryStatusOf (buffer : String) : BatteryStatus :=
  if buffer = "Charging" then
    BatteryStatus.CHARGING
  else if buffer = "Discharging" then
    BatteryStatus.DISCHARGING
  else if buffer = "Not-charging" then
    BatteryStatus.NOT_CHARGING
  else if buffer = "Full" then
    BatteryStatus.FULL
  else
    BatteryStatus.UNKNOWN

/-- The chain of `buffer.compare` tests of `health.cpp` lines 150-162, applied
to the buffer after `pop_back()`: the value assigned to `health_info->batteryHealth`. -/
def batteryHealthOf (buffer : String) : BatteryHealth :=
  if buffer = "Good" then
    BatteryHealth.GOOD
  else if buffer = "Overheat" then
    BatteryHealth.OVERHEAT
  else if buffer = "Dead" then
    BatteryHealth.DEAD
  else if buffer = "Overvoltage" then
    BatteryHealth.OVER_VOLTAGE
  else if buffer = "Failure" then
    BatteryHealth.UNSPECIFIED_FAILURE
  else
    BatteryHealth.UNKNOWN

/-- Method `HealthImpl::UpdateHealthInfo`, `health.cpp` lines 67-250; the state is
the caller's `*health_info`, written in place. -/
def UpdateHealthInfo (fs : FileSystem) (health_info : HealthInfo) : Run Unit HealthInfo :=
  let log : List String := []
  -- AC charger status
  let file := acOnlineFile
  let (log, health_info) :=
    match ReadFileToString fs file with
    | none => (log ++ [readFailed file], { health_info with chargerAcOnline := false })
    | some buffer => (log, { health_info with chargerAcOnline := buffer != "0" })
  -- USB charger status
  let file := usbOnlineFile
  let (log, health_info) :=
    match ReadFileToString fs file with
    | none => (log ++ [readFailed file], { health_info with chargerUsbOnline := false })
    | some buffer => (log, { health_info with chargerUsbOnline := buffer != "0" })
  -- No Wireless charger available
  let health_info := { health_info with chargerWirelessOnline := false }
  -- Charging current not available, stub
  let file := battery.append "current_max"
  match ReadFileToString fs file with
  | none => ⟨log ++ [readFailed file], .returned (),
      { health_info with
        batteryStatus := BatteryStatus.UNKNOWN, batteryHealth := BatteryHealth.UNKNOWN }⟩
  | some buffer =>
  match stoi buffer with
  | .error what => ⟨log, .threw what, health_info⟩
  | .ok v =>
  let health_info := { health_info with maxChargingCurrentMicroamps := v }
  let file := battery.append "voltage_max"
  match ReadFileToString fs file with
  | none => ⟨log ++ [readFailed file], .returned (),
      { health_info with
        batteryStatus := BatteryStatus.UNKNOWN, batteryHealth := BatteryHealth.UNKNOWN }⟩
  | some buffer =>
  match stoi buffer with
  | .error what => ⟨log, .threw what, health_info⟩
  | .ok v =>
  let health_info := { health_info with maxChargingVoltageMicrovolts := v }
  -- Battery status (full, charging, discharging, not-charging)
  let file := battery.append "status"
  match ReadFileToString fs file with
  | none => ⟨log ++ [readFailed file], .returned (),
      { health_info with
        batteryStatus := BatteryStatus.UNKNOWN, batteryHealth := BatteryHealth.UNKNOWN }⟩
  | some buffer =>
  match pop_back buffer with
  | none => ⟨log, .undefined, health_info⟩
  | some buffer =>
  let health_info := { health_info with batteryStatus := batteryStatusOf buffer }
  -- Batter health (good, overheat, dead, overvoltage, failure)
  let file := battery.append "health"
  match ReadFileToString fs file with
  | none => ⟨log ++ [readFailed file], .returned (),
      { health_info with
        batteryStatus := BatteryStatus.UNKNOWN, batteryHealth := BatteryHealth.UNKNOWN }⟩
  | some buffer =>
  match pop_back buffer with
  | none => ⟨log, .undefined, health_info⟩
  | some buffer =>
  let health_info := { health_info with batteryHealth := batteryHealthOf buffer }
  -- consider that the battery is always present
  let health_info := { health_info with batteryPresent := true }
  let file := battery.append "capacity"
  match ReadFileToString fs file with
  | none => ⟨log ++ [readFailed file], .returned (),
      { health_info with
        batteryStatus := BatteryStatus.UNKNOWN, batteryHealth := BatteryHealth.UNKNOWN }⟩
  | some buffer =>
  match stoi buffer with
  | .error what => ⟨log, .threw what, health_info⟩
  | .ok v =>
  let health_info := { health_info with batteryLevel := v }
  -- read value in µV, return value in mV
  let file := battery.append "voltage_now"
  match ReadFileToString fs file with
  | none => ⟨log ++ [readFailed file], .returned (),
      { health_info with
        batteryStatus := BatteryStatus.UNKNOWN, batteryHealth := BatteryHealth.UNKNOWN }⟩
  | some buffer =>
  match stoi buffer with
  | .error what => ⟨log, .threw what, health_info⟩
  | .ok v =>
  let health_info := { health_info with batteryVoltageMillivolts := v.tdiv 1000 }
  let file := battery.append "temp"
  match ReadFileToString fs file with
  | none => ⟨log ++ [readFailed file], .returned (),
      { health_info with
        batteryStatus := BatteryStatus.UNKNOWN, batteryHealth := BatteryHealth.UNKNOWN }⟩
  | some buffer =>
  match stoi buffer with
  | .error what => ⟨log, .threw what, health_info⟩
  | .ok v =>
  -- read value in units of 0.1°C, return value as it is
  let health_info := { health_info with batteryTemperatureTenthsCelsius := v }
  let file := battery.append "current_now"
  match ReadFileToString fs file with
  | none => ⟨log ++ [readFailed file], .returned (),
      { health_info with
        batteryStatus := BatteryStatus.UNKNOWN, batteryHealth := BatteryHealth.UNKNOWN }⟩
  | some buffer =>
  match stoi buffer with
  | .error what => ⟨log, .threw what, health_info⟩
  | .ok v =>
  -- read value in units of microamps, return value as it is
  let health_info := { health_info with batteryCurrentMicroamps := v }
  let file := battery.append "cycle_count"
  match ReadFileToString fs file with
  | none => ⟨log ++ [readFailed file], .returned (),
      { health_info with
        batteryStatus := BatteryStatus.UNKNOWN, batteryHealth := BatteryHealth.UNKNOWN }⟩
  | some buffer =>
  match stoi buffer with
  | .error what => ⟨log, .threw what, health_info⟩
  | .ok v =>
  let health_info := { health_info with batteryCycleCount := v }
  let file := battery.append "charge_full"
  match ReadFileToString fs file with
  | none => ⟨log ++ [readFailed file], .returned (),
      { health_info with
        batteryStatus := BatteryStatus.UNKNOWN, batteryHealth := BatteryHealth.UNKNOWN }⟩
  | some buffer =>
  match stoi buffer with
  | .error what => ⟨log, .threw what, health_info⟩
  | .ok v =>
  -- read value in units of microamps-hour, return value as it is
  let health_info := { health_info with batteryFullChargeUah := v }
  let file := battery.append "charge_counter"
  match ReadFileToString fs file with
  | none => ⟨log ++ [readFailed file], .returned (),
      { health_info with
        batteryStatus := BatteryStatus.UNKNOWN, batteryHealth := BatteryHealth.UNKNOWN }⟩
  | some buffer =>
  match stoi buffer with
  | .error what => ⟨log, .threw what, health_info⟩
  | .ok v =>
  let health_info := { health_info with batteryChargeCounterUah := v }
  let file := battery.append "technology"
  match ReadFileToString fs file with
  | none => ⟨log ++ [readFailed file], .returned (),
      { health_info with
        batteryStatus := BatteryStatus.UNKNOWN, batteryHealth := BatteryHealth.UNKNOWN }⟩
  | some buffer =>
  let health_info := { health_info with batteryTechnology := c_str buffer }
  ⟨log, .returned (), health_info⟩

/-- Method `HealthImpl::getChargeCounterUah`; the state is `*out`. -/
def getChargeCounterUah (fs : FileSystem) (out : Int) : Run ScopedAStatus Int :=
  let file := battery.append "charge_counter"
  match ReadFileToString fs file with
  | none =>
    ⟨[readFailed file],
      .returned (ScopedAStatus.fromExceptionCode EX_UNSUPPORTED_OPERATION), out⟩
  | some buffer =>
  match stoi buffer with
  | .error what => ⟨[], .threw what, out⟩
  | .ok v =>
  let out := v
  ⟨[], .returned ScopedAStatus.ok, out⟩

/-- Method `HealthImpl::getCurrentNowMicroamps`; the state is `*out`. -/
def getCurrentNowMicroamps (fs : FileSystem) (out : Int) : Run ScopedAStatus Int :=
  let file := battery.append "current_now"
  match ReadFileToString fs file with
  | none =>
    ⟨[readFailed file],
      .returned (ScopedAStatus.fromExceptionCode EX_UNSUPPORTED_OPERATION), out⟩
  | some buffer =>
  match stoi buffer with
  | .error what => ⟨[], .threw what, out⟩
  | .ok v =>
  let out := v
  ⟨[], .returned ScopedAStatus.ok, out⟩

/-- Method `HealthImpl::getCurrentAverageMicroamps`; the state is `*out`. -/
def getCurrentAverageMicroamps (fs : FileSystem) (out : Int) : Run ScopedAStatus Int :=
  let file := battery.append "current_avg"
  match ReadFileToString fs file with
  | none =>
    ⟨[readFailed file],
      .returned (ScopedAStatus.fromExceptionCode EX_UNSUPPORTED_OPERATION), out⟩
  | some buffer =>
  match stoi buffer with
  | .error what => ⟨[], .threw what, out⟩
  | .ok v =>
  let out := v
  ⟨[], .returned ScopedAStatus.ok, out⟩

/-- Method `HealthImpl::getCapacity`; the state is `*out`. -/
def getCapacity (fs : FileSystem) (out : Int) : Run ScopedAStatus Int :=
  let file := battery.append "capacity"
  match ReadFileToString fs file with
  | none =>
    ⟨[readFailed file],
      .returned (ScopedAStatus.fromExceptionCode EX_UNSUPPORTED_OPERATION), out⟩
  | some buffer =>
  match stoi buffer with
  | .error what => ⟨[], .threw what, out⟩
  | .ok v =>
  let out := v
  ⟨[], .returned ScopedAStatus.ok, out⟩

/-- Method `HealthImpl::getChargeStatus`, `health.cpp` lines 317-344; the state
is `*out`. -/
def getChargeStatus (fs : FileSystem) (out : BatteryStatus) :
    Run ScopedAStatus BatteryStatus :=
  let file := battery.append "status"
  match ReadFileToString fs file with
  | none =>
    ⟨[readFailed file],
      .returned (ScopedAStatus.fromExceptionCode EX_UNSUPPORTED_OPERATION), out⟩
  | some buffer =>
  match pop_back buffer with
  | none => ⟨[], .undefined, out⟩
  | some buffer =>
  let out :=
    if buffer = "Charging" then
      BatteryStatus.CHARGING
    else if buffer = "Discharging" then
      BatteryStatus.DISCHARGING
    else if buffer = "Not-charging" then
      BatteryStatus.NOT_CHARGING
    else if buffer = "Full" then
      BatteryStatus.FULL
    else
      BatteryStatus.UNKNOWN
  ⟨[], .returned ScopedAStatus.ok, out⟩

/-- The 64-bit word `v` read back as the `int64_t` (`long` in AIDL) it is stored
in. -/
def toInt64 (v : Nat) : Int :=
  if v % 2 ^ 64 < 2 ^ 63 then (v % 2 ^ 64 : Nat) else ((v % 2 ^ 64 : Nat) : Int) - 2 ^ 64

/-- The AIDL parcelable `DiskStats`: eleven `long` counters. -/
structure DiskStats where
  reads : Int
  readMerges : Int
  readSectors : Int
  readTicks : Int
  writes : Int
  writeMerges : Int
  writeSectors : Int
  writeTicks : Int
  ioInFlight : Int
  ioTicks : Int
  ioInQueue : Int
  deriving DecidableEq, Repr

/-- Value initialisation `DiskStats bootDeviceStat = {}`. -/
def DiskStats.zero : DiskStats := ⟨0, 0, 0, 0, 0, 0, 0, 0, 0, 0, 0⟩

/-- The store `*(reinterpret_cast<uint64_t*>(&bootDeviceStat) + i) = v` for
`i < 11`. -/
def DiskStats.setWord (i v : Nat) (stats : DiskStats) : DiskStats :=
  match i with
  | 0 => { stats with reads := toInt64 v }
  | 1 => { stats with readMerges := toInt64 v }
  | 2 => { stats with readSectors := toInt64 v }
  | 3 => { stats with readTicks := toInt64 v }
  | 4 => { stats with writes := toInt64 v }
  | 5 => { stats with writeMerges := toInt64 v }
  | 6 => { stats with writeSectors := toInt64 v }
  | 7 => { stats with writeTicks := toInt64 v }
  | 8 => { stats with ioInFlight := toInt64 v }
  | 9 => { stats with ioTicks := toInt64 v }
  | 10 => { stats with ioInQueue := toInt64 v }
  | _ => stats

/-- Method `HealthImpl::getDiskStats`, `health.cpp` lines 354-378; the state is
the caller's `*out`. -/
def getDiskStats (EMMC_STORAGE : Bool) (fs : FileSystem) (out : List DiskStats) :
    Run ScopedAStatus (List DiskStats) :=
  let stats : List DiskStats := []
  -- Integrate only the boot device stats (eMMC or microSD)
  let bootDeviceStat := DiskStats.zero
  match ReadFileToString fs (kBootDeviceStatsFile EMMC_STORAGE) with
  | none =>
    ⟨[readFailed (kBootDeviceStatsFile EMMC_STORAGE)],
      .returned (ScopedAStatus.fromExceptionCode EX_UNSUPPORTED_OPERATION), out⟩
  | some buffer =>
  let ss := stringstream.ofString buffer
  let (_, bootDeviceStat) := extractWords DiskStats.setWord kDiskStatsSize 0 ss bootDeviceStat
  -- stats.resize(1); stats[0] = bootDeviceStat;
  let stats :=
    (stats.take 1 ++ List.replicate (1 - stats.length) DiskStats.zero).set 0 bootDeviceStat
  let out := stats
  ⟨[], .returned ScopedAStatus.ok, out⟩

end aidl

/-! ## Vocabulary of the statements -/

/-- The fourteen attribute files of the HAL 2.0 and HAL 2.1 samplers, in the
order in which the samplers read them. -/
def attributeFiles : List String :=
  [battery.append "technology", battery.append "capacity", battery.append "current_max",
   battery.append "current_now", battery.append "voltage_max", battery.append "voltage_now",
   battery.append "temp", battery.append "cycle_count", battery.append "charge_full",
   battery.append "charge_counter", acOnlineFile, usbOnlineFile,
   battery.append "status", battery.append "health"]

/-- A filesystem holding every file the samplers read. -/
def sysfs : FileSystem := fun file =>
  if file = battery.append "technology" then some "Li-ion\n"
  else if file = battery.append "capacity" then some "85"
  else if file = battery.append "current_max" then some "2000000\n"
  else if file = battery.append "current_now" then some "-150000\n"
  else if file = battery.append "current_avg" then some "-140000\n"
  else if file = battery.append "voltage_max" then some "4200000\n"
  else if file = battery.append "voltage_now" then some "3700000\n"
  else if file = battery.append "temp" then some "255\n"
  else if file = battery.append "cycle_count" then some "12\n"
  else if file = battery.append "charge_full" then some "3000000\n"
  else if file = battery.append "charge_counter" then some "2550000\n"
  else if file = acOnlineFile then some "1\n"
  else if file = usbOnlineFile then some "0\n"
  else if file = battery.append "status" then some "Charging\n"
  else if file = battery.append "health" then some "Good\n"
  else if file = kBootDeviceStatsFile false then
    some "    4096      128   262144     1500     2048       64   131072      900        0     2000     2400\n"
  else none

/-- The filesystem `fs` with `file` made unreadable. -/
def FileSystem.without (fs : FileSystem) (file : String) : FileSystem :=
  fun f => if f = file then none else fs f

/-- The filesystem `fs` with `text` as the content of `file`. -/
def FileSystem.withFile (fs : FileSystem) (file text : String) : FileSystem :=
  fun f => if f = file then some text else fs f

/-- A `BatteryProperties` record to start from. -/
def props0 : BatteryProperties :=
  ⟨false, false, true, 0, 0, BatteryStatus.FULL, BatteryHealth.COLD, false, 0, 0, 0, 0, 0, 0, 0, "?"⟩

/-- An instance of the platform conversions, the HAL 1.0 record being a copy of
`BatteryProperties`. -/
def conv0 : HalConversion BatteryProperties := ⟨fun info => info, fun p _ => p⟩

/-- A HAL 2.1 record to start from. -/
def info21 : V2_1.HealthInfo BatteryProperties Unit Unit := ⟨⟨props0, ()⟩, ()⟩

/-- The nine attribute files whose text the HAL 2.0 and HAL 2.1 samplers hand to
`std::stoi`. -/
def numericFiles : List String :=
  [battery.append "capacity", battery.append "current_max", battery.append "current_now",
   battery.append "voltage_max", battery.append "voltage_now", battery.append "temp",
   battery.append "cycle_count", battery.append "charge_full", battery.append "charge_counter"]

/-- The twelve battery attribute files of the AIDL sampler, in the order in which
it reads them (after the two charger `online` files). -/
def aidlBatteryFiles : List String :=
  [battery.append "current_max", battery.append "voltage_max", battery.append "status",
   battery.append "health", battery.append "capacity", battery.append "voltage_now",
   battery.append "temp", battery.append "current_now", battery.append "cycle_count",
   battery.append "charge_full", battery.append "charge_counter", battery.append "technology"]

/-- The first file of `files` that cannot be read, with its position counted
from `i`. -/
def firstUnreadable (fs : FileSystem) : List String → Nat → Option (Nat × String)
  | [], _ => none
  | f :: rest, i =>
    match fs f with
    | none => some (i, f)
    | some _ => firstUnreadable fs rest (i + 1)

/-- The AIDL record fields written for the battery attributes number `k` and
later (positions in `aidlBatteryFiles`) hold in `after` the values of `before`;
`batteryPresent` is written between attributes 3 and 4. The two fields
`batteryStatus` and `batteryHealth` are left out. -/
def keptFrom (k : Nat) (before after : aidl.HealthInfo) : Prop :=
  (k ≤ 0 → after.maxChargingCurrentMicroamps = before.maxChargingCurrentMicroamps) ∧
  (k ≤ 1 → after.maxChargingVoltageMicrovolts = before.maxChargingVoltageMicrovolts) ∧
  (k ≤ 3 → after.batteryPresent = before.batteryPresent) ∧
  (k ≤ 4 → after.batteryLevel = before.batteryLevel) ∧
  (k ≤ 5 → after.batteryVoltageMillivolts = before.batteryVoltageMillivolts) ∧
  (k ≤ 6 → after.batteryTemperatureTenthsCelsius = before.batteryTemperatureTenthsCelsius) ∧
  (k ≤ 7 → after.batteryCurrentMicroamps = before.batteryCurrentMicroamps) ∧
  (k ≤ 8 → after.batteryCycleCount = before.batteryCycleCount) ∧
  (k ≤ 9 → after.batteryFullChargeUah = before.batteryFullChargeUah) ∧
  (k ≤ 10 → after.batteryChargeCounterUah = before.batteryChargeCounterUah) ∧
  (k ≤ 11 → after.batteryTechnology = before.batteryTechnology)

/-- The charger flag the AIDL sampler stores for the outcome of reading an
`online` file. -/
def onlineFlag : Option String → Bool
  | none => false
  | some buffer => buffer != "0"

/-- An AIDL record to start from. -/
def health0 : aidl.HealthInfo :=
  ⟨false, false, true, 0, 0, BatteryStatus.FULL, BatteryHealth.COLD, false, 0, 0, 0, 0, 0, 0, 0, "?"⟩

/-- The label table of the battery status (specification §3 and §4.4). -/
def statusLabels : List (String × BatteryStatus) :=
  [("Charging", BatteryStatus.CHARGING), ("Discharging", BatteryStatus.DISCHARGING),
   ("Not-charging", BatteryStatus.NOT_CHARGING), ("Full", BatteryStatus.FULL)]

/-- The label table of the battery health (specification §3 and §4.4). -/
def healthLabels : List (String × BatteryHealth) :=
  [("Good", BatteryHealth.GOOD), ("Overheat", BatteryHealth.OVERHEAT),
   ("Dead", BatteryHealth.DEAD), ("Overvoltage", BatteryHealth.OVER_VOLTAGE),
   ("Failure", BatteryHealth.UNSPECIFIED_FAILURE)]

/-- The text without its last character. -/
def dropLastChar (text : String) : String := ⟨text.data.dropLast⟩

/-- The decoder `decodeEnum` in the words of the specification (§4.2): strip
exactly one trailing character, compare exactly against the label table, return
`default` on no match. -/
def decodeEnum {α : Type} (text : String) (labelTable : List (String × α)) (default : α) : α :=
  (labelTable.lookup (dropLastChar text)).getD default

/-- A white-space run. -/
def IsSpace (ws : List Char) : Prop := ∀ c ∈ ws, isspace c = true

/-- A valid unsigned 64-bit decimal token: a non-empty run of digits whose value
is at most `ULLONG_MAX`. -/
def IsToken (tok : List Char) : Prop :=
  tok ≠ [] ∧ (∀ c ∈ tok, isdigit c = true) ∧ decimalValue tok ≤ ULLONG_MAX

/-- The text made of the tokens of `pieces`, each followed by its separator. -/
def tokensText : List (List Char × List Char) → List Char
  | [] => []
  | (tok, sep) :: rest => tok ++ sep ++ tokensText rest

/-- The pieces are valid tokens separated by white space: every separator is a
white-space run, and it is not empty when another token follows. -/
def Separated : List (List Char × List Char) → Prop
  | [] => True
  | (tok, sep) :: rest => IsToken tok ∧ IsSpace sep ∧ (rest ≠ [] → sep ≠ []) ∧ Separated rest

/-- A malformed token: text that starts with a character that is no digit, no
sign and no white space. -/
def Malformed (tail : List Char) : Prop :=
  ∃ c rest, tail = c :: rest ∧ isdigit c = false ∧ isspace c = false ∧ c ≠ '+' ∧ c ≠ '-'

/-- The values of the tokens, in order. -/
def tokenValues (pieces : List (List Char × List Char)) : List Nat :=
  pieces.map (fun piece => decimalValue piece.1)

/-- The stores `word i := v₀`, `word (i+1) := v₁`, ... in turn. -/
def storeFrom {D : Type} (setWord : Nat → Nat → D → D) : Nat → List Nat → D → D
  | _, [], stats => stats
  | i, v :: vs, stats => storeFrom setWord (i + 1) vs (setWord i v stats)

/-- The value the extraction stores for what follows the last token: none when
nothing follows, 0 when the text goes on with a malformed token. -/
def tailValues (tail : List Char) : List Nat :=
  if tail.isEmpty then [] else [0]

/-- The record `stats` of `get_disk_stats` and `bootDeviceStat` of the HAL 2.1
`getDiskStats` before the counters are read. -/
def bootDeviceStat0 (EMMC_STORAGE : Bool) : DiskStats :=
  { DiskStats.zero with attr := ⟨true, true, kBootDeviceName EMMC_STORAGE⟩ }

/-- The eleven counters of an AIDL record, in declaration order. -/
def aidl.DiskStats.counters (stats : aidl.DiskStats) : List Int :=
  [stats.reads, stats.readMerges, stats.readSectors, stats.readTicks, stats.writes,
   stats.writeMerges, stats.writeSectors, stats.writeTicks, stats.ioInFlight,
   stats.ioTicks, stats.ioInQueue]

/-- The text "1 2 3" as separated tokens. -/
def pieces123 : List (List Char × List Char) :=
  [(['1'], [' ']), (['2'], [' ']), (['3'], [])]

/-- The text "1 2 " as separated tokens; "1 2 x" is this text followed by "x". -/
def pieces12 : List (List Char × List Char) :=
  [(['1'], [' ']), (['2'], [' '])]

/-- An optional sign: nothing, `+` or `-`. -/
def IsSign (sign : List Char) : Prop := sign = [] ∨ sign = ['+'] ∨ sign = ['-']

/-- The integer that a sign and a run of decimal digits denote. -/
def signedValue (sign digits : List Char) : Int :=
  if sign = ['-'] then -((decimalValue digits : Nat) : Int) else ((decimalValue digits : Nat) : Int)

/-- A run of one or more decimal digits. -/
def IsDigits (digits : List Char) : Prop := digits ≠ [] ∧ ∀ c ∈ digits, isdigit c = true

/-- Text that does not start with a decimal digit. -/
def NoDigitAhead (rest : List Char) : Prop := ∀ c r, rest = c :: r → isdigit c = false

/-- Text that starts with neither white space nor a sign. -/
def NoSpaceOrSignAhead (rest : List Char) : Prop :=
  ∀ c r, rest = c :: r → isspace c = false ∧ c ≠ '+' ∧ c ≠ '-'

/-- The behaviour of a per-field accessor `get` that reads the one attribute file
`file` and decodes its text with `decode` (`none`: the text does not decode):
it returns OK iff the file is readable and its text decodes, and then `*out` is
the decoded value; it returns `EX_UNSUPPORTED_OPERATION`, having logged the file
and with `*out` unwritten, when the file is unreadable; it returns no status and
leaves `*out` unwritten when the text does not decode; and it gives the same
result on two filesystems that agree on `file`. -/
def AccessorContract {α : Type} (get : FileSystem → α → Run aidl.ScopedAStatus α)
    (file : String) (decode : String → Option α) : Prop :=
  (∀ fs out, (get fs out).completion = .returned aidl.ScopedAStatus.ok ↔
    ∃ t v, fs file = some t ∧ decode t = some v) ∧
  (∀ fs out t v, fs file = some t → decode t = some v →
    get fs out = ⟨[], .returned aidl.ScopedAStatus.ok, v⟩) ∧
  (∀ fs out, fs file = none →
    get fs out = ⟨[readFailed file],
      .returned (aidl.ScopedAStatus.fromExceptionCode aidl.EX_UNSUPPORTED_OPERATION), out⟩) ∧
  (∀ fs out t, fs file = some t → decode t = none →
    (∀ status, (get fs out).completion ≠ .returned status) ∧ (get fs out).state = out) ∧
  (∀ fs fs2 out, fs file = fs2 file → get fs out = get fs2 out)

/-- The integer decode as a partial function: the value `std::stoi` returns, if
it returns. -/
def decodeInt (text : String) : Option Int :=
  match stoi text with
  | .ok v => some v
  | .error _ => none

/-- The result of the HAL 2.1 sampler in the encoding of the HAL 2.0 sampler:
`true` is 0, `false` is 1. -/
def resultCode : Completion Bool → Completion Int
  | .returned true => .returned 0
  | .returned false => .returned 1
  | .threw what => .threw what
  | .undefined => .undefined

/-- Whether a sampler gets past the attribute file `file`: the file is readable
and the decode the samplers apply to its text is defined on it, that is, the
text of a numeric file (`numericFiles`) is accepted by `std::stoi` and the text
of `status` or `health` is not empty. Any text of another file passes. -/
def passes (fs : FileSystem) (file : String) : Bool :=
  match fs file with
  | none => false
  | some text =>
    if file ∈ numericFiles then
      match stoi text with
      | .ok _ => true
      | .error _ => false
    else if file = battery.append "status" ∨ file = battery.append "health" then
      text != ""
    else
      true

/-! ## Theorems -/

/-- When `BoardBatteryUpdate` returns `true`, each of the fourteen attribute files
was readable. -/
theorem BoardBatteryUpdate_true_readable (fs : FileSystem) (p : BatteryProperties)
    (h : (V2_1.BoardBatteryUpdate fs p).completion = .returned true) :
    ∀ f ∈ attributeFiles, fs f ≠ none := by
  unfold V2_1.BoardBatteryUpdate at h
  simp only [ReadFileToString] at h
  repeat (split at h <;> try (cases h))
  intro f hf
  simp only [attributeFiles, List.mem_cons, List.mem_singleton, List.not_mem_nil, or_false] at hf
  rcases hf with rfl | rfl | rfl | rfl | rfl | rfl | rfl | rfl | rfl | rfl | rfl | rfl | rfl | rfl <;>
    simp [*]

/-- C1: in the HAL 2.1 sampler, whenever one of the fourteen attribute files
cannot be read, `BoardBatteryUpdate` does not return `true` (the sample fails) and
`UpdateHealthInfo` leaves the caller's health record exactly as it was: the only
write to it, `convertToHealthInfo`, is not reached. -/
theorem UpdateHealthInfo_unreadable_keeps_record {L E E1 : Type} (conv : HalConversion L)
    (fs : FileSystem) (health_info : V2_1.HealthInfo L E E1)
    (h : ∃ f ∈ attributeFiles, fs f = none) :
    (V2_1.BoardBatteryUpdate fs
        (conv.convertFromHealthInfo health_info.legacy.legacy)).completion ≠ .returned true ∧
      (V2_1.UpdateHealthInfo conv fs health_info).state = health_info := by
  obtain ⟨f, hf, hnone⟩ := h
  have hc : (V2_1.BoardBatteryUpdate fs
      (conv.convertFromHealthInfo health_info.legacy.legacy)).completion ≠ .returned true :=
    fun hc => BoardBatteryUpdate_true_readable fs _ hc f hf hnone
  refine ⟨hc, ?_⟩
  unfold V2_1.UpdateHealthInfo
  cases hr : (V2_1.BoardBatteryUpdate fs
      (conv.convertFromHealthInfo health_info.legacy.legacy)).completion with
  | returned res =>
    cases res with
    | true => exact absurd hr hc
    | false => simp [hr]
  | threw what => simp [hr]
  | undefined => simp [hr]

/-- C1 at a filesystem in which only `capacity` is missing. -/
theorem UpdateHealthInfo_unreadable_keeps_record_witness :
    (∃ f ∈ attributeFiles, sysfs.without (battery.append "capacity") f = none) ∧
      (V2_1.BoardBatteryUpdate (sysfs.without (battery.append "capacity"))
          (conv0.convertFromHealthInfo info21.legacy.legacy)).completion ≠ .returned true ∧
      (V2_1.UpdateHealthInfo conv0 (sysfs.without (battery.append "capacity")) info21).state
        = info21 :=
  ⟨⟨battery.append "capacity", by decide, by decide⟩,
    UpdateHealthInfo_unreadable_keeps_record conv0 _ info21
      ⟨battery.append "capacity", by decide, by decide⟩⟩

/-- The AIDL sampler, run to its end: the two charger flags, and what a run that
returns leaves behind when a battery attribute file is unreadable. -/
theorem aidl_UpdateHealthInfo_run (fs : FileSystem) (hi : aidl.HealthInfo)
    (r : Run Unit aidl.HealthInfo) (hr : aidl.UpdateHealthInfo fs hi = r) :
    r.state.chargerAcOnline = onlineFlag (fs acOnlineFile) ∧
    r.state.chargerUsbOnline = onlineFlag (fs usbOnlineFile) ∧
    (r.completion = .returned () → ∀ k f,
      firstUnreadable fs aidlBatteryFiles 0 = some (k, f) →
      r.log.getLast? = some (readFailed f) ∧
      r.state.batteryStatus = BatteryStatus.UNKNOWN ∧
      r.state.batteryHealth = BatteryHealth.UNKNOWN ∧
      keptFrom k hi r.state) := by
  unfold aidl.UpdateHealthInfo at hr
  simp only [ReadFileToString] at hr
  rcases hac : fs acOnlineFile with _ | a <;> rcases husb : fs usbOnlineFile with _ | u <;>
    simp only [hac, husb] at hr <;> (repeat' (split at hr)) <;>
    (subst hr; refine ⟨rfl, rfl, ?_⟩; intro hc k f hk;
     first
     | (cases hc; done)
     | (simp only [aidlBatteryFiles, firstUnreadable, *] at hk
        first
        | (cases hk; done)
        | (simp only [Option.some.injEq, Prod.mk.injEq] at hk
           obtain ⟨rfl, rfl⟩ := hk
           refine ⟨by simp, rfl, rfl, ?_⟩
           simp [keptFrom])))

/-- C2 (counterexample): with only the AC charger `online` file unreadable the
AIDL sampler is not aborted: it logs that one failure, reads on to the last
attribute and fills the record with values decoded in that pass (level 85 from
"85", 3700 mV from "3700000", technology, status, health). -/
theorem aidl_sample_not_aborted_by_online_failure :
    sysfs.without acOnlineFile acOnlineFile = none ∧
    aidl.UpdateHealthInfo (sysfs.without acOnlineFile) health0 =
      ⟨[readFailed acOnlineFile], .returned (),
        { chargerAcOnline := false, chargerUsbOnline := true, chargerWirelessOnline := false,
          maxChargingCurrentMicroamps := 2000000, maxChargingVoltageMicrovolts := 4200000,
          batteryStatus := BatteryStatus.CHARGING, batteryHealth := BatteryHealth.GOOD,
          batteryPresent := true, batteryLevel := 85, batteryVoltageMillivolts := 3700,
          batteryTemperatureTenthsCelsius := 255, batteryCurrentMicroamps := -150000,
          batteryCycleCount := 12, batteryFullChargeUah := 3000000,
          batteryChargeCounterUah := 2550000, batteryTechnology := "Li-ion\n" }⟩ := by
  decide

/-- C2 (amended): in the AIDL sampler a failed read of a charger `online` file
does not abort the sample, the flag is set to `false` (and to `text != "0"` when
the read succeeds) whatever happens later. A failed read of a battery attribute
does: when the sampler returns and `f`, number `k` in reading order, is the first
unreadable battery attribute file, the last line logged names `f`, `batteryStatus`
and `batteryHealth` are `UNKNOWN`, and the fields of attribute `k` and of every
later attribute hold their values from before the call. -/
theorem aidl_sample_aborted_at_first_unreadable_battery_attribute (fs : FileSystem)
    (hi : aidl.HealthInfo) :
    (aidl.UpdateHealthInfo fs hi).state.chargerAcOnline = onlineFlag (fs acOnlineFile) ∧
    (aidl.UpdateHealthInfo fs hi).state.chargerUsbOnline = onlineFlag (fs usbOnlineFile) ∧
    ((aidl.UpdateHealthInfo fs hi).completion = .returned () → ∀ k f,
      firstUnreadable fs aidlBatteryFiles 0 = some (k, f) →
      (aidl.UpdateHealthInfo fs hi).log.getLast? = some (readFailed f) ∧
      (aidl.UpdateHealthInfo fs hi).state.batteryStatus = BatteryStatus.UNKNOWN ∧
      (aidl.UpdateHealthInfo fs hi).state.batteryHealth = BatteryHealth.UNKNOWN ∧
      keptFrom k hi (aidl.UpdateHealthInfo fs hi).state) :=
  aidl_UpdateHealthInfo_run fs hi _ rfl

/-- C2 (amended) at a filesystem without the AC `online` file and without the
`capacity` file: attribute number 4 is the first unreadable one. -/
theorem aidl_sample_aborted_at_first_unreadable_battery_attribute_witness :
    (aidl.UpdateHealthInfo ((sysfs.without acOnlineFile).without (battery.append "capacity"))
        health0).completion = .returned () ∧
    firstUnreadable ((sysfs.without acOnlineFile).without (battery.append "capacity"))
        aidlBatteryFiles 0 = some (4, battery.append "capacity") ∧
    (aidl.UpdateHealthInfo ((sysfs.without acOnlineFile).without (battery.append "capacity"))
        health0).log.getLast? = some (readFailed (battery.append "capacity")) ∧
    (aidl.UpdateHealthInfo ((sysfs.without acOnlineFile).without (battery.append "capacity"))
        health0).state.batteryStatus = BatteryStatus.UNKNOWN ∧
    (aidl.UpdateHealthInfo ((sysfs.without acOnlineFile).without (battery.append "capacity"))
        health0).state.batteryHealth = BatteryHealth.UNKNOWN ∧
    keptFrom 4 health0
      (aidl.UpdateHealthInfo ((sysfs.without acOnlineFile).without (battery.append "capacity"))
        health0).state :=
  ⟨by decide, by decide,
    (aidl_sample_aborted_at_first_unreadable_battery_attribute
      ((sysfs.without acOnlineFile).without (battery.append "capacity")) health0).2.2
      (by decide) 4 (battery.append "capacity") (by decide)⟩

/-- The call `pop_back()` is outside its precondition only on the empty string. -/
theorem pop_back_eq_none (t : String) (h : pop_back t = none) : t = "" := by
  unfold pop_back at h
  split at h
  · rcases t with ⟨_ | ⟨c, l⟩⟩
    · rfl
    · simp at *
  · cases h

/-- Every run of `V2_1.BoardBatteryUpdate` on a filesystem whose numeric files hold
valid numerals and whose `status` and `health` texts are not empty. -/
theorem BoardBatteryUpdate_run (fs : FileSystem) (p : BatteryProperties) (r : Run Bool BatteryProperties)
    (hr : V2_1.BoardBatteryUpdate fs p = r)
    (hnum : ∀ f ∈ numericFiles, ∀ t what, fs f = some t → stoi t = .error what → False)
    (hst : fs (battery.append "status") = some "" → False)
    (hhe : fs (battery.append "health") = some "" → False) :
    (r.completion = .returned true ↔ ∀ f ∈ attributeFiles, fs f ≠ none) ∧
    (∀ k f, firstUnreadable fs attributeFiles 0 = some (k, f) →
      r.completion = .returned false ∧ r.log = [readFailed f]) := by
  have h1 := hnum (battery.append "capacity") (by decide)
  have h2 := hnum (battery.append "current_max") (by decide)
  have h3 := hnum (battery.append "current_now") (by decide)
  have h4 := hnum (battery.append "voltage_max") (by decide)
  have h5 := hnum (battery.append "voltage_now") (by decide)
  have h6 := hnum (battery.append "temp") (by decide)
  have h7 := hnum (battery.append "cycle_count") (by decide)
  have h8 := hnum (battery.append "charge_full") (by decide)
  have h9 := hnum (battery.append "charge_counter") (by decide)
  clear hnum
  unfold V2_1.BoardBatteryUpdate at hr
  simp only [ReadFileToString] at hr
  repeat' (split at hr)
  all_goals (subst hr)
  all_goals (
    first
    | (exfalso; with_reducible (first
        | exact h1 _ _ (by assumption) (by assumption)
        | exact h2 _ _ (by assumption) (by assumption)
        | exact h3 _ _ (by assumption) (by assumption)
        | exact h4 _ _ (by assumption) (by assumption)
        | exact h5 _ _ (by assumption) (by assumption)
        | exact h6 _ _ (by assumption) (by assumption)
        | exact h7 _ _ (by assumption) (by assumption)
        | exact h8 _ _ (by assumption) (by assumption)
        | exact h9 _ _ (by assumption) (by assumption)))
    | (exfalso; have := pop_back_eq_none _ (by assumption); subst this;
       with_reducible (first | exact hst (by assumption) | exact hhe (by assumption)))
    | (clear h1 h2 h3 h4 h5 h6 h7 h8 h9 hst hhe
       simp only [attributeFiles, List.forall_mem_cons, firstUnreadable, *]
       simp))

/-- Every run of `V2_0.healthd_board_battery_update` on a filesystem whose numeric files hold
valid numerals and whose `status` and `health` texts are not empty. -/
theorem healthd_board_battery_update_run (fs : FileSystem) (p : BatteryProperties) (r : Run Int BatteryProperties)
    (hr : V2_0.healthd_board_battery_update fs p = r)
    (hnum : ∀ f ∈ numericFiles, ∀ t what, fs f = some t → stoi t = .error what → False)
    (hst : fs (battery.append "status") = some "" → False)
    (hhe : fs (battery.append "health") = some "" → False) :
    (r.completion = .returned 0 ↔ ∀ f ∈ attributeFiles, fs f ≠ none) ∧
    (∀ k f, firstUnreadable fs attributeFiles 0 = some (k, f) →
      r.completion = .returned 1 ∧ r.log = [readFailed f]) := by
  have h1 := hnum (battery.append "capacity") (by decide)
  have h2 := hnum (battery.append "current_max") (by decide)
  have h3 := hnum (battery.append "current_now") (by decide)
  have h4 := hnum (battery.append "voltage_max") (by decide)
  have h5 := hnum (battery.append "voltage_now") (by decide)
  have h6 := hnum (battery.append "temp") (by decide)
  have h7 := hnum (battery.append "cycle_count") (by decide)
  have h8 := hnum (battery.append "charge_full") (by decide)
  have h9 := hnum (battery.append "charge_counter") (by decide)
  clear hnum
  unfold V2_0.healthd_board_battery_update at hr
  simp only [ReadFileToString] at hr
  repeat' (split at hr)
  all_goals (subst hr)
  all_goals (
    first
    | (exfalso; with_reducible (first
        | exact h1 _ _ (by assumption) (by assumption)
        | exact h2 _ _ (by assumption) (by assumption)
        | exact h3 _ _ (by assumption) (by assumption)
        | exact h4 _ _ (by assumption) (by assumption)
        | exact h5 _ _ (by assumption) (by assumption)
        | exact h6 _ _ (by assumption) (by assumption)
        | exact h7 _ _ (by assumption) (by assumption)
        | exact h8 _ _ (by assumption) (by assumption)
        | exact h9 _ _ (by assumption) (by assumption)))
    | (exfalso; have := pop_back_eq_none _ (by assumption); subst this;
       with_reducible (first | exact hst (by assumption) | exact hhe (by assumption)))
    | (clear h1 h2 h3 h4 h5 h6 h7 h8 h9 hst hhe
       simp only [attributeFiles, List.forall_mem_cons, firstUnreadable, *]
       simp))

/-- C3 (failing input): all fourteen attribute files are readable and the numeric
ones hold valid numerals, the `status` file is empty. Neither the HAL 2.0 nor the
HAL 2.1 sampler reports success: both reach `buffer.pop_back()` on the empty
buffer. -/
theorem hal_samplers_undefined_on_empty_status :
    (∀ f ∈ attributeFiles, (sysfs.withFile (battery.append "status") "") f ≠ none) ∧
    (∀ f ∈ numericFiles, ∀ t, (sysfs.withFile (battery.append "status") "") f = some t →
      ∃ v, stoi t = .ok v) ∧
    (V2_0.healthd_board_battery_update (sysfs.withFile (battery.append "status") "")
      props0).completion = .undefined ∧
    (V2_1.BoardBatteryUpdate (sysfs.withFile (battery.append "status") "")
      props0).completion = .undefined := by
  refine ⟨by decide, ?_, by decide, by decide⟩
  intro f hf t ht
  simp only [numericFiles, List.mem_cons, List.mem_singleton, List.not_mem_nil, or_false] at hf
  rcases hf with rfl | rfl | rfl | rfl | rfl | rfl | rfl | rfl | rfl <;>
    (cases ht; exact ⟨_, rfl⟩)

/-- The HAL 2.0 and HAL 2.1 samplers read the attribute files in the order of
`attributeFiles`: on every filesystem whose present numeric files hold valid
numerals and whose `status` and `health` texts are not empty, each sampler
reports success exactly when all fourteen files are readable, and otherwise
returns failure having logged the first unreadable file of that order. -/
theorem hal_samplers_fail_at_first_unreadable (fs : FileSystem) (p : BatteryProperties)
    (hnum : ∀ f ∈ numericFiles, ∀ t, fs f = some t → ∃ v, stoi t = .ok v)
    (hst : fs (battery.append "status") ≠ some "")
    (hhe : fs (battery.append "health") ≠ some "") :
    ((V2_0.healthd_board_battery_update fs p).completion = .returned 0 ↔
      ∀ f ∈ attributeFiles, fs f ≠ none) ∧
    (∀ k f, firstUnreadable fs attributeFiles 0 = some (k, f) →
      (V2_0.healthd_board_battery_update fs p).completion = .returned 1 ∧
      (V2_0.healthd_board_battery_update fs p).log = [readFailed f]) ∧
    ((V2_1.BoardBatteryUpdate fs p).completion = .returned true ↔
      ∀ f ∈ attributeFiles, fs f ≠ none) ∧
    (∀ k f, firstUnreadable fs attributeFiles 0 = some (k, f) →
      (V2_1.BoardBatteryUpdate fs p).completion = .returned false ∧
      (V2_1.BoardBatteryUpdate fs p).log = [readFailed f]) := by
  have hnum2 : ∀ f ∈ numericFiles, ∀ t what, fs f = some t → stoi t = .error what → False := by
    intro f hf t what ht hs
    obtain ⟨v, hv⟩ := hnum f hf t ht
    rw [hv] at hs
    cases hs
  have a := healthd_board_battery_update_run fs p _ rfl hnum2 hst hhe
  have b := BoardBatteryUpdate_run fs p _ rfl hnum2 hst hhe
  exact ⟨a.1, a.2, b.1, b.2⟩

/-- With only the `capacity` file absent both samplers fail, naming `capacity`. -/
theorem hal_samplers_fail_at_first_unreadable_witness :
    (V2_0.healthd_board_battery_update (sysfs.without (battery.append "capacity"))
        props0).completion = .returned 1 ∧
    (V2_0.healthd_board_battery_update (sysfs.without (battery.append "capacity"))
        props0).log = [readFailed (battery.append "capacity")] ∧
    (V2_1.BoardBatteryUpdate (sysfs.without (battery.append "capacity"))
        props0).completion = .returned false ∧
    (V2_1.BoardBatteryUpdate (sysfs.without (battery.append "capacity"))
        props0).log = [readFailed (battery.append "capacity")] := by
  have hnum : ∀ f ∈ numericFiles, ∀ t,
      (sysfs.without (battery.append "capacity")) f = some t → ∃ v, stoi t = .ok v := by
    intro f hf t ht
    simp only [numericFiles, List.mem_cons, List.mem_singleton, List.not_mem_nil, or_false] at hf
    rcases hf with rfl | rfl | rfl | rfl | rfl | rfl | rfl | rfl | rfl <;>
      first
      | (cases ht; done)
      | (cases ht; exact ⟨_, rfl⟩)
  have h := hal_samplers_fail_at_first_unreadable (sysfs.without (battery.append "capacity"))
    props0 hnum (by decide) (by decide)
  exact ⟨(h.2.1 1 (battery.append "capacity") (by decide)).1,
    (h.2.1 1 (battery.append "capacity") (by decide)).2,
    (h.2.2.2 1 (battery.append "capacity") (by decide)).1,
    (h.2.2.2 1 (battery.append "capacity") (by decide)).2⟩

/-- The three status chains are the lookup in `statusLabels`. -/
theorem batteryStatusOf_eq_lookup (b : String) :
    V2_0.batteryStatusOf b = (statusLabels.lookup b).getD BatteryStatus.UNKNOWN ∧
    V2_1.batteryStatusOf b = (statusLabels.lookup b).getD BatteryStatus.UNKNOWN ∧
    aidl.batteryStatusOf b = (statusLabels.lookup b).getD BatteryStatus.UNKNOWN := by
  unfold V2_0.batteryStatusOf V2_1.batteryStatusOf aidl.batteryStatusOf statusLabels
  simp only [List.lookup, beq_iff_eq]
  by_cases h1 : b = "Charging"
  · subst h1; decide
  by_cases h2 : b = "Discharging"
  · subst h2; decide
  by_cases h3 : b = "Not-charging"
  · subst h3; decide
  by_cases h4 : b = "Full"
  · subst h4; decide
  have e1 : (b == "Charging") = false := by simpa using h1
  have e2 : (b == "Discharging") = false := by simpa using h2
  have e3 : (b == "Not-charging") = false := by simpa using h3
  have e4 : (b == "Full") = false := by simpa using h4
  simp [h1, h2, h3, h4, e1, e2, e3, e4]

/-- The three health chains are the lookup in `healthLabels`. -/
theorem batteryHealthOf_eq_lookup (b : String) :
    V2_0.batteryHealthOf b = (healthLabels.lookup b).getD BatteryHealth.UNKNOWN ∧
    V2_1.batteryHealthOf b = (healthLabels.lookup b).getD BatteryHealth.UNKNOWN ∧
    aidl.batteryHealthOf b = (healthLabels.lookup b).getD BatteryHealth.UNKNOWN := by
  unfold V2_0.batteryHealthOf V2_1.batteryHealthOf aidl.batteryHealthOf healthLabels
  simp only [List.lookup, beq_iff_eq]
  by_cases h1 : b = "Good"
  · subst h1; decide
  by_cases h2 : b = "Overheat"
  · subst h2; decide
  by_cases h3 : b = "Dead"
  · subst h3; decide
  by_cases h4 : b = "Overvoltage"
  · subst h4; decide
  by_cases h5 : b = "Failure"
  · subst h5; decide
  have e1 : (b == "Good") = false := by simpa using h1
  have e2 : (b == "Overheat") = false := by simpa using h2
  have e3 : (b == "Dead") = false := by simpa using h3
  have e4 : (b == "Overvoltage") = false := by simpa using h4
  have e5 : (b == "Failure") = false := by simpa using h5
  simp [h1, h2, h3, h4, h5, e1, e2, e3, e4, e5]

/-- The method `getChargeStatus` on a readable, non-empty status text. -/
theorem getChargeStatus_eq_decodeEnum (fs : FileSystem) (out : BatteryStatus) (t : String)
    (ht : fs (battery.append "status") = some t) (hne : t ≠ "") :
    aidl.getChargeStatus fs out =
      ⟨[], .returned aidl.ScopedAStatus.ok, decodeEnum t statusLabels BatteryStatus.UNKNOWN⟩ := by
  have hp : pop_back t = some (dropLastChar t) := by
    unfold pop_back dropLastChar
    rcases t with ⟨_ | ⟨c, l⟩⟩
    · exact absurd rfl hne
    · simp
  have hl := (batteryStatusOf_eq_lookup (dropLastChar t)).2.2
  unfold aidl.batteryStatusOf at hl
  unfold aidl.getChargeStatus decodeEnum
  simp only [ReadFileToString, ht, hp]
  rw [hl]

/-- A non-empty text loses its last character in `pop_back()`. -/
theorem pop_back_dropLastChar (t : String) (hne : t ≠ "") :
    pop_back t = some (dropLastChar t) := by
  unfold pop_back dropLastChar
  rcases t with ⟨_ | ⟨c, l⟩⟩
  · exact absurd rfl hne
  · simp

/-- A file that passes is readable. -/
theorem passes_text (fs : FileSystem) (file : String) (h : passes fs file = true) :
    ∃ t, fs file = some t := by
  unfold passes at h
  rcases hf : fs file with _ | t
  · rw [hf] at h; cases h
  · exact ⟨t, rfl⟩

/-- A numeric file that passes holds a numeral that `std::stoi` accepts. -/
theorem passes_numeral (fs : FileSystem) (file : String) (hnum : file ∈ numericFiles)
    (h : passes fs file = true) : ∃ t v, fs file = some t ∧ stoi t = .ok v := by
  unfold passes at h
  rcases hf : fs file with _ | t
  · rw [hf] at h; cases h
  · rw [hf] at h
    simp only [hnum, if_true] at h
    rcases hs : stoi t with what | v
    · rw [hs] at h; cases h
    · exact ⟨t, v, rfl, hs⟩

/-- A `status` or `health` file that passes holds a text on which `pop_back()` is
defined. -/
theorem passes_label (fs : FileSystem) (file : String) (hnum : file ∉ numericFiles)
    (hlabel : file = battery.append "status" ∨ file = battery.append "health")
    (h : passes fs file = true) : ∃ t, fs file = some t ∧ pop_back t = some (dropLastChar t) := by
  unfold passes at h
  rcases hf : fs file with _ | t
  · rw [hf] at h; cases h
  · rw [hf] at h
    simp only [hnum, if_false, hlabel, if_true] at h
    refine ⟨t, rfl, pop_back_dropLastChar t ?_⟩
    rintro rfl
    simp at h

/-- What `healthd_board_battery_update` stores, from the input side: once the files read
before an attribute pass (`passes`), the field of that attribute holds the value
decoded from its text in every run, whatever happens at the files read later. -/
theorem healthd_board_battery_update_stores (fs : FileSystem) (p : BatteryProperties)
    (r : Run Int BatteryProperties) (hr : V2_0.healthd_board_battery_update fs p = r) :
    ((∀ f ∈ attributeFiles.take 5, passes fs f = true) →
      ∀ t v, fs (battery.append "voltage_now") = some t → stoi t = .ok v →
      r.state.batteryVoltage = v.tdiv 1000) ∧
    ((∀ f ∈ attributeFiles.take 6, passes fs f = true) →
      ∀ t v, fs (battery.append "temp") = some t → stoi t = .ok v →
      r.state.batteryTemperature = v.tdiv 10) ∧
    ((∀ f ∈ attributeFiles.take 10, passes fs f = true) →
      ∀ t, fs acOnlineFile = some t → r.state.chargerAcOnline = (t != "0")) ∧
    ((∀ f ∈ attributeFiles.take 11, passes fs f = true) →
      ∀ t, fs usbOnlineFile = some t → r.state.chargerUsbOnline = (t != "0")) ∧
    ((∀ f ∈ attributeFiles.take 12, passes fs f = true) →
      ∀ t, fs (battery.append "status") = some t → t ≠ "" →
      r.state.batteryStatus = V2_0.batteryStatusOf (dropLastChar t)) ∧
    ((∀ f ∈ attributeFiles.take 13, passes fs f = true) →
      ∀ t, fs (battery.append "health") = some t → t ≠ "" →
      r.state.batteryHealth = V2_0.batteryHealthOf (dropLastChar t)) := by
  refine ⟨?_, ?_, ?_, ?_, ?_, ?_⟩
  · intro hp t v ht hv
    obtain ⟨t0, h0⟩ :=
      passes_text fs (battery.append "technology") (hp (battery.append "technology") (by decide))
    obtain ⟨t1, v1, h1, s1⟩ :=
      passes_numeral fs (battery.append "capacity") (by decide)
        (hp (battery.append "capacity") (by decide))
    obtain ⟨t2, v2, h2, s2⟩ :=
      passes_numeral fs (battery.append "current_max") (by decide)
        (hp (battery.append "current_max") (by decide))
    obtain ⟨t3, v3, h3, s3⟩ :=
      passes_numeral fs (battery.append "current_now") (by decide)
        (hp (battery.append "current_now") (by decide))
    obtain ⟨t4, v4, h4, s4⟩ :=
      passes_numeral fs (battery.append "voltage_max") (by decide)
        (hp (battery.append "voltage_max") (by decide))
    unfold V2_0.healthd_board_battery_update at hr
    simp only [ReadFileToString,
      h0, h1, s1, h2, s2, h3, s3, h4, s4, ht, hv] at hr
    repeat' (split at hr)
    all_goals (subst hr; rfl)
  · intro hp t v ht hv
    obtain ⟨t0, h0⟩ :=
      passes_text fs (battery.append "technology") (hp (battery.append "technology") (by decide))
    obtain ⟨t1, v1, h1, s1⟩ :=
      passes_numeral fs (battery.append "capacity") (by decide)
        (hp (battery.append "capacity") (by decide))
    obtain ⟨t2, v2, h2, s2⟩ :=
      passes_numeral fs (battery.append "current_max") (by decide)
        (hp (battery.append "current_max") (by decide))
    obtain ⟨t3, v3, h3, s3⟩ :=
      passes_numeral fs (battery.append "current_now") (by decide)
        (hp (battery.append "current_now") (by decide))
    obtain ⟨t4, v4, h4, s4⟩ :=
      passes_numeral fs (battery.append "voltage_max") (by decide)
        (hp (battery.append "voltage_max") (by decide))
    obtain ⟨t5, v5, h5, s5⟩ :=
      passes_numeral fs (battery.append "voltage_now") (by decide)
        (hp (battery.append "voltage_now") (by decide))
    unfold V2_0.healthd_board_battery_update at hr
    simp only [ReadFileToString,
      h0, h1, s1, h2, s2, h3, s3, h4, s4, h5, s5, ht, hv] at hr
    repeat' (split at hr)
    all_goals (subst hr; rfl)
  · intro hp t ht
    obtain ⟨t0, h0⟩ :=
      passes_text fs (battery.append "technology") (hp (battery.append "technology") (by decide))
    obtain ⟨t1, v1, h1, s1⟩ :=
      passes_numeral fs (battery.append "capacity") (by decide)
        (hp (battery.append "capacity") (by decide))
    obtain ⟨t2, v2, h2, s2⟩ :=
      passes_numeral fs (battery.append "current_max") (by decide)
        (hp (battery.append "current_max") (by decide))
    obtain ⟨t3, v3, h3, s3⟩ :=
      passes_numeral fs (battery.append "current_now") (by decide)
        (hp (battery.append "current_now") (by decide))
    obtain ⟨t4, v4, h4, s4⟩ :=
      passes_numeral fs (battery.append "voltage_max") (by decide)
        (hp (battery.append "voltage_max") (by decide))
    obtain ⟨t5, v5, h5, s5⟩ :=
      passes_numeral fs (battery.append "voltage_now") (by decide)
        (hp (battery.append "voltage_now") (by decide))
    obtain ⟨t6, v6, h6, s6⟩ :=
      passes_numeral fs (battery.append "temp") (by decide) (hp (battery.append "temp") (by decide))
    obtain ⟨t7, v7, h7, s7⟩ :=
      passes_numeral fs (battery.append "cycle_count") (by decide)
        (hp (battery.append "cycle_count") (by decide))
    obtain ⟨t8, v8, h8, s8⟩ :=
      passes_numeral fs (battery.append "charge_full") (by decide)
        (hp (battery.append "charge_full") (by decide))
    obtain ⟨t9, v9, h9, s9⟩ :=
      passes_numeral fs (battery.append "charge_counter") (by decide)
        (hp (battery.append "charge_counter") (by decide))
    unfold V2_0.healthd_board_battery_update at hr
    simp only [ReadFileToString,
      h0, h1, s1, h2, s2, h3, s3, h4, s4, h5, s5, h6, s6, h7, s7, h8, s8, h9, s9, ht] at hr
    repeat' (split at hr)
    all_goals (subst hr; rfl)
  · intro hp t ht
    obtain ⟨t0, h0⟩ :=
      passes_text fs (battery.append "technology") (hp (battery.append "technology") (by decide))
    obtain ⟨t1, v1, h1, s1⟩ :=
      passes_numeral fs (battery.append "capacity") (by decide)
        (hp (battery.append "capacity") (by decide))
    obtain ⟨t2, v2, h2, s2⟩ :=
      passes_numeral fs (battery.append "current_max") (by decide)
        (hp (battery.append "current_max") (by decide))
    obtain ⟨t3, v3, h3, s3⟩ :=
      passes_numeral fs (battery.append "current_now") (by decide)
        (hp (battery.append "current_now") (by decide))
    obtain ⟨t4, v4, h4, s4⟩ :=
      passes_numeral fs (battery.append "voltage_max") (by decide)
        (hp (battery.append "voltage_max") (by decide))
    obtain ⟨t5, v5, h5, s5⟩ :=
      passes_numeral fs (battery.append "voltage_now") (by decide)
        (hp (battery.append "voltage_now") (by decide))
    obtain ⟨t6, v6, h6, s6⟩ :=
      passes_numeral fs (battery.append "temp") (by decide) (hp (battery.append "temp") (by decide))
    obtain ⟨t7, v7, h7, s7⟩ :=
      passes_numeral fs (battery.append "cycle_count") (by decide)
        (hp (battery.append "cycle_count") (by decide))
    obtain ⟨t8, v8, h8, s8⟩ :=
      passes_numeral fs (battery.append "charge_full") (by decide)
        (hp (battery.append "charge_full") (by decide))
    obtain ⟨t9, v9, h9, s9⟩ :=
      passes_numeral fs (battery.append "charge_counter") (by decide)
        (hp (battery.append "charge_counter") (by decide))
    obtain ⟨t10, h10⟩ :=
      passes_text fs acOnlineFile (hp acOnlineFile (by decide))
    unfold V2_0.healthd_board_battery_update at hr
    simp only [ReadFileToString,
      h0, h1, s1, h2, s2, h3, s3, h4, s4, h5, s5, h6, s6, h7, s7, h8, s8, h9, s9, h10, ht] at hr
    repeat' (split at hr)
    all_goals (subst hr; rfl)
  · intro hp t ht hne
    have hpop := pop_back_dropLastChar t hne
    obtain ⟨t0, h0⟩ :=
      passes_text fs (battery.append "technology") (hp (battery.append "technology") (by decide))
    obtain ⟨t1, v1, h1, s1⟩ :=
      passes_numeral fs (battery.append "capacity") (by decide)
        (hp (battery.append "capacity") (by decide))
    obtain ⟨t2, v2, h2, s2⟩ :=
      passes_numeral fs (battery.append "current_max") (by decide)
        (hp (battery.append "current_max") (by decide))
    obtain ⟨t3, v3, h3, s3⟩ :=
      passes_numeral fs (battery.append "current_now") (by decide)
        (hp (battery.append "current_now") (by decide))
    obtain ⟨t4, v4, h4, s4⟩ :=
      passes_numeral fs (battery.append "voltage_max") (by decide)
        (hp (battery.append "voltage_max") (by decide))
    obtain ⟨t5, v5, h5, s5⟩ :=
      passes_numeral fs (battery.append "voltage_now") (by decide)
        (hp (battery.append "voltage_now") (by decide))
    obtain ⟨t6, v6, h6, s6⟩ :=
      passes_numeral fs (battery.append "temp") (by decide) (hp (battery.append "temp") (by decide))
    obtain ⟨t7, v7, h7, s7⟩ :=
      passes_numeral fs (battery.append "cycle_count") (by decide)
        (hp (battery.append "cycle_count") (by decide))
    obtain ⟨t8, v8, h8, s8⟩ :=
      passes_numeral fs (battery.append "charge_full") (by decide)
        (hp (battery.append "charge_full") (by decide))
    obtain ⟨t9, v9, h9, s9⟩ :=
      passes_numeral fs (battery.append "charge_counter") (by decide)
        (hp (battery.append "charge_counter") (by decide))
    obtain ⟨t10, h10⟩ :=
      passes_text fs acOnlineFile (hp acOnlineFile (by decide))
    obtain ⟨t11, h11⟩ :=
      passes_text fs usbOnlineFile (hp usbOnlineFile (by decide))
    unfold V2_0.healthd_board_battery_update at hr
    simp only [ReadFileToString,
      h0, h1, s1, h2, s2, h3, s3, h4, s4, h5, s5, h6, s6, h7, s7, h8, s8, h9, s9, h10, h11, ht, hpop] at hr
    repeat' (split at hr)
    all_goals (subst hr; rfl)
  · intro hp t ht hne
    have hpop := pop_back_dropLastChar t hne
    obtain ⟨t0, h0⟩ :=
      passes_text fs (battery.append "technology") (hp (battery.append "technology") (by decide))
    obtain ⟨t1, v1, h1, s1⟩ :=
      passes_numeral fs (battery.append "capacity") (by decide)
        (hp (battery.append "capacity") (by decide))
    obtain ⟨t2, v2, h2, s2⟩ :=
      passes_numeral fs (battery.append "current_max") (by decide)
        (hp (battery.append "current_max") (by decide))
    obtain ⟨t3, v3, h3, s3⟩ :=
      passes_numeral fs (battery.append "current_now") (by decide)
        (hp (battery.append "current_now") (by decide))
    obtain ⟨t4, v4, h4, s4⟩ :=
      passes_numeral fs (battery.append "voltage_max") (by decide)
        (hp (battery.append "voltage_max") (by decide))
    obtain ⟨t5, v5, h5, s5⟩ :=
      passes_numeral fs (battery.append "voltage_now") (by decide)
        (hp (battery.append "voltage_now") (by decide))
    obtain ⟨t6, v6, h6, s6⟩ :=
      passes_numeral fs (battery.append "temp") (by decide) (hp (battery.append "temp") (by decide))
    obtain ⟨t7, v7, h7, s7⟩ :=
      passes_numeral fs (battery.append "cycle_count") (by decide)
        (hp (battery.append "cycle_count") (by decide))
    obtain ⟨t8, v8, h8, s8⟩ :=
      passes_numeral fs (battery.append "charge_full") (by decide)
        (hp (battery.append "charge_full") (by decide))
    obtain ⟨t9, v9, h9, s9⟩ :=
      passes_numeral fs (battery.append "charge_counter") (by decide)
        (hp (battery.append "charge_counter") (by decide))
    obtain ⟨t10, h10⟩ :=
      passes_text fs acOnlineFile (hp acOnlineFile (by decide))
    obtain ⟨t11, h11⟩ :=
      passes_text fs usbOnlineFile (hp usbOnlineFile (by decide))
    obtain ⟨t12, h12, s12⟩ :=
      passes_label fs (battery.append "status") (by decide) (by decide)
        (hp (battery.append "status") (by decide))
    unfold V2_0.healthd_board_battery_update at hr
    simp only [ReadFileToString,
      h0, h1, s1, h2, s2, h3, s3, h4, s4, h5, s5, h6, s6, h7, s7, h8, s8, h9, s9, h10, h11, h12, s12, ht, hpop] at hr
    subst hr
    rfl

/-- What `BoardBatteryUpdate` stores, from the input side: once the files read
before an attribute pass (`passes`), the field of that attribute holds the value
decoded from its text in every run, whatever happens at the files read later. -/
theorem BoardBatteryUpdate_stores (fs : FileSystem) (p : BatteryProperties)
    (r : Run Bool BatteryProperties) (hr : V2_1.BoardBatteryUpdate fs p = r) :
    ((∀ f ∈ attributeFiles.take 5, passes fs f = true) →
      ∀ t v, fs (battery.append "voltage_now") = some t → stoi t = .ok v →
      r.state.batteryVoltage = v.tdiv 1000) ∧
    ((∀ f ∈ attributeFiles.take 6, passes fs f = true) →
      ∀ t v, fs (battery.append "temp") = some t → stoi t = .ok v →
      r.state.batteryTemperature = v.tdiv 10) ∧
    ((∀ f ∈ attributeFiles.take 10, passes fs f = true) →
      ∀ t, fs acOnlineFile = some t → r.state.chargerAcOnline = (t != "0")) ∧
    ((∀ f ∈ attributeFiles.take 11, passes fs f = true) →
      ∀ t, fs usbOnlineFile = some t → r.state.chargerUsbOnline = (t != "0")) ∧
    ((∀ f ∈ attributeFiles.take 12, passes fs f = true) →
      ∀ t, fs (battery.append "status") = some t → t ≠ "" →
      r.state.batteryStatus = V2_1.batteryStatusOf (dropLastChar t)) ∧
    ((∀ f ∈ attributeFiles.take 13, passes fs f = true) →
      ∀ t, fs (battery.append "health") = some t → t ≠ "" →
      r.state.batteryHealth = V2_1.batteryHealthOf (dropLastChar t)) := by
  refine ⟨?_, ?_, ?_, ?_, ?_, ?_⟩
  · intro hp t v ht hv
    obtain ⟨t0, h0⟩ :=
      passes_text fs (battery.append "technology") (hp (battery.append "technology") (by decide))
    obtain ⟨t1, v1, h1, s1⟩ :=
      passes_numeral fs (battery.append "capacity") (by decide)
        (hp (battery.append "capacity") (by decide))
    obtain ⟨t2, v2, h2, s2⟩ :=
      passes_numeral fs (battery.append "current_max") (by decide)
        (hp (battery.append "current_max") (by decide))
    obtain ⟨t3, v3, h3, s3⟩ :=
      passes_numeral fs (battery.append "current_now") (by decide)
        (hp (battery.append "current_now") (by decide))
    obtain ⟨t4, v4, h4, s4⟩ :=
      passes_numeral fs (battery.append "voltage_max") (by decide)
        (hp (battery.append "voltage_max") (by decide))
    unfold V2_1.BoardBatteryUpdate at hr
    simp only [ReadFileToString,
      h0, h1, s1, h2, s2, h3, s3, h4, s4, ht, hv] at hr
    repeat' (split at hr)
    all_goals (subst hr; rfl)
  · intro hp t v ht hv
    obtain ⟨t0, h0⟩ :=
      passes_text fs (battery.append "technology") (hp (battery.append "technology") (by decide))
    obtain ⟨t1, v1, h1, s1⟩ :=
      passes_numeral fs (battery.append "capacity") (by decide)
        (hp (battery.append "capacity") (by decide))
    obtain ⟨t2, v2, h2, s2⟩ :=
      passes_numeral fs (battery.append "current_max") (by decide)
        (hp (battery.append "current_max") (by decide))
    obtain ⟨t3, v3, h3, s3⟩ :=
      passes_numeral fs (battery.append "current_now") (by decide)
        (hp (battery.append "current_now") (by decide))
    obtain ⟨t4, v4, h4, s4⟩ :=
      passes_numeral fs (battery.append "voltage_max") (by decide)
        (hp (battery.append "voltage_max") (by decide))
    obtain ⟨t5, v5, h5, s5⟩ :=
      passes_numeral fs (battery.append "voltage_now") (by decide)
        (hp (battery.append "voltage_now") (by decide))
    unfold V2_1.BoardBatteryUpdate at hr
    simp only [ReadFileToString,
      h0, h1, s1, h2, s2, h3, s3, h4, s4, h5, s5, ht, hv] at hr
    repeat' (split at hr)
    all_goals (subst hr; rfl)
  · intro hp t ht
    obtain ⟨t0, h0⟩ :=
      passes_text fs (battery.append "technology") (hp (battery.append "technology") (by decide))
    obtain ⟨t1, v1, h1, s1⟩ :=
      passes_numeral fs (battery.append "capacity") (by decide)
        (hp (battery.append "capacity") (by decide))
    obtain ⟨t2, v2, h2, s2⟩ :=
      passes_numeral fs (battery.append "current_max") (by decide)
        (hp (battery.append "current_max") (by decide))
    obtain ⟨t3, v3, h3, s3⟩ :=
      passes_numeral fs (battery.append "current_now") (by decide)
        (hp (battery.append "current_now") (by decide))
    obtain ⟨t4, v4, h4, s4⟩ :=
      passes_numeral fs (battery.append "voltage_max") (by decide)
        (hp (battery.append "voltage_max") (by decide))
    obtain ⟨t5, v5, h5, s5⟩ :=
      passes_numeral fs (battery.append "voltage_now") (by decide)
        (hp (battery.append "voltage_now") (by decide))
    obtain ⟨t6, v6, h6, s6⟩ :=
      passes_numeral fs (battery.append "temp") (by decide) (hp (battery.append "temp") (by decide))
    obtain ⟨t7, v7, h7, s7⟩ :=
      passes_numeral fs (battery.append "cycle_count") (by decide)
        (hp (battery.append "cycle_count") (by decide))
    obtain ⟨t8, v8, h8, s8⟩ :=
      passes_numeral fs (battery.append "charge_full") (by decide)
        (hp (battery.append "charge_full") (by decide))
    obtain ⟨t9, v9, h9, s9⟩ :=
      passes_numeral fs (battery.append "charge_counter") (by decide)
        (hp (battery.append "charge_counter") (by decide))
    unfold V2_1.BoardBatteryUpdate at hr
    simp only [ReadFileToString,
      h0, h1, s1, h2, s2, h3, s3, h4, s4, h5, s5, h6, s6, h7, s7, h8, s8, h9, s9, ht] at hr
    repeat' (split at hr)
    all_goals (subst hr; rfl)
  · intro hp t ht
    obtain ⟨t0, h0⟩ :=
      passes_text fs (battery.append "technology") (hp (battery.append "technology") (by decide))
    obtain ⟨t1, v1, h1, s1⟩ :=
      passes_numeral fs (battery.append "capacity") (by decide)
        (hp (battery.append "capacity") (by decide))
    obtain ⟨t2, v2, h2, s2⟩ :=
      passes_numeral fs (battery.append "current_max") (by decide)
        (hp (battery.append "current_max") (by decide))
    obtain ⟨t3, v3, h3, s3⟩ :=
      passes_numeral fs (battery.append "current_now") (by decide)
        (hp (battery.append "current_now") (by decide))
    obtain ⟨t4, v4, h4, s4⟩ :=
      passes_numeral fs (battery.append "voltage_max") (by decide)
        (hp (battery.append "voltage_max") (by decide))
    obtain ⟨t5, v5, h5, s5⟩ :=
      passes_numeral fs (battery.append "voltage_now") (by decide)
        (hp (battery.append "voltage_now") (by decide))
    obtain ⟨t6, v6, h6, s6⟩ :=
      passes_numeral fs (battery.append "temp") (by decide) (hp (battery.append "temp") (by decide))
    obtain ⟨t7, v7, h7, s7⟩ :=
      passes_numeral fs (battery.append "cycle_count") (by decide)
        (hp (battery.append "cycle_count") (by decide))
    obtain ⟨t8, v8, h8, s8⟩ :=
      passes_numeral fs (battery.append "charge_full") (by decide)
        (hp (battery.append "charge_full") (by decide))
    obtain ⟨t9, v9, h9, s9⟩ :=
      passes_numeral fs (battery.append "charge_counter") (by decide)
        (hp (battery.append "charge_counter") (by decide))
    obtain ⟨t10, h10⟩ :=
      passes_text fs acOnlineFile (hp acOnlineFile (by decide))
    unfold V2_1.BoardBatteryUpdate at hr
    simp only [ReadFileToString,
      h0, h1, s1, h2, s2, h3, s3, h4, s4, h5, s5, h6, s6, h7, s7, h8, s8, h9, s9, h10, ht] at hr
    repeat' (split at hr)
    all_goals (subst hr; rfl)
  · intro hp t ht hne
    have hpop := pop_back_dropLastChar t hne
    obtain ⟨t0, h0⟩ :=
      passes_text fs (battery.append "technology") (hp (battery.append "technology") (by decide))
    obtain ⟨t1, v1, h1, s1⟩ :=
      passes_numeral fs (battery.append "capacity") (by decide)
        (hp (battery.append "capacity") (by decide))
    obtain ⟨t2, v2, h2, s2⟩ :=
      passes_numeral fs (battery.append "current_max") (by decide)
        (hp (battery.append "current_max") (by decide))
    obtain ⟨t3, v3, h3, s3⟩ :=
      passes_numeral fs (battery.append "current_now") (by decide)
        (hp (battery.append "current_now") (by decide))
    obtain ⟨t4, v4, h4, s4⟩ :=
      passes_numeral fs (battery.append "voltage_max") (by decide)
        (hp (battery.append "voltage_max") (by decide))
    obtain ⟨t5, v5, h5, s5⟩ :=
      passes_numeral fs (battery.append "voltage_now") (by decide)
        (hp (battery.append "voltage_now") (by decide))
    obtain ⟨t6, v6, h6, s6⟩ :=
      passes_numeral fs (battery.append "temp") (by decide) (hp (battery.append "temp") (by decide))
    obtain ⟨t7, v7, h7, s7⟩ :=
      passes_numeral fs (battery.append "cycle_count") (by decide)
        (hp (battery.append "cycle_count") (by decide))
    obtain ⟨t8, v8, h8, s8⟩ :=
      passes_numeral fs (battery.append "charge_full") (by decide)
        (hp (battery.append "charge_full") (by decide))
    obtain ⟨t9, v9, h9, s9⟩ :=
      passes_numeral fs (battery.append "charge_counter") (by decide)
        (hp (battery.append "charge_counter") (by decide))
    obtain ⟨t10, h10⟩ :=
      passes_text fs acOnlineFile (hp acOnlineFile (by decide))
    obtain ⟨t11, h11⟩ :=
      passes_text fs usbOnlineFile (hp usbOnlineFile (by decide))
    unfold V2_1.BoardBatteryUpdate at hr
    simp only [ReadFileToString,
      h0, h1, s1, h2, s2, h3, s3, h4, s4, h5, s5, h6, s6, h7, s7, h8, s8, h9, s9, h10, h11, ht, hpop] at hr
    repeat' (split at hr)
    all_goals (subst hr; rfl)
  · intro hp t ht hne
    have hpop := pop_back_dropLastChar t hne
    obtain ⟨t0, h0⟩ :=
      passes_text fs (battery.append "technology") (hp (battery.append "technology") (by decide))
    obtain ⟨t1, v1, h1, s1⟩ :=
      passes_numeral fs (battery.append "capacity") (by decide)
        (hp (battery.append "capacity") (by decide))
    obtain ⟨t2, v2, h2, s2⟩ :=
      passes_numeral fs (battery.append "current_max") (by decide)
        (hp (battery.append "current_max") (by decide))
    obtain ⟨t3, v3, h3, s3⟩ :=
      passes_numeral fs (battery.append "current_now") (by decide)
        (hp (battery.append "current_now") (by decide))
    obtain ⟨t4, v4, h4, s4⟩ :=
      passes_numeral fs (battery.append "voltage_max") (by decide)
        (hp (battery.append "voltage_max") (by decide))
    obtain ⟨t5, v5, h5, s5⟩ :=
      passes_numeral fs (battery.append "voltage_now") (by decide)
        (hp (battery.append "voltage_now") (by decide))
    obtain ⟨t6, v6, h6, s6⟩ :=
      passes_numeral fs (battery.append "temp") (by decide) (hp (battery.append "temp") (by decide))
    obtain ⟨t7, v7, h7, s7⟩ :=
      passes_numeral fs (battery.append "cycle_count") (by decide)
        (hp (battery.append "cycle_count") (by decide))
    obtain ⟨t8, v8, h8, s8⟩ :=
      passes_numeral fs (battery.append "charge_full") (by decide)
        (hp (battery.append "charge_full") (by decide))
    obtain ⟨t9, v9, h9, s9⟩ :=
      passes_numeral fs (battery.append "charge_counter") (by decide)
        (hp (battery.append "charge_counter") (by decide))
    obtain ⟨t10, h10⟩ :=
      passes_text fs acOnlineFile (hp acOnlineFile (by decide))
    obtain ⟨t11, h11⟩ :=
      passes_text fs usbOnlineFile (hp usbOnlineFile (by decide))
    obtain ⟨t12, h12, s12⟩ :=
      passes_label fs (battery.append "status") (by decide) (by decide)
        (hp (battery.append "status") (by decide))
    unfold V2_1.BoardBatteryUpdate at hr
    simp only [ReadFileToString,
      h0, h1, s1, h2, s2, h3, s3, h4, s4, h5, s5, h6, s6, h7, s7, h8, s8, h9, s9, h10, h11, h12, s12, ht, hpop] at hr
    subst hr
    rfl

/-- What the AIDL `UpdateHealthInfo` stores, from the input side: once the
battery files read before an attribute pass (`passes`), the field of that
attribute holds the value decoded from its text in every run, whatever happens
at the files read later; for `batteryStatus` and `batteryHealth`, which every
later failed read resets, when in addition all twelve battery files are
readable. -/
theorem aidl_UpdateHealthInfo_stores (fs : FileSystem) (hi : aidl.HealthInfo)
    (r : Run Unit aidl.HealthInfo) (hr : aidl.UpdateHealthInfo fs hi = r) :
    ((∀ f ∈ aidlBatteryFiles.take 5, passes fs f = true) →
      ∀ t v, fs (battery.append "voltage_now") = some t → stoi t = .ok v →
      r.state.batteryVoltageMillivolts = v.tdiv 1000) ∧
    ((∀ f ∈ aidlBatteryFiles.take 6, passes fs f = true) →
      ∀ t v, fs (battery.append "temp") = some t → stoi t = .ok v →
      r.state.batteryTemperatureTenthsCelsius = v) ∧
    ((∀ f ∈ aidlBatteryFiles.take 2, passes fs f = true) →
      firstUnreadable fs aidlBatteryFiles 0 = none →
      ∀ t, fs (battery.append "status") = some t → t ≠ "" →
      r.state.batteryStatus = aidl.batteryStatusOf (dropLastChar t)) ∧
    ((∀ f ∈ aidlBatteryFiles.take 3, passes fs f = true) →
      firstUnreadable fs aidlBatteryFiles 0 = none →
      ∀ t, fs (battery.append "health") = some t → t ≠ "" →
      r.state.batteryHealth = aidl.batteryHealthOf (dropLastChar t)) := by
  refine ⟨?_, ?_, ?_, ?_⟩
  · intro hp t v ht hv
    obtain ⟨t0, v0, h0, s0⟩ :=
      passes_numeral fs (battery.append "current_max") (by decide)
        (hp (battery.append "current_max") (by decide))
    obtain ⟨t1, v1, h1, s1⟩ :=
      passes_numeral fs (battery.append "voltage_max") (by decide)
        (hp (battery.append "voltage_max") (by decide))
    obtain ⟨t2, h2, s2⟩ :=
      passes_label fs (battery.append "status") (by decide) (by decide)
        (hp (battery.append "status") (by decide))
    obtain ⟨t3, h3, s3⟩ :=
      passes_label fs (battery.append "health") (by decide) (by decide)
        (hp (battery.append "health") (by decide))
    obtain ⟨t4, v4, h4, s4⟩ :=
      passes_numeral fs (battery.append "capacity") (by decide)
        (hp (battery.append "capacity") (by decide))
    unfold aidl.UpdateHealthInfo at hr
    simp only [ReadFileToString,
      h0, s0, h1, s1, h2, s2, h3, s3, h4, s4, ht, hv] at hr
    rcases hac : fs acOnlineFile with _ | a <;> rcases husb : fs usbOnlineFile with _ | u <;>
      simp only [hac, husb] at hr <;> (repeat' (split at hr)) <;> (subst hr) <;> rfl
  · intro hp t v ht hv
    obtain ⟨t0, v0, h0, s0⟩ :=
      passes_numeral fs (battery.append "current_max") (by decide)
        (hp (battery.append "current_max") (by decide))
    obtain ⟨t1, v1, h1, s1⟩ :=
      passes_numeral fs (battery.append "voltage_max") (by decide)
        (hp (battery.append "voltage_max") (by decide))
    obtain ⟨t2, h2, s2⟩ :=
      passes_label fs (battery.append "status") (by decide) (by decide)
        (hp (battery.append "status") (by decide))
    obtain ⟨t3, h3, s3⟩ :=
      passes_label fs (battery.append "health") (by decide) (by decide)
        (hp (battery.append "health") (by decide))
    obtain ⟨t4, v4, h4, s4⟩ :=
      passes_numeral fs (battery.append "capacity") (by decide)
        (hp (battery.append "capacity") (by decide))
    obtain ⟨t5, v5, h5, s5⟩ :=
      passes_numeral fs (battery.append "voltage_now") (by decide)
        (hp (battery.append "voltage_now") (by decide))
    unfold aidl.UpdateHealthInfo at hr
    simp only [ReadFileToString,
      h0, s0, h1, s1, h2, s2, h3, s3, h4, s4, h5, s5, ht, hv] at hr
    rcases hac : fs acOnlineFile with _ | a <;> rcases husb : fs usbOnlineFile with _ | u <;>
      simp only [hac, husb] at hr <;> (repeat' (split at hr)) <;> (subst hr) <;> rfl
  · intro hp hall t ht hne
    have hpop := pop_back_dropLastChar t hne
    obtain ⟨t0, v0, h0, s0⟩ :=
      passes_numeral fs (battery.append "current_max") (by decide)
        (hp (battery.append "current_max") (by decide))
    obtain ⟨t1, v1, h1, s1⟩ :=
      passes_numeral fs (battery.append "voltage_max") (by decide)
        (hp (battery.append "voltage_max") (by decide))
    unfold aidl.UpdateHealthInfo at hr
    simp only [ReadFileToString,
      h0, s0, h1, s1, ht, hpop] at hr
    rcases hac : fs acOnlineFile with _ | a <;> rcases husb : fs usbOnlineFile with _ | u <;>
      simp only [hac, husb] at hr <;> (repeat' (split at hr)) <;> (subst hr) <;>
      first
      | rfl
      | simp only [aidlBatteryFiles, firstUnreadable, reduceCtorEq, *] at hall
  · intro hp hall t ht hne
    have hpop := pop_back_dropLastChar t hne
    obtain ⟨t0, v0, h0, s0⟩ :=
      passes_numeral fs (battery.append "current_max") (by decide)
        (hp (battery.append "current_max") (by decide))
    obtain ⟨t1, v1, h1, s1⟩ :=
      passes_numeral fs (battery.append "voltage_max") (by decide)
        (hp (battery.append "voltage_max") (by decide))
    obtain ⟨t2, h2, s2⟩ :=
      passes_label fs (battery.append "status") (by decide) (by decide)
        (hp (battery.append "status") (by decide))
    unfold aidl.UpdateHealthInfo at hr
    simp only [ReadFileToString,
      h0, s0, h1, s1, h2, s2, ht, hpop] at hr
    rcases hac : fs acOnlineFile with _ | a <;> rcases husb : fs usbOnlineFile with _ | u <;>
      simp only [hac, husb] at hr <;> (repeat' (split at hr)) <;> (subst hr) <;>
      first
      | rfl
      | simp only [aidlBatteryFiles, firstUnreadable, reduceCtorEq, *] at hall

/-- C4: the status and health decoders strip exactly one trailing character and
compare exactly (case-sensitively) against their label table, identically in the
three entry points. For every non-empty text `t`: `pop_back` yields `t` without
its last character; each compare chain of the three source files returns
`decodeEnum t` of its table; each of the three samplers stores that value in
`batteryStatus` (for `t` read from `status`) and in `batteryHealth` (for `t` read
from `health`) on every filesystem on which the files read before pass
(`passes`: readable, valid numerals, non-empty status), whatever the files read
later hold; for the AIDL sampler, which resets both fields at every later failed
read, on every such filesystem with the twelve battery files readable;
`getChargeStatus` returns it. The value of `decodeEnum` is spelled out: a label
followed by any one character gives the label's variant, a text whose
all-but-last-character part is no label gives `UNKNOWN` (so "Charging",
"charging\n" and "Charging\n\n" do). -/
theorem status_and_health_decode (t : String) (hne : t ≠ "") :
    pop_back t = some (dropLastChar t) ∧
    (V2_0.batteryStatusOf (dropLastChar t) = decodeEnum t statusLabels BatteryStatus.UNKNOWN ∧
     V2_1.batteryStatusOf (dropLastChar t) = decodeEnum t statusLabels BatteryStatus.UNKNOWN ∧
     aidl.batteryStatusOf (dropLastChar t) = decodeEnum t statusLabels BatteryStatus.UNKNOWN) ∧
    (V2_0.batteryHealthOf (dropLastChar t) = decodeEnum t healthLabels BatteryHealth.UNKNOWN ∧
     V2_1.batteryHealthOf (dropLastChar t) = decodeEnum t healthLabels BatteryHealth.UNKNOWN ∧
     aidl.batteryHealthOf (dropLastChar t) = decodeEnum t healthLabels BatteryHealth.UNKNOWN) ∧
    (∀ fs p, (∀ f ∈ attributeFiles.take 12, passes fs f = true) →
      fs (battery.append "status") = some t →
      (V2_0.healthd_board_battery_update fs p).state.batteryStatus
        = decodeEnum t statusLabels BatteryStatus.UNKNOWN) ∧
    (∀ fs p, (∀ f ∈ attributeFiles.take 13, passes fs f = true) →
      fs (battery.append "health") = some t →
      (V2_0.healthd_board_battery_update fs p).state.batteryHealth
        = decodeEnum t healthLabels BatteryHealth.UNKNOWN) ∧
    (∀ fs p, (∀ f ∈ attributeFiles.take 12, passes fs f = true) →
      fs (battery.append "status") = some t →
      (V2_1.BoardBatteryUpdate fs p).state.batteryStatus
        = decodeEnum t statusLabels BatteryStatus.UNKNOWN) ∧
    (∀ fs p, (∀ f ∈ attributeFiles.take 13, passes fs f = true) →
      fs (battery.append "health") = some t →
      (V2_1.BoardBatteryUpdate fs p).state.batteryHealth
        = decodeEnum t healthLabels BatteryHealth.UNKNOWN) ∧
    (∀ fs hi, (∀ f ∈ aidlBatteryFiles.take 2, passes fs f = true) →
      firstUnreadable fs aidlBatteryFiles 0 = none →
      fs (battery.append "status") = some t →
      (aidl.UpdateHealthInfo fs hi).state.batteryStatus
        = decodeEnum t statusLabels BatteryStatus.UNKNOWN) ∧
    (∀ fs hi, (∀ f ∈ aidlBatteryFiles.take 3, passes fs f = true) →
      firstUnreadable fs aidlBatteryFiles 0 = none →
      fs (battery.append "health") = some t →
      (aidl.UpdateHealthInfo fs hi).state.batteryHealth
        = decodeEnum t healthLabels BatteryHealth.UNKNOWN) ∧
    (∀ fs out, fs (battery.append "status") = some t →
      aidl.getChargeStatus fs out =
        ⟨[], .returned aidl.ScopedAStatus.ok, decodeEnum t statusLabels BatteryStatus.UNKNOWN⟩) ∧
    (∀ c : Char,
      decodeEnum ("Charging".push c) statusLabels BatteryStatus.UNKNOWN = BatteryStatus.CHARGING ∧
      decodeEnum ("Discharging".push c) statusLabels BatteryStatus.UNKNOWN
        = BatteryStatus.DISCHARGING ∧
      decodeEnum ("Not-charging".push c) statusLabels BatteryStatus.UNKNOWN
        = BatteryStatus.NOT_CHARGING ∧
      decodeEnum ("Full".push c) statusLabels BatteryStatus.UNKNOWN = BatteryStatus.FULL ∧
      decodeEnum ("Good".push c) healthLabels BatteryHealth.UNKNOWN = BatteryHealth.GOOD ∧
      decodeEnum ("Overheat".push c) healthLabels BatteryHealth.UNKNOWN = BatteryHealth.OVERHEAT ∧
      decodeEnum ("Dead".push c) healthLabels BatteryHealth.UNKNOWN = BatteryHealth.DEAD ∧
      decodeEnum ("Overvoltage".push c) healthLabels BatteryHealth.UNKNOWN
        = BatteryHealth.OVER_VOLTAGE ∧
      decodeEnum ("Failure".push c) healthLabels BatteryHealth.UNKNOWN
        = BatteryHealth.UNSPECIFIED_FAILURE) ∧
    ((∀ l ∈ statusLabels, dropLastChar t ≠ l.1) →
      decodeEnum t statusLabels BatteryStatus.UNKNOWN = BatteryStatus.UNKNOWN) ∧
    ((∀ l ∈ healthLabels, dropLastChar t ≠ l.1) →
      decodeEnum t healthLabels BatteryHealth.UNKNOWN = BatteryHealth.UNKNOWN) ∧
    decodeEnum "Charging" statusLabels BatteryStatus.UNKNOWN = BatteryStatus.UNKNOWN ∧
    decodeEnum "charging\n" statusLabels BatteryStatus.UNKNOWN = BatteryStatus.UNKNOWN ∧
    decodeEnum "Charging\n\n" statusLabels BatteryStatus.UNKNOWN = BatteryStatus.UNKNOWN := by
  have hp : pop_back t = some (dropLastChar t) := pop_back_dropLastChar t hne
  have hs := batteryStatusOf_eq_lookup (dropLastChar t)
  have hh := batteryHealthOf_eq_lookup (dropLastChar t)
  refine ⟨hp, hs, hh, ?_, ?_, ?_, ?_, ?_, ?_, ?_, ?_, ?_, ?_, by decide, by decide, by decide⟩
  · intro fs p hpass ht
    exact ((healthd_board_battery_update_stores fs p _ rfl).2.2.2.2.1 hpass t ht hne).trans hs.1
  · intro fs p hpass ht
    exact ((healthd_board_battery_update_stores fs p _ rfl).2.2.2.2.2 hpass t ht hne).trans hh.1
  · intro fs p hpass ht
    exact ((BoardBatteryUpdate_stores fs p _ rfl).2.2.2.2.1 hpass t ht hne).trans hs.2.1
  · intro fs p hpass ht
    exact ((BoardBatteryUpdate_stores fs p _ rfl).2.2.2.2.2 hpass t ht hne).trans hh.2.1
  · intro fs hi hpass hall ht
    exact ((aidl_UpdateHealthInfo_stores fs hi _ rfl).2.2.1 hpass hall t ht hne).trans hs.2.2
  · intro fs hi hpass hall ht
    exact ((aidl_UpdateHealthInfo_stores fs hi _ rfl).2.2.2 hpass hall t ht hne).trans hh.2.2
  · intro fs out ht
    exact getChargeStatus_eq_decodeEnum fs out t ht hne
  · intro c
    have e : ∀ s : String, dropLastChar (s.push c) = s := by
      intro s
      simp [dropLastChar, String.push]
    simp only [decodeEnum, e]
    decide
  · intro h
    unfold decodeEnum statusLabels
    simp only [statusLabels, List.forall_mem_cons] at h
    obtain ⟨h1, h2, h3, h4, -⟩ := h
    have e1 : (dropLastChar t == "Charging") = false := by simpa using h1
    have e2 : (dropLastChar t == "Discharging") = false := by simpa using h2
    have e3 : (dropLastChar t == "Not-charging") = false := by simpa using h3
    have e4 : (dropLastChar t == "Full") = false := by simpa using h4
    simp [List.lookup, e1, e2, e3, e4]
  · intro h
    unfold decodeEnum healthLabels
    simp only [healthLabels, List.forall_mem_cons] at h
    obtain ⟨h1, h2, h3, h4, h5, -⟩ := h
    have e1 : (dropLastChar t == "Good") = false := by simpa using h1
    have e2 : (dropLastChar t == "Overheat") = false := by simpa using h2
    have e3 : (dropLastChar t == "Dead") = false := by simpa using h3
    have e4 : (dropLastChar t == "Overvoltage") = false := by simpa using h4
    have e5 : (dropLastChar t == "Failure") = false := by simpa using h5
    simp [List.lookup, e1, e2, e3, e4, e5]

/-- C4 in the three entry points and in `getChargeStatus`, on records that hold
`FULL` and `COLD` before the call: with "Discharging\n" as the text of `status`
each stores `DISCHARGING`, also when the `health` file read next is missing (HAL
2.0); with "Overheat\n" as the text of `health` each stores `OVERHEAT`. -/
theorem status_and_health_decode_witness :
    props0.batteryStatus = BatteryStatus.FULL ∧ props0.batteryHealth = BatteryHealth.COLD ∧
    health0.batteryStatus = BatteryStatus.FULL ∧ health0.batteryHealth = BatteryHealth.COLD ∧
    (V2_0.healthd_board_battery_update
      ((sysfs.withFile (battery.append "status") "Discharging\n").without
        (battery.append "health")) props0).state.batteryStatus = BatteryStatus.DISCHARGING ∧
    (V2_1.BoardBatteryUpdate (sysfs.withFile (battery.append "status") "Discharging\n")
      props0).state.batteryStatus = BatteryStatus.DISCHARGING ∧
    (aidl.UpdateHealthInfo (sysfs.withFile (battery.append "status") "Discharging\n")
      health0).state.batteryStatus = BatteryStatus.DISCHARGING ∧
    aidl.getChargeStatus (sysfs.withFile (battery.append "status") "Discharging\n")
      BatteryStatus.FULL = ⟨[], .returned aidl.ScopedAStatus.ok, BatteryStatus.DISCHARGING⟩ ∧
    (V2_0.healthd_board_battery_update (sysfs.withFile (battery.append "health") "Overheat\n")
      props0).state.batteryHealth = BatteryHealth.OVERHEAT ∧
    (V2_1.BoardBatteryUpdate (sysfs.withFile (battery.append "health") "Overheat\n")
      props0).state.batteryHealth = BatteryHealth.OVERHEAT ∧
    (aidl.UpdateHealthInfo (sysfs.withFile (battery.append "health") "Overheat\n")
      health0).state.batteryHealth = BatteryHealth.OVERHEAT :=
  ⟨rfl, rfl, rfl, rfl,
    (status_and_health_decode "Discharging\n" (by decide)).2.2.2.1
      ((sysfs.withFile (battery.append "status") "Discharging\n").without
        (battery.append "health")) props0 (by decide) (by decide),
    (status_and_health_decode "Discharging\n" (by decide)).2.2.2.2.2.1
      (sysfs.withFile (battery.append "status") "Discharging\n") props0 (by decide) (by decide),
    (status_and_health_decode "Discharging\n" (by decide)).2.2.2.2.2.2.2.1
      (sysfs.withFile (battery.append "status") "Discharging\n") health0 (by decide) (by decide)
      (by decide),
    (status_and_health_decode "Discharging\n" (by decide)).2.2.2.2.2.2.2.2.2.1
      (sysfs.withFile (battery.append "status") "Discharging\n") BatteryStatus.FULL (by decide),
    (status_and_health_decode "Overheat\n" (by decide)).2.2.2.2.1
      (sysfs.withFile (battery.append "health") "Overheat\n") props0 (by decide) (by decide),
    (status_and_health_decode "Overheat\n" (by decide)).2.2.2.2.2.2.1
      (sysfs.withFile (battery.append "health") "Overheat\n") props0 (by decide) (by decide),
    (status_and_health_decode "Overheat\n" (by decide)).2.2.2.2.2.2.2.2.1
      (sysfs.withFile (battery.append "health") "Overheat\n") health0 (by decide) (by decide)
      (by decide)⟩

/-- C5 (failing input): a status (or health) file that is readable and empty.
Every call site applies `pop_back()` to the buffer without testing it: on the
empty text `getChargeStatus` and the three samplers leave defined behaviour
instead of returning `UNKNOWN`. On a one-character text the decode is defined
and returns `UNKNOWN`. -/
theorem decode_of_empty_text_is_undefined :
    pop_back "" = none ∧
    (∀ out, (aidl.getChargeStatus (sysfs.withFile (battery.append "status") "") out).completion
      = .undefined) ∧
    (aidl.UpdateHealthInfo (sysfs.withFile (battery.append "status") "") health0).completion
      = .undefined ∧
    (aidl.UpdateHealthInfo (sysfs.withFile (battery.append "health") "") health0).completion
      = .undefined ∧
    (V2_1.BoardBatteryUpdate (sysfs.withFile (battery.append "status") "") props0).completion
      = .undefined ∧
    (V2_1.BoardBatteryUpdate (sysfs.withFile (battery.append "health") "") props0).completion
      = .undefined ∧
    (V2_0.healthd_board_battery_update (sysfs.withFile (battery.append "status") "")
      props0).completion = .undefined ∧
    (V2_0.healthd_board_battery_update (sysfs.withFile (battery.append "health") "")
      props0).completion = .undefined ∧
    (∀ (c : Char) (fs : FileSystem) (out : BatteryStatus),
      fs (battery.append "status") = some (String.singleton c) →
      aidl.getChargeStatus fs out =
        ⟨[], .returned aidl.ScopedAStatus.ok, BatteryStatus.UNKNOWN⟩) := by
  refine ⟨by decide, fun out => rfl, by decide, by decide, by decide, by decide, by decide,
    by decide, ?_⟩
  intro c fs out ht
  have hne : String.singleton c ≠ "" := by
    intro h
    have := congrArg String.length h
    simp [String.singleton] at this
  rw [getChargeStatus_eq_decodeEnum fs out _ ht hne]
  rfl

/-- C6 (failing input): a charger `online` file holding "0\n", the text sysfs
prints for a charger that is offline. All three samplers store `true`: the text
is compared with "0" untrimmed. With the text "0" they store `false`. -/
theorem online_flag_of_0_newline_is_true :
    (V2_0.healthd_board_battery_update (sysfs.withFile acOnlineFile "0\n")
      props0).state.chargerAcOnline = true ∧
    (V2_1.BoardBatteryUpdate (sysfs.withFile acOnlineFile "0\n") props0).state.chargerAcOnline
      = true ∧
    (aidl.UpdateHealthInfo (sysfs.withFile acOnlineFile "0\n") health0).state.chargerAcOnline
      = true ∧
    (V2_0.healthd_board_battery_update (sysfs.withFile usbOnlineFile "0\n")
      props0).state.chargerUsbOnline = true ∧
    (V2_1.BoardBatteryUpdate (sysfs.withFile usbOnlineFile "0\n") props0).state.chargerUsbOnline
      = true ∧
    (aidl.UpdateHealthInfo (sysfs.withFile usbOnlineFile "0\n") health0).state.chargerUsbOnline
      = true ∧
    (V2_0.healthd_board_battery_update (sysfs.withFile acOnlineFile "0")
      props0).state.chargerAcOnline = false ∧
    (V2_1.BoardBatteryUpdate (sysfs.withFile acOnlineFile "0") props0).state.chargerAcOnline
      = false ∧
    (aidl.UpdateHealthInfo (sysfs.withFile acOnlineFile "0") health0).state.chargerAcOnline
      = false := by
  decide

/-- The comparison `buffer != "0"` is `false` exactly on the text "0". -/
theorem bne_zero_eq_false_iff (t : String) : (t != "0") = false ↔ t = "0" := by
  simp

/-- C7: in the charger-online path nothing is stripped before the comparison. For
every text `t` read from the AC or the USB `online` file, the flag is `false`
exactly when `t` is the one-character string "0", in all three entry points: in
the HAL 2.0 and HAL 2.1 samplers on every filesystem on which the files read
before that `online` file pass (`passes`: readable, valid numerals), whatever
the files read later hold; in the AIDL sampler, which reads the two `online`
files first, on every filesystem. Hence "0" gives `false`, "1" and "0\n" give
`true`. -/
theorem online_flag_false_iff_text_is_0 (fs : FileSystem) (t : String) :
    (∀ p, (∀ f ∈ attributeFiles.take 10, passes fs f = true) → fs acOnlineFile = some t →
      ((V2_0.healthd_board_battery_update fs p).state.chargerAcOnline = false ↔ t = "0")) ∧
    (∀ p, (∀ f ∈ attributeFiles.take 11, passes fs f = true) → fs usbOnlineFile = some t →
      ((V2_0.healthd_board_battery_update fs p).state.chargerUsbOnline = false ↔ t = "0")) ∧
    (∀ p, (∀ f ∈ attributeFiles.take 10, passes fs f = true) → fs acOnlineFile = some t →
      ((V2_1.BoardBatteryUpdate fs p).state.chargerAcOnline = false ↔ t = "0")) ∧
    (∀ p, (∀ f ∈ attributeFiles.take 11, passes fs f = true) → fs usbOnlineFile = some t →
      ((V2_1.BoardBatteryUpdate fs p).state.chargerUsbOnline = false ↔ t = "0")) ∧
    (∀ hi,
      (fs acOnlineFile = some t →
        ((aidl.UpdateHealthInfo fs hi).state.chargerAcOnline = false ↔ t = "0")) ∧
      (fs usbOnlineFile = some t →
        ((aidl.UpdateHealthInfo fs hi).state.chargerUsbOnline = false ↔ t = "0"))) ∧
    (("0" : String) = "0" ∧ ("1" : String) ≠ "0" ∧ ("0\n" : String) ≠ "0") := by
  refine ⟨?_, ?_, ?_, ?_, ?_, by decide⟩
  · intro p hpass ht
    rw [(healthd_board_battery_update_stores fs p _ rfl).2.2.1 hpass t ht]
    exact bne_zero_eq_false_iff t
  · intro p hpass ht
    rw [(healthd_board_battery_update_stores fs p _ rfl).2.2.2.1 hpass t ht]
    exact bne_zero_eq_false_iff t
  · intro p hpass ht
    rw [(BoardBatteryUpdate_stores fs p _ rfl).2.2.1 hpass t ht]
    exact bne_zero_eq_false_iff t
  · intro p hpass ht
    rw [(BoardBatteryUpdate_stores fs p _ rfl).2.2.2.1 hpass t ht]
    exact bne_zero_eq_false_iff t
  · intro hi
    have h := aidl_UpdateHealthInfo_run fs hi _ rfl
    exact ⟨fun ht => by rw [h.1, ht]; exact bne_zero_eq_false_iff t,
      fun ht => by rw [h.2.1, ht]; exact bne_zero_eq_false_iff t⟩

/-- C7 in the three entry points, on records whose USB flag is `true` before the
call: with the USB text "0" each sampler stores `false`, the HAL samplers also
when the `health` file read later is missing; with the USB text "0\n" of `sysfs`
each sampler stores `true`. -/
theorem online_flag_false_iff_text_is_0_witness :
    (V2_0.healthd_board_battery_update
      ((sysfs.withFile usbOnlineFile "0").without (battery.append "health"))
      { props0 with chargerUsbOnline := true }).state.chargerUsbOnline = false ∧
    (V2_1.BoardBatteryUpdate
      ((sysfs.withFile usbOnlineFile "0").without (battery.append "health"))
      { props0 with chargerUsbOnline := true }).state.chargerUsbOnline = false ∧
    (aidl.UpdateHealthInfo (sysfs.withFile usbOnlineFile "0")
      { health0 with chargerUsbOnline := true }).state.chargerUsbOnline = false ∧
    (V2_0.healthd_board_battery_update sysfs props0).state.chargerUsbOnline ≠ false ∧
    (V2_1.BoardBatteryUpdate sysfs props0).state.chargerUsbOnline ≠ false ∧
    (aidl.UpdateHealthInfo sysfs health0).state.chargerUsbOnline ≠ false :=
  ⟨((online_flag_false_iff_text_is_0
      ((sysfs.withFile usbOnlineFile "0").without (battery.append "health")) "0").2.1
      { props0 with chargerUsbOnline := true } (by decide) (by decide)).2 rfl,
    ((online_flag_false_iff_text_is_0
      ((sysfs.withFile usbOnlineFile "0").without (battery.append "health")) "0").2.2.2.1
      { props0 with chargerUsbOnline := true } (by decide) (by decide)).2 rfl,
    (((online_flag_false_iff_text_is_0 (sysfs.withFile usbOnlineFile "0") "0").2.2.2.2.1
      { health0 with chargerUsbOnline := true }).2 (by decide)).2 rfl,
    fun h => absurd (((online_flag_false_iff_text_is_0 sysfs "0\n").2.1 props0 (by decide)
      (by decide)).1 h) (by decide),
    fun h => absurd (((online_flag_false_iff_text_is_0 sysfs "0\n").2.2.2.1 props0 (by decide)
      (by decide)).1 h) (by decide),
    fun h => absurd ((((online_flag_false_iff_text_is_0 sysfs "0\n").2.2.2.2.1 health0).2
      (by decide)).1 h) (by decide)⟩

/-- A digit is no white space. -/
theorem isspace_of_isdigit (c : Char) (h : isdigit c = true) : isspace c = false := by
  by_contra hs
  have hs2 : isspace c = true := by simpa using hs
  unfold isspace at hs2
  simp only [Bool.or_eq_true, beq_iff_eq] at hs2
  rcases hs2 with ((((rfl | rfl) | rfl) | rfl) | rfl) | rfl <;> simp [isdigit] at h

/-- A digit is no sign. -/
theorem not_sign_of_isdigit (c : Char) (h : isdigit c = true) : c ≠ '+' ∧ c ≠ '-' := by
  constructor <;> rintro rfl <;> simp [isdigit] at h

/-- Skipping white space in front of text that does not start with white space. -/
theorem dropWhile_isspace_append (ws rest : List Char) (hws : IsSpace ws)
    (hrest : ∀ c r, rest = c :: r → isspace c = false) :
    (ws ++ rest).dropWhile isspace = rest := by
  induction ws with
  | nil =>
    cases rest with
    | nil => rfl
    | cons c r => simp [List.dropWhile, hrest c r rfl]
  | cons a ws ih =>
    have ha : isspace a = true := hws a (List.mem_cons_self a ws)
    have hws2 : IsSpace ws := fun c hc => hws c (List.mem_cons_of_mem a hc)
    simp [List.dropWhile, ha, ih hws2]

/-- The digits of a token in front of text that does not start with a digit. -/
theorem takeWhile_isdigit_append (tok rest : List Char) (htok : ∀ c ∈ tok, isdigit c = true)
    (hrest : ∀ c r, rest = c :: r → isdigit c = false) :
    (tok ++ rest).takeWhile isdigit = tok ∧ (tok ++ rest).dropWhile isdigit = rest := by
  induction tok with
  | nil =>
    cases rest with
    | nil => exact ⟨rfl, rfl⟩
    | cons c r => simp [List.takeWhile, List.dropWhile, hrest c r rfl]
  | cons a tok ih =>
    have ha : isdigit a = true := htok a (List.mem_cons_self a tok)
    have h2 := ih (fun c hc => htok c (List.mem_cons_of_mem a hc))
    simp [List.takeWhile, List.dropWhile, ha, h2.1, h2.2]

/-- Extraction of a valid token that stands, after white space, in front of text
that does not start with a digit. -/
theorem extract_token (ws tok rest : List Char) (hws : IsSpace ws) (htok : IsToken tok)
    (hrest : ∀ c r, rest = c :: r → isdigit c = false) :
    extract ⟨ws ++ (tok ++ rest), false, false⟩
      = (⟨rest, rest.isEmpty, false⟩, some (decimalValue tok)) := by
  obtain ⟨hne, hdig, hval⟩ := htok
  obtain ⟨a, tok', rfl⟩ := List.exists_cons_of_ne_nil hne
  have ha : isdigit a = true := hdig a (List.mem_cons_self a tok')
  have hsp : isspace a = false := isspace_of_isdigit a ha
  have hsign := not_sign_of_isdigit a ha
  have hdrop : (ws ++ (a :: tok' ++ rest)).dropWhile isspace = a :: tok' ++ rest := by
    apply dropWhile_isspace_append ws _ hws
    intro c r hc
    cases hc
    exact hsp
  have htw := takeWhile_isdigit_append (a :: tok') rest hdig hrest
  have hacc : accumulate (a :: (tok' ++ rest)) = (a :: tok', rest) := by
    unfold accumulate
    simp only [hsign.1, hsign.2, or_self, if_false]
    rw [← List.cons_append, htw.1, htw.2]
  have hconv : convertUnsigned (a :: tok') = (decimalValue (a :: tok'), false) := by
    unfold convertUnsigned takeSign
    simp only [hsign.1, hsign.2, if_false]
    have : ¬ ULLONG_MAX < decimalValue (a :: tok') := Nat.not_lt.mpr hval
    simp [this]
  unfold extract
  simp only [Bool.or_self, Bool.false_eq_true, if_false, hdrop]
  rw [List.cons_append, hacc, hconv]
  simp

/-- Extraction from text that is only white space: nothing is stored and both
state bits are set. -/
theorem extract_space (ws : List Char) (hws : IsSpace ws) :
    extract ⟨ws, false, false⟩ = (⟨[], true, true⟩, none) := by
  have hdrop : ws.dropWhile isspace = [] := by
    have := dropWhile_isspace_append ws [] hws (fun c r h => by cases h)
    simpa using this
  unfold extract
  simp [hdrop]

/-- Extraction, after white space, from text that starts with a character that
is no digit, no sign and no white space: 0 is stored and `failbit` is set. -/
theorem extract_malformed (ws tail : List Char) (hws : IsSpace ws) (htail : Malformed tail) :
    extract ⟨ws ++ tail, false, false⟩ = (⟨tail, false, true⟩, some 0) := by
  obtain ⟨c, rest, rfl, hd, hs, hp, hm⟩ := htail
  have hdrop : (ws ++ c :: rest).dropWhile isspace = c :: rest := by
    apply dropWhile_isspace_append ws _ hws
    intro c' r hc
    cases hc
    exact hs
  have hacc : accumulate (c :: rest) = ([], c :: rest) := by
    unfold accumulate
    simp [hp, hm, List.takeWhile, List.dropWhile, hd]
  unfold extract
  simp only [Bool.or_self, Bool.false_eq_true, if_false, hdrop]
  rw [hacc]
  simp [convertUnsigned, takeSign]

/-- Once `eofbit` or `failbit` is set, the loop stores nothing more. -/
theorem extractWords_stopped {D : Type} (setWord : Nat → Nat → D → D) (n i : Nat)
    (ss : stringstream) (stats : D) (h : ss.eofbit = true ∨ ss.failbit = true) :
    (extractWords setWord n i ss stats).2 = stats := by
  induction n generalizing i ss with
  | zero => rfl
  | succ n ih =>
    have he : extract ss = ({ ss with failbit := true }, none) := by
      unfold extract
      rcases h with h | h <;> simp [h]
    unfold extractWords
    rw [he]
    exact ih (i + 1) _ (Or.inr rfl)

/-- White space is no digit. -/
theorem isdigit_of_isspace (c : Char) (h : isspace c = true) : isdigit c = false := by
  by_contra hd
  have hd2 : isdigit c = true := by simpa using hd
  rw [isspace_of_isdigit c hd2] at h
  cases h

/-- The text of separated pieces is empty only when there is no piece. -/
theorem tokensText_eq_nil (pieces : List (List Char × List Char)) (h : Separated pieces)
    (he : tokensText pieces = []) : pieces = [] := by
  cases pieces with
  | nil => rfl
  | cons p rest =>
    obtain ⟨tok, sep⟩ := p
    obtain ⟨⟨hne, -, -⟩, -, -, -⟩ := h
    simp [tokensText, hne] at he

/-- The loop on a text of `pieces` (after the white space `lead`), followed by
`tail`: it stores the values of the first tokens, one per iteration, and a 0 for
a malformed token that follows them. -/
theorem extractWords_tokens {D : Type} (setWord : Nat → Nat → D → D)
    (pieces : List (List Char × List Char)) (tail : List Char)
    (htail : tail = [] ∨ Malformed tail) :
    ∀ (n i : Nat) (stats : D) (lead : List Char), IsSpace lead → Separated pieces →
      (extractWords setWord n i ⟨lead ++ (tokensText pieces ++ tail), false, false⟩ stats).2
        = storeFrom setWord i ((tokenValues pieces ++ tailValues tail).take n) stats := by
  induction pieces with
  | nil =>
    intro n i stats lead hlead _
    cases n with
    | zero => rfl
    | succ n =>
      rcases htail with rfl | hm
      · have he := extract_space lead hlead
        simp only [tokensText, List.append_nil] at he ⊢
        unfold extractWords
        rw [he]
        simp only [tokenValues, tailValues, List.map_nil, List.isEmpty_nil, if_true,
          List.append_nil, List.take_nil, storeFrom]
        exact extractWords_stopped setWord n (i + 1) _ stats (Or.inl rfl)
      · have he := extract_malformed lead tail hlead hm
        have hne : tail.isEmpty = false := by
          obtain ⟨c, r, rfl, -⟩ := hm
          rfl
        simp only [tokensText, List.nil_append] at he ⊢
        unfold extractWords
        rw [he]
        simp only [tokenValues, tailValues, hne, List.map_nil, List.nil_append,
          Bool.false_eq_true, if_false, List.take_succ_cons, List.take_nil, storeFrom]
        exact extractWords_stopped setWord n (i + 1) _ _ (Or.inr rfl)
  | cons p rest ih =>
    intro n i stats lead hlead hsep
    obtain ⟨tok, sep⟩ := p
    obtain ⟨htok, hsp, hnonempty, hrest⟩ := hsep
    cases n with
    | zero => rfl
    | succ n =>
      have hhead : ∀ c r, sep ++ (tokensText rest ++ tail) = c :: r → isdigit c = false := by
        intro c r hc
        cases sep with
        | cons a sep' =>
          cases hc
          exact isdigit_of_isspace _ (hsp _ (List.mem_cons_self _ _))
        | nil =>
          have hr : rest = [] := by
            by_contra hne
            exact hnonempty hne rfl
          subst hr
          simp only [tokensText, List.nil_append] at hc
          rcases htail with rfl | ⟨c', r', rfl, hd, -⟩
          · cases hc
          · cases hc
            exact hd
      have he := extract_token lead tok (sep ++ (tokensText rest ++ tail)) hlead htok hhead
      have htxt : lead ++ (tokensText ((tok, sep) :: rest) ++ tail)
          = lead ++ (tok ++ (sep ++ (tokensText rest ++ tail))) := by
        simp [tokensText, List.append_assoc]
      rw [htxt]
      unfold extractWords
      rw [he]
      simp only [tokenValues, List.map_cons, List.cons_append, List.take_succ_cons, storeFrom]
      cases hR : (sep ++ (tokensText rest ++ tail)).isEmpty with
      | true =>
        have hnil : sep ++ (tokensText rest ++ tail) = [] := List.isEmpty_iff.mp hR
        obtain ⟨h1, h2⟩ := List.append_eq_nil.mp hnil
        obtain ⟨h3, h4⟩ := List.append_eq_nil.mp h2
        have hr : rest = [] := tokensText_eq_nil rest hrest h3
        subst hr h4
        rw [extractWords_stopped setWord n (i + 1) _ _ (Or.inl rfl)]
        simp [tailValues, storeFrom]
      | false =>
        exact ih n (i + 1) _ sep hsp hrest

/-- Storing at most eleven values from word 0 on: they become the first counters,
the other counters and the attributes stay. -/
theorem counters_storeFrom (vals : List Nat) (stats : DiskStats) (h : vals.length ≤ 11) :
    (storeFrom DiskStats.setWord 0 vals stats).counters
        = vals ++ stats.counters.drop vals.length ∧
      (storeFrom DiskStats.setWord 0 vals stats).attr = stats.attr := by
  rcases vals with _ | ⟨v0, _ | ⟨v1, _ | ⟨v2, _ | ⟨v3, _ | ⟨v4, _ | ⟨v5, _ | ⟨v6, _ | ⟨v7,
    _ | ⟨v8, _ | ⟨v9, _ | ⟨v10, _ | ⟨v11, vs⟩⟩⟩⟩⟩⟩⟩⟩⟩⟩⟩⟩
  all_goals first
    | exact ⟨rfl, rfl⟩
    | (simp at h)

/-- The vector operations `resize(1)` then `[0] = stats` leave the one-element
vector `[stats]`. -/
theorem resize_one_set {D : Type} (vec : List D) (zero stats : D) :
    (vec.take 1 ++ List.replicate (1 - vec.length) zero).set 0 stats = [stats] := by
  rcases vec with _ | ⟨a, _ | ⟨b, vec⟩⟩ <;> simp

/-- The HAL 2.1 `getDiskStats` on a readable statistics file. -/
theorem getDiskStats_readable (EMMC : Bool) (fs : FileSystem) (buffer : String)
    (h : fs (kBootDeviceStatsFile EMMC) = some buffer) :
    V2_1.getDiskStats EMMC fs = ([], Result.SUCCESS,
      [(extractWords DiskStats.setWord kDiskStatsSize 0 (stringstream.ofString buffer)
        (bootDeviceStat0 EMMC)).2]) := by
  unfold V2_1.getDiskStats
  simp only [ReadFileToString, h]
  rfl

/-- The HAL 2.0 `get_disk_stats` on a readable statistics file. -/
theorem get_disk_stats_readable (EMMC : Bool) (fs : FileSystem) (buffer : String)
    (vec_stats : List DiskStats) (h : fs (kBootDeviceStatsFile EMMC) = some buffer) :
    V2_0.get_disk_stats EMMC fs vec_stats = ⟨[], .returned (),
      [(extractWords DiskStats.setWord kDiskStatsSize 0 (stringstream.ofString buffer)
        (bootDeviceStat0 EMMC)).2]⟩ := by
  unfold V2_0.get_disk_stats
  simp only [ReadFileToString, h]
  rw [resize_one_set]
  rfl

/-- The AIDL `getDiskStats` on a readable statistics file. -/
theorem aidl_getDiskStats_readable (EMMC : Bool) (fs : FileSystem) (buffer : String)
    (out : List aidl.DiskStats) (h : fs (kBootDeviceStatsFile EMMC) = some buffer) :
    aidl.getDiskStats EMMC fs out = ⟨[], .returned aidl.ScopedAStatus.ok,
      [(extractWords aidl.DiskStats.setWord kDiskStatsSize 0 (stringstream.ofString buffer)
        aidl.DiskStats.zero).2]⟩ := by
  unfold aidl.getDiskStats
  simp only [ReadFileToString, h]
  rfl

/-- The counters the HAL 2.0 and HAL 2.1 decode leaves for a text of separated
tokens followed by `tail`. -/
theorem counters_of_tokens (EMMC : Bool) (lead : List Char)
    (pieces : List (List Char × List Char)) (tail : List Char) (hlead : IsSpace lead)
    (hsep : Separated pieces) (htail : tail = [] ∨ Malformed tail) :
    (extractWords DiskStats.setWord kDiskStatsSize 0
        (stringstream.ofString ⟨lead ++ (tokensText pieces ++ tail)⟩)
        (bootDeviceStat0 EMMC)).2.counters
      = (tokenValues pieces).take 11 ++ List.replicate (11 - pieces.length) 0 := by
  have h := extractWords_tokens DiskStats.setWord pieces tail htail kDiskStatsSize 0
    (bootDeviceStat0 EMMC) lead hlead hsep
  unfold stringstream.ofString
  rw [h]
  have hlen : ((tokenValues pieces ++ tailValues tail).take kDiskStatsSize).length ≤ 11 := by
    simp [kDiskStatsSize]
  rw [(counters_storeFrom _ _ hlen).1]
  have hc : (bootDeviceStat0 EMMC).counters = List.replicate 11 0 := rfl
  rw [hc, List.drop_replicate]
  have hk : (tokenValues pieces).length = pieces.length := by simp [tokenValues]
  simp only [kDiskStatsSize]
  by_cases hge : 11 ≤ pieces.length
  · have e1 : (tokenValues pieces ++ tailValues tail).take 11 = (tokenValues pieces).take 11 :=
      List.take_append_of_le_length (by rw [hk]; exact hge)
    have e2 : ((tokenValues pieces).take 11).length = 11 := by
      rw [List.length_take, hk]; omega
    have e3 : 11 - pieces.length = 0 := by omega
    rw [e1, e2, e3]
  · have hlt : pieces.length < 11 := Nat.lt_of_not_le hge
    have e0 : (tokenValues pieces).take 11 = tokenValues pieces :=
      List.take_of_length_le (by rw [hk]; omega)
    have e1 : (tokenValues pieces ++ tailValues tail).take 11
        = tokenValues pieces ++ tailValues tail := by
      apply List.take_of_length_le
      unfold tailValues
      split <;> simp [hk] <;> omega
    rw [e0, e1]
    unfold tailValues
    split
    · simp [hk]
    · have e4 : 11 - pieces.length = (11 - (pieces.length + 1)) + 1 := by omega
      simp only [List.length_append, List.length_singleton, hk, List.append_assoc]
      rw [e4, List.replicate_succ]
      simp

/-- Storing at most eleven values from word 0 on in an AIDL record: read back as
`long`, they become the first counters; the other counters stay. -/
theorem aidl_counters_storeFrom (vals : List Nat) (stats : aidl.DiskStats)
    (h : vals.length ≤ 11) :
    (storeFrom aidl.DiskStats.setWord 0 vals stats).counters
        = vals.map aidl.toInt64 ++ stats.counters.drop vals.length := by
  rcases vals with _ | ⟨v0, _ | ⟨v1, _ | ⟨v2, _ | ⟨v3, _ | ⟨v4, _ | ⟨v5, _ | ⟨v6, _ | ⟨v7,
    _ | ⟨v8, _ | ⟨v9, _ | ⟨v10, _ | ⟨v11, vs⟩⟩⟩⟩⟩⟩⟩⟩⟩⟩⟩⟩
  all_goals first
    | rfl
    | (simp at h)

/-- C8: the block-counter decode of the HAL 2.0 and HAL 2.1 disk samplers is
positional and permissive on short input. For every readable statistics text
made of `k` valid unsigned 64-bit decimal tokens separated by white space (with
optional white space in front and behind), each sampler delivers one record whose
eleven counters are the values of the first `min k 11` tokens, in order, followed
by `11 - k` zeros; tokens beyond the eleventh are ignored. -/
theorem disk_counters_of_separated_tokens (EMMC : Bool) (fs : FileSystem) (lead : List Char)
    (pieces : List (List Char × List Char)) (hlead : IsSpace lead) (hsep : Separated pieces)
    (hfs : fs (kBootDeviceStatsFile EMMC) = some ⟨lead ++ tokensText pieces⟩) :
    (∃ stats, V2_1.getDiskStats EMMC fs = ([], Result.SUCCESS, [stats]) ∧
      stats.counters = (tokenValues pieces).take 11 ++ List.replicate (11 - pieces.length) 0) ∧
    (∀ vec_stats, ∃ stats,
      V2_0.get_disk_stats EMMC fs vec_stats = ⟨[], .returned (), [stats]⟩ ∧
      stats.counters = (tokenValues pieces).take 11 ++ List.replicate (11 - pieces.length) 0) := by
  have hc := counters_of_tokens EMMC lead pieces [] hlead hsep (Or.inl rfl)
  rw [List.append_nil] at hc
  exact ⟨⟨_, getDiskStats_readable EMMC fs _ hfs, hc⟩,
    fun vec_stats => ⟨_, get_disk_stats_readable EMMC fs _ vec_stats hfs, hc⟩⟩

/-- C8 on the texts of the specification: "1 2 3" gives 1, 2, 3 and eight zeros
(by the theorem), "1 2 3 4 5 6 7 8 9 10 11" gives 1 to 11, a file of nine tokens
gives a record whose last two counters are 0, and a twelfth token is ignored. -/
theorem disk_counters_of_separated_tokens_witness :
    (IsSpace [] ∧ Separated pieces123) ∧
    ((∃ stats, V2_1.getDiskStats false (sysfs.withFile (kBootDeviceStatsFile false) "1 2 3")
        = ([], Result.SUCCESS, [stats]) ∧
      stats.counters = [1, 2, 3, 0, 0, 0, 0, 0, 0, 0, 0]) ∧
     (∀ vec_stats, ∃ stats,
      V2_0.get_disk_stats false (sysfs.withFile (kBootDeviceStatsFile false) "1 2 3") vec_stats
        = ⟨[], .returned (), [stats]⟩ ∧
      stats.counters = [1, 2, 3, 0, 0, 0, 0, 0, 0, 0, 0])) ∧
    (V2_1.getDiskStats false
      (sysfs.withFile (kBootDeviceStatsFile false) "1 2 3 4 5 6 7 8 9 10 11")).2.2.map
        DiskStats.counters = [[1, 2, 3, 4, 5, 6, 7, 8, 9, 10, 11]] ∧
    (V2_1.getDiskStats false
      (sysfs.withFile (kBootDeviceStatsFile false) "9 8 7 6 5 4 3 2 1\n")).2.2.map
        DiskStats.counters = [[9, 8, 7, 6, 5, 4, 3, 2, 1, 0, 0]] ∧
    (V2_1.getDiskStats false
      (sysfs.withFile (kBootDeviceStatsFile false) "1 2 3 4 5 6 7 8 9 10 11 12")).2.2.map
        DiskStats.counters = [[1, 2, 3, 4, 5, 6, 7, 8, 9, 10, 11]] :=
  ⟨⟨by simp [IsSpace], by
      simp [Separated, pieces123, IsToken, IsSpace, isdigit, isspace, decimalValue,
        digitValue, ULLONG_MAX]⟩,
    disk_counters_of_separated_tokens false
      (sysfs.withFile (kBootDeviceStatsFile false) "1 2 3") [] pieces123 (by simp [IsSpace])
      (by
      simp [Separated, pieces123, IsToken, IsSpace, isdigit, isspace, decimalValue,
        digitValue, ULLONG_MAX]) (by decide),
    by decide, by decide, by decide⟩

/-- C9 (counterexample): on the text "1 2 x" the decode reports no failure. The
HAL 2.1 sampler answers `SUCCESS` with the counters 1, 2 and nine zeros, and the
AIDL sampler returns `ok` with the same record. -/
theorem disk_decode_of_1_2_x_succeeds :
    V2_1.getDiskStats false (sysfs.withFile (kBootDeviceStatsFile false) "1 2 x")
      = ([], Result.SUCCESS, [{ bootDeviceStat0 false with reads := 1, readMerges := 2 }]) ∧
    aidl.getDiskStats false (sysfs.withFile (kBootDeviceStatsFile false) "1 2 x") []
      = ⟨[], .returned aidl.ScopedAStatus.ok,
          [{ aidl.DiskStats.zero with reads := 1, readMerges := 2 }]⟩ := by
  decide

/-- C9 (amended): the block-counter decode never reports a parse error. When the
valid tokens of a readable statistics text are followed by a token that starts
with a character that is no digit, no sign and no white space, the samplers still
answer success (`SUCCESS`, `ok`) with one record: its counters are the values of
the tokens before the malformed one (the first eleven at most), the counter at
the position of the malformed token and all later counters are 0. -/
theorem disk_decode_of_malformed_token (EMMC : Bool) (fs : FileSystem) (lead : List Char)
    (pieces : List (List Char × List Char)) (tail : List Char) (hlead : IsSpace lead)
    (hsep : Separated pieces) (htail : Malformed tail)
    (hfs : fs (kBootDeviceStatsFile EMMC) = some ⟨lead ++ (tokensText pieces ++ tail)⟩) :
    (∃ stats, V2_1.getDiskStats EMMC fs = ([], Result.SUCCESS, [stats]) ∧
      stats.counters = (tokenValues pieces).take 11 ++ List.replicate (11 - pieces.length) 0) ∧
    (∀ out, ∃ stats,
      aidl.getDiskStats EMMC fs out = ⟨[], .returned aidl.ScopedAStatus.ok, [stats]⟩ ∧
      stats.counters = ((tokenValues pieces ++ [0]).take 11).map aidl.toInt64
        ++ List.replicate (11 - (pieces.length + 1)) 0) := by
  refine ⟨⟨_, getDiskStats_readable EMMC fs _ hfs,
    counters_of_tokens EMMC lead pieces tail hlead hsep (Or.inr htail)⟩, ?_⟩
  intro out
  refine ⟨_, aidl_getDiskStats_readable EMMC fs _ out hfs, ?_⟩
  have h := extractWords_tokens aidl.DiskStats.setWord pieces tail (Or.inr htail)
    kDiskStatsSize 0 aidl.DiskStats.zero lead hlead hsep
  have htv : tailValues tail = [0] := by
    obtain ⟨c, r, rfl, -⟩ := htail
    rfl
  unfold stringstream.ofString
  rw [h, htv]
  have hlen : ((tokenValues pieces ++ [0]).take kDiskStatsSize).length ≤ 11 := by
    simp [kDiskStatsSize]
  rw [aidl_counters_storeFrom _ _ hlen]
  have hc : aidl.DiskStats.zero.counters = List.replicate 11 0 := rfl
  have hk : (tokenValues pieces).length = pieces.length := by simp [tokenValues]
  rw [hc, List.drop_replicate]
  simp only [kDiskStatsSize, List.length_take, List.length_append, List.length_singleton, hk]
  congr 2
  omega

/-- C9 (amended) on the text "1 2 x". -/
theorem disk_decode_of_malformed_token_witness :
    (IsSpace [] ∧ Separated pieces12 ∧ Malformed ['x']) ∧
    (∃ stats, V2_1.getDiskStats false (sysfs.withFile (kBootDeviceStatsFile false) "1 2 x")
        = ([], Result.SUCCESS, [stats]) ∧
      stats.counters = [1, 2, 0, 0, 0, 0, 0, 0, 0, 0, 0]) ∧
    (∀ out, ∃ stats,
      aidl.getDiskStats false (sysfs.withFile (kBootDeviceStatsFile false) "1 2 x") out
        = ⟨[], .returned aidl.ScopedAStatus.ok, [stats]⟩ ∧
      stats.counters = [1, 2, 0, 0, 0, 0, 0, 0, 0, 0, 0]) :=
  ⟨⟨by simp [IsSpace], by
      simp [Separated, pieces12, IsToken, IsSpace, isdigit, isspace, decimalValue,
        digitValue, ULLONG_MAX],
      ⟨'x', [], rfl, by decide, by decide, by decide, by decide⟩⟩,
    disk_decode_of_malformed_token false
      (sysfs.withFile (kBootDeviceStatsFile false) "1 2 x") [] pieces12 ['x'] (by simp [IsSpace])
      (by
      simp [Separated, pieces12, IsToken, IsSpace, isdigit, isspace, decimalValue,
        digitValue, ULLONG_MAX])
      ⟨'x', [], rfl, by decide, by decide, by decide, by decide⟩ (by decide)⟩

/-- C10: the disk sampler fails exactly when the statistics file cannot be read.
For every readable content, whatever it holds, the HAL 2.1 `getDiskStats` calls
back with `SUCCESS` and one record and the AIDL `getDiskStats` returns `ok` with
one record in `*out`; for an unreadable file the first calls back with
`NOT_SUPPORTED` and no record, the second returns `EX_UNSUPPORTED_OPERATION`
and leaves `*out` as the caller passed it. -/
theorem disk_sample_fails_iff_unreadable (EMMC : Bool) (fs : FileSystem) :
    (∀ buffer, fs (kBootDeviceStatsFile EMMC) = some buffer →
      (∃ stats, V2_1.getDiskStats EMMC fs = ([], Result.SUCCESS, [stats])) ∧
      (∀ out, ∃ stats,
        aidl.getDiskStats EMMC fs out = ⟨[], .returned aidl.ScopedAStatus.ok, [stats]⟩)) ∧
    (fs (kBootDeviceStatsFile EMMC) = none →
      V2_1.getDiskStats EMMC fs
        = ([readFailed (kBootDeviceStatsFile EMMC)], Result.NOT_SUPPORTED, []) ∧
      (∀ out, aidl.getDiskStats EMMC fs out
        = ⟨[readFailed (kBootDeviceStatsFile EMMC)],
            .returned (aidl.ScopedAStatus.fromExceptionCode aidl.EX_UNSUPPORTED_OPERATION),
            out⟩)) ∧
    ((V2_1.getDiskStats EMMC fs).2.1 = Result.SUCCESS ↔ fs (kBootDeviceStatsFile EMMC) ≠ none) ∧
    (∀ out, (aidl.getDiskStats EMMC fs out).completion = .returned aidl.ScopedAStatus.ok ↔
      fs (kBootDeviceStatsFile EMMC) ≠ none) := by
  have hnone : fs (kBootDeviceStatsFile EMMC) = none →
      V2_1.getDiskStats EMMC fs
        = ([readFailed (kBootDeviceStatsFile EMMC)], Result.NOT_SUPPORTED, []) ∧
      (∀ out, aidl.getDiskStats EMMC fs out
        = ⟨[readFailed (kBootDeviceStatsFile EMMC)],
            .returned (aidl.ScopedAStatus.fromExceptionCode aidl.EX_UNSUPPORTED_OPERATION),
            out⟩) := by
    intro h
    constructor
    · unfold V2_1.getDiskStats
      simp only [ReadFileToString, h]
    · intro out
      unfold aidl.getDiskStats
      simp only [ReadFileToString, h]
  refine ⟨?_, hnone, ?_, ?_⟩
  · intro buffer h
    exact ⟨⟨_, getDiskStats_readable EMMC fs buffer h⟩,
      fun out => ⟨_, aidl_getDiskStats_readable EMMC fs buffer out h⟩⟩
  · cases h : fs (kBootDeviceStatsFile EMMC) with
    | none => rw [(hnone h).1]; simp
    | some buffer => rw [getDiskStats_readable EMMC fs buffer h]; simp
  · intro out
    cases h : fs (kBootDeviceStatsFile EMMC) with
    | none => rw [(hnone h).2 out]; simp
    | some buffer => rw [aidl_getDiskStats_readable EMMC fs buffer out h]; simp

/-- C10 on three contents: an empty file, a short one and one with a token that
is no number all succeed with one record; the missing file does not. -/
theorem disk_sample_fails_iff_unreadable_witness :
    (V2_1.getDiskStats false (sysfs.withFile (kBootDeviceStatsFile false) "")).2.1
      = Result.SUCCESS ∧
    (V2_1.getDiskStats false (sysfs.withFile (kBootDeviceStatsFile false) "")).2.2.length = 1 ∧
    (aidl.getDiskStats false (sysfs.withFile (kBootDeviceStatsFile false) "7 x 9") []).completion
      = .returned aidl.ScopedAStatus.ok ∧
    (aidl.getDiskStats false (sysfs.withFile (kBootDeviceStatsFile false) "7 x 9") []).state.length
      = 1 ∧
    V2_1.getDiskStats false (sysfs.without (kBootDeviceStatsFile false))
      = ([readFailed (kBootDeviceStatsFile false)], Result.NOT_SUPPORTED, []) :=
  ⟨by decide, by decide, by decide, by decide,
    ((disk_sample_fails_iff_unreadable false (sysfs.without (kBootDeviceStatsFile false))).2.1
      (by decide)).1⟩

/-- The store into a counter word leaves the attributes alone. -/
theorem setWord_attr (i v : Nat) (stats : DiskStats) :
    (DiskStats.setWord i v stats).attr = stats.attr := by
  unfold DiskStats.setWord
  split <;> rfl

/-- The extraction loop leaves the attributes alone. -/
theorem extractWords_attr (n i : Nat) (ss : stringstream) (stats : DiskStats) :
    (extractWords DiskStats.setWord n i ss stats).2.attr = stats.attr := by
  induction n generalizing i ss stats with
  | zero => rfl
  | succ n ih =>
    unfold extractWords
    split
    · exact ih _ _ _
    · rw [ih, setWord_attr]

/-- C11 (counterexample): the AIDL disk sample carries no identity. The AIDL
record holds only the eleven counters and `getDiskStats` of `health.cpp` assigns
nothing else: a build for SD card and a build for eMMC whose statistics files
hold the same text "1 2 3" both succeed and deliver the same sample, although
the configured device names differ, so no field of the sample is the configured
device name. -/
theorem aidl_disk_sample_has_no_identity :
    aidl.getDiskStats false (sysfs.withFile (kBootDeviceStatsFile false) "1 2 3") []
      = ⟨[], .returned aidl.ScopedAStatus.ok,
          [{ aidl.DiskStats.zero with reads := 1, readMerges := 2, readSectors := 3 }]⟩ ∧
    aidl.getDiskStats true (sysfs.withFile (kBootDeviceStatsFile true) "1 2 3") []
      = ⟨[], .returned aidl.ScopedAStatus.ok,
          [{ aidl.DiskStats.zero with reads := 1, readMerges := 2, readSectors := 3 }]⟩ ∧
    kBootDeviceName false ≠ kBootDeviceName true ∧
    ¬ ∃ deviceName : aidl.DiskStats → String,
      (∀ stats ∈ (aidl.getDiskStats false
          (sysfs.withFile (kBootDeviceStatsFile false) "1 2 3") []).state,
        deviceName stats = kBootDeviceName false) ∧
      (∀ stats ∈ (aidl.getDiskStats true
          (sysfs.withFile (kBootDeviceStatsFile true) "1 2 3") []).state,
        deviceName stats = kBootDeviceName true) := by
  have e0 : aidl.getDiskStats false (sysfs.withFile (kBootDeviceStatsFile false) "1 2 3") []
      = ⟨[], .returned aidl.ScopedAStatus.ok,
          [{ aidl.DiskStats.zero with reads := 1, readMerges := 2, readSectors := 3 }]⟩ := by
    decide
  have e1 : aidl.getDiskStats true (sysfs.withFile (kBootDeviceStatsFile true) "1 2 3") []
      = ⟨[], .returned aidl.ScopedAStatus.ok,
          [{ aidl.DiskStats.zero with reads := 1, readMerges := 2, readSectors := 3 }]⟩ := by
    decide
  refine ⟨e0, e1, by decide, ?_⟩
  rintro ⟨deviceName, h0, h1⟩
  rw [e0] at h0
  rw [e1] at h1
  have a := h0 _ (List.mem_singleton.mpr rfl)
  have b := h1 _ (List.mem_singleton.mpr rfl)
  rw [a] at b
  exact absurd b (by decide)

/-- C11 (amended): every successful disk sample of the HAL 2.0 and HAL 2.1 entry
points carries the statically configured identity, `isInternal = true`,
`isBootDevice = true` and the name of the configured boot device ("mmcblk0", or
"mmcblk1" when built for eMMC), whatever the statistics file holds: decoding the
eleven counters does not alter these fields. -/
theorem hal_disk_sample_identity (EMMC : Bool) (fs : FileSystem) (buffer : String)
    (h : fs (kBootDeviceStatsFile EMMC) = some buffer) :
    (∃ stats, V2_1.getDiskStats EMMC fs = ([], Result.SUCCESS, [stats]) ∧
      stats.attr = ⟨true, true, kBootDeviceName EMMC⟩) ∧
    (∀ vec_stats, ∃ stats,
      V2_0.get_disk_stats EMMC fs vec_stats = ⟨[], .returned (), [stats]⟩ ∧
      stats.attr = ⟨true, true, kBootDeviceName EMMC⟩) ∧
    (∀ (ss : stringstream) (stats : DiskStats),
      (extractWords DiskStats.setWord kDiskStatsSize 0 ss stats).2.attr = stats.attr) ∧
    (kBootDeviceName false = "mmcblk0" ∧ kBootDeviceName true = "mmcblk1") := by
  have ha : (extractWords DiskStats.setWord kDiskStatsSize 0 (stringstream.ofString buffer)
      (bootDeviceStat0 EMMC)).2.attr = ⟨true, true, kBootDeviceName EMMC⟩ := by
    rw [extractWords_attr]
    rfl
  exact ⟨⟨_, getDiskStats_readable EMMC fs buffer h, ha⟩,
    fun vec_stats => ⟨_, get_disk_stats_readable EMMC fs buffer vec_stats h, ha⟩,
    fun ss stats => extractWords_attr _ _ ss stats, rfl, rfl⟩

/-- C11 (amended) on the statistics file of `sysfs`, built for SD card. -/
theorem hal_disk_sample_identity_witness :
    (∃ stats, V2_1.getDiskStats false sysfs = ([], Result.SUCCESS, [stats]) ∧
      stats.attr = ⟨true, true, "mmcblk0"⟩) ∧
    (∀ vec_stats, ∃ stats,
      V2_0.get_disk_stats false sysfs vec_stats = ⟨[], .returned (), [stats]⟩ ∧
      stats.attr = ⟨true, true, "mmcblk0"⟩) :=
  ⟨(hal_disk_sample_identity false sysfs _ rfl).1, (hal_disk_sample_identity false sysfs _ rfl).2.1⟩

/-- C12: for every `voltage_now` text that decodes to the integer `v`
(microvolts), each of the three samplers stores `v / 1000`, the division
truncating toward zero, as the battery voltage in millivolts: on every filesystem
on which the files the sampler reads before `voltage_now` pass (`passes`:
readable, valid numerals, non-empty status and health), whatever the files read
later hold. "3700000" gives 3700, "999" gives 0, "-1500" gives -1. -/
theorem voltage_is_microvolts_div_1000 (fs : FileSystem) (t : String) (v : Int)
    (hv : stoi t = .ok v) (hfs : fs (battery.append "voltage_now") = some t) :
    (∀ p, (∀ f ∈ attributeFiles.take 5, passes fs f = true) →
      (V2_0.healthd_board_battery_update fs p).state.batteryVoltage = v.tdiv 1000) ∧
    (∀ p, (∀ f ∈ attributeFiles.take 5, passes fs f = true) →
      (V2_1.BoardBatteryUpdate fs p).state.batteryVoltage = v.tdiv 1000) ∧
    (∀ hi, (∀ f ∈ aidlBatteryFiles.take 5, passes fs f = true) →
      (aidl.UpdateHealthInfo fs hi).state.batteryVoltageMillivolts = v.tdiv 1000) ∧
    (stoi "3700000" = .ok 3700000 ∧ (3700000 : Int).tdiv 1000 = 3700 ∧
     stoi "999" = .ok 999 ∧ (999 : Int).tdiv 1000 = 0 ∧
     stoi "-1500" = .ok (-1500) ∧ (-1500 : Int).tdiv 1000 = -1) :=
  ⟨fun p hpass => (healthd_board_battery_update_stores fs p _ rfl).1 hpass t v hfs hv,
    fun p hpass => (BoardBatteryUpdate_stores fs p _ rfl).1 hpass t v hfs hv,
    fun hi hpass => (aidl_UpdateHealthInfo_stores fs hi _ rfl).1 hpass t v hfs hv,
    rfl, rfl, rfl, rfl, rfl, rfl⟩

/-- C12 in the three entry points, on records that hold the voltage 0 before the
call: with the `voltage_now` text "-1500\n" each sampler stores -1; the HAL 2.0
sampler also does when `std::stoi` throws at the `temp` file read next. -/
theorem voltage_is_microvolts_div_1000_witness :
    stoi "-1500\n" = .ok (-1500) ∧
    (V2_0.healthd_board_battery_update
      (sysfs.withFile (battery.append "voltage_now") "-1500\n") props0).state.batteryVoltage
      = -1 ∧
    (V2_1.BoardBatteryUpdate
      (sysfs.withFile (battery.append "voltage_now") "-1500\n") props0).state.batteryVoltage
      = -1 ∧
    (aidl.UpdateHealthInfo
      (sysfs.withFile (battery.append "voltage_now") "-1500\n")
      health0).state.batteryVoltageMillivolts = -1 ∧
    (V2_0.healthd_board_battery_update
      ((sysfs.withFile (battery.append "voltage_now") "-1500\n").withFile
        (battery.append "temp") "warm") props0).completion = .threw "std::invalid_argument" ∧
    (V2_0.healthd_board_battery_update
      ((sysfs.withFile (battery.append "voltage_now") "-1500\n").withFile
        (battery.append "temp") "warm") props0).state.batteryVoltage = -1 :=
  ⟨rfl,
    (voltage_is_microvolts_div_1000 (sysfs.withFile (battery.append "voltage_now") "-1500\n")
      "-1500\n" (-1500) rfl (by decide)).1 props0 (by decide),
    (voltage_is_microvolts_div_1000 (sysfs.withFile (battery.append "voltage_now") "-1500\n")
      "-1500\n" (-1500) rfl (by decide)).2.1 props0 (by decide),
    (voltage_is_microvolts_div_1000 (sysfs.withFile (battery.append "voltage_now") "-1500\n")
      "-1500\n" (-1500) rfl (by decide)).2.2.1 health0 (by decide),
    by decide,
    (voltage_is_microvolts_div_1000
      ((sysfs.withFile (battery.append "voltage_now") "-1500\n").withFile
        (battery.append "temp") "warm") "-1500\n" (-1500) rfl (by decide)).1 props0 (by decide)⟩

/-- Truncating division by ten changes every integer but 0. -/
theorem tdiv_ten_ne_self (v : Int) (h : v ≠ 0) : v.tdiv 10 ≠ v := by
  intro e
  have n := congrArg Int.natAbs e
  rw [Int.natAbs_tdiv] at n
  have n2 : v.natAbs / 10 = v.natAbs := n
  have n3 : v.natAbs = 0 := by omega
  exact h (Int.natAbs_eq_zero.mp n3)

/-- C13: the entry points disagree on the temperature unit. For every `temp` text
that decodes to the integer `v` (tenths of a degree Celsius), the HAL 2.0 and HAL
2.1 samplers store `v / 10`, the division truncating toward zero, and the AIDL
sampler stores `v` unchanged: on every filesystem on which the files the sampler
reads before `temp` pass (`passes`: readable, valid numerals, non-empty status
and health), whatever the files read later hold. The two stored values differ
for every `v` other than 0. -/
theorem temperature_unit_differs (fs : FileSystem) (t : String) (v : Int)
    (hv : stoi t = .ok v) (hfs : fs (battery.append "temp") = some t) :
    (∀ p, (∀ f ∈ attributeFiles.take 6, passes fs f = true) →
      (V2_0.healthd_board_battery_update fs p).state.batteryTemperature = v.tdiv 10) ∧
    (∀ p, (∀ f ∈ attributeFiles.take 6, passes fs f = true) →
      (V2_1.BoardBatteryUpdate fs p).state.batteryTemperature = v.tdiv 10) ∧
    (∀ hi, (∀ f ∈ aidlBatteryFiles.take 6, passes fs f = true) →
      (aidl.UpdateHealthInfo fs hi).state.batteryTemperatureTenthsCelsius = v) ∧
    (v ≠ 0 → v.tdiv 10 ≠ v) :=
  ⟨fun p hpass => (healthd_board_battery_update_stores fs p _ rfl).2.1 hpass t v hfs hv,
    fun p hpass => (BoardBatteryUpdate_stores fs p _ rfl).2.1 hpass t v hfs hv,
    fun hi hpass => (aidl_UpdateHealthInfo_stores fs hi _ rfl).2.1 hpass t v hfs hv,
    tdiv_ten_ne_self v⟩

/-- C13 in the three entry points, on records that hold the temperature 0 before
the call and `sysfs`, whose `temp` file holds "255\n": the HAL 2.0 and HAL 2.1
samplers store 25, the AIDL sampler stores 255; the HAL 2.1 sampler also stores
25 when the `cycle_count` file read next is missing. -/
theorem temperature_unit_differs_witness :
    stoi "255\n" = .ok 255 ∧ sysfs (battery.append "temp") = some "255\n" ∧
    (V2_0.healthd_board_battery_update sysfs props0).state.batteryTemperature = 25 ∧
    (V2_1.BoardBatteryUpdate sysfs props0).state.batteryTemperature = 25 ∧
    (aidl.UpdateHealthInfo sysfs health0).state.batteryTemperatureTenthsCelsius = 255 ∧
    (V2_1.BoardBatteryUpdate (sysfs.without (battery.append "cycle_count"))
      props0).completion = .returned false ∧
    (V2_1.BoardBatteryUpdate (sysfs.without (battery.append "cycle_count"))
      props0).state.batteryTemperature = 25 :=
  ⟨rfl, rfl,
    (temperature_unit_differs sysfs "255\n" 255 rfl rfl).1 props0 (by decide),
    (temperature_unit_differs sysfs "255\n" 255 rfl rfl).2.1 props0 (by decide),
    (temperature_unit_differs sysfs "255\n" 255 rfl rfl).2.2.1 health0 (by decide),
    by decide,
    (temperature_unit_differs (sysfs.without (battery.append "cycle_count")) "255\n" 255 rfl
      (by decide)).2.1 props0 (by decide)⟩

/-- The sign and the text after it, as `std::stoi` sees them behind leading white
space. -/
theorem takeSign_dropWhile_isspace (ws sign rest : List Char) (hws : IsSpace ws)
    (hsign : IsSign sign) (hrest : sign = [] → NoSpaceOrSignAhead rest) :
    takeSign ((ws ++ sign ++ rest).dropWhile isspace) = (decide (sign = ['-']), rest) := by
  rw [List.append_assoc]
  rcases hsign with rfl | rfl | rfl
  · have h := hrest rfl
    rw [List.nil_append, dropWhile_isspace_append ws rest hws (fun c r e => (h c r e).1)]
    cases rest with
    | nil => rfl
    | cons c r =>
      obtain ⟨-, hp, hm⟩ := h c r rfl
      simp [takeSign, hp, hm]
  · rw [dropWhile_isspace_append ws _ hws (fun c r e => by
      simp only [List.singleton_append, List.cons.injEq] at e
      rw [← e.1]; decide)]
    simp [takeSign]
  · rw [dropWhile_isspace_append ws _ hws (fun c r e => by
      simp only [List.singleton_append, List.cons.injEq] at e
      rw [← e.1]; decide)]
    simp [takeSign]

/-- The result of `std::stoi` on a text given as white space, optional sign and
the rest. -/
theorem stoi_of_parts (ws sign rest : List Char) (hws : IsSpace ws)
    (hsign : IsSign sign) (hrest : sign = [] → NoSpaceOrSignAhead rest) :
    stoi ⟨ws ++ sign ++ rest⟩ =
      if (rest.takeWhile isdigit).isEmpty then .error "std::invalid_argument"
      else if signedValue sign (rest.takeWhile isdigit) < INT_MIN ∨
          INT_MAX < signedValue sign (rest.takeWhile isdigit) then
        .error "std::out_of_range"
      else .ok (signedValue sign (rest.takeWhile isdigit)) := by
  unfold stoi
  simp only [takeSign_dropWhile_isspace ws sign rest hws hsign hrest, signedValue,
    decide_eq_true_eq]

/-- A run of digits starts with neither white space nor a sign. -/
theorem noSpaceOrSignAhead_of_digits (digits trailing : List Char) (hd : IsDigits digits) :
    NoSpaceOrSignAhead (digits ++ trailing) := by
  intro c r e
  obtain ⟨hne, hdig⟩ := hd
  cases digits with
  | nil => exact absurd rfl hne
  | cons d ds =>
    simp only [List.cons_append, List.cons.injEq] at e
    have hc : isdigit c = true := by
      rw [← e.1]; exact hdig d (List.mem_cons_self d ds)
    exact ⟨isspace_of_isdigit c hc, (not_sign_of_isdigit c hc).1, (not_sign_of_isdigit c hc).2⟩

/-- C14: the integer decode `std::stoi`, used for every numeric battery attribute,
parses the leading numeral and ignores what follows. For every text made of
white space `ws`, an optional sign, one or more decimal digits (the whole run:
what follows does not start with a digit) and trailing characters, the decoded
value is that signed numeral when it fits a 32-bit `int`, and the decode fails
with `std::out_of_range` when it does not; for a text without a digit behind the
white space and the sign the decode fails with `std::invalid_argument`. "85\n"
and "85abc" both give 85, the empty text and "abc" fail. At the call sites the
failure is an exception that leaves the function with the output unwritten:
`getCapacity` returns OK with the decoded value or throws with `*out` untouched,
and `BoardBatteryUpdate` throws with `batteryLevel` untouched. -/
theorem stoi_parses_leading_numeral (ws sign : List Char) (hws : IsSpace ws)
    (hsign : IsSign sign) :
    (∀ digits trailing, IsDigits digits → NoDigitAhead trailing →
      (INT_MIN ≤ signedValue sign digits ∧ signedValue sign digits ≤ INT_MAX →
        stoi ⟨ws ++ sign ++ (digits ++ trailing)⟩ = .ok (signedValue sign digits)) ∧
      (signedValue sign digits < INT_MIN ∨ INT_MAX < signedValue sign digits →
        stoi ⟨ws ++ sign ++ (digits ++ trailing)⟩ = .error "std::out_of_range")) ∧
    (∀ rest, NoDigitAhead rest → (sign = [] → NoSpaceOrSignAhead rest) →
      stoi ⟨ws ++ sign ++ rest⟩ = .error "std::invalid_argument") ∧
    (stoi "85\n" = .ok 85 ∧ stoi "85abc" = .ok 85 ∧
      stoi "" = .error "std::invalid_argument" ∧ stoi "abc" = .error "std::invalid_argument" ∧
      stoi "2147483648" = .error "std::out_of_range") ∧
    (∀ (fs : FileSystem) (out : Int) (t : String), fs (battery.append "capacity") = some t →
      (∀ v, stoi t = .ok v →
        aidl.getCapacity fs out = ⟨[], .returned aidl.ScopedAStatus.ok, v⟩) ∧
      (∀ what, stoi t = .error what → aidl.getCapacity fs out = ⟨[], .threw what, out⟩)) ∧
    (∀ (fs : FileSystem) (p : BatteryProperties) (tech t what : String),
      fs (battery.append "technology") = some tech →
      fs (battery.append "capacity") = some t → stoi t = .error what →
      (V2_1.BoardBatteryUpdate fs p).completion = .threw what ∧
      (V2_1.BoardBatteryUpdate fs p).state.batteryLevel = p.batteryLevel) := by
  refine ⟨?_, ?_, ⟨rfl, rfl, rfl, rfl, rfl⟩, ?_, ?_⟩
  · intro digits trailing hd ht
    have hrest := noSpaceOrSignAhead_of_digits digits trailing hd
    have htake : (digits ++ trailing).takeWhile isdigit = digits :=
      (takeWhile_isdigit_append digits trailing hd.2 ht).1
    have hemp : digits.isEmpty = false := by
      cases digits with
      | nil => exact absurd rfl hd.1
      | cons d ds => rfl
    rw [stoi_of_parts ws sign _ hws hsign (fun _ => hrest), htake, hemp]
    constructor
    · intro hfit
      have hn : ¬ (signedValue sign digits < INT_MIN ∨ INT_MAX < signedValue sign digits) := by
        omega
      simp only [Bool.false_eq_true, if_false, hn]
    · intro hout
      simp only [Bool.false_eq_true, if_false, hout, if_true]
  · intro rest hnd hrest
    have htake : rest.takeWhile isdigit = [] := by
      cases rest with
      | nil => rfl
      | cons c r => simp [List.takeWhile, hnd c r rfl]
    rw [stoi_of_parts ws sign rest hws hsign hrest, htake]
    rfl
  · intro fs out t hcap
    constructor
    · intro v hv
      simp only [aidl.getCapacity, ReadFileToString, hcap, hv]
    · intro what hw
      simp only [aidl.getCapacity, ReadFileToString, hcap, hw]
  · intro fs p tech t what htech hcap hw
    simp only [V2_1.BoardBatteryUpdate, ReadFileToString, htech, hcap, hw, and_self]

/-- C14 on the text " -85 mV": white space, a sign, two digits, trailing
characters. -/
theorem stoi_parses_leading_numeral_witness :
    IsSpace [' '] ∧ IsSign ['-'] ∧ stoi " -85 mV" = .ok (-85) ∧
    stoi " -x" = .error "std::invalid_argument" :=
  ⟨by simp [IsSpace, isspace], by simp [IsSign],
    ((stoi_parses_leading_numeral [' '] ['-'] (by simp [IsSpace, isspace])
      (by simp [IsSign])).1 ['8', '5'] [' ', 'm', 'V'] (by simp [IsDigits, isdigit])
      (by simp [NoDigitAhead, isdigit])).1 (by decide),
    (stoi_parses_leading_numeral [' '] ['-'] (by simp [IsSpace, isspace])
      (by simp [IsSign])).2.1 ['x'] (by simp [NoDigitAhead, isdigit]) (by simp)⟩

/-- The accessor `getChargeCounterUah` reads `charge_counter` only. -/
theorem getChargeCounterUah_contract :
    AccessorContract aidl.getChargeCounterUah (battery.append "charge_counter") decodeInt := by
  refine ⟨?_, ?_, ?_, ?_, ?_⟩
  · intro fs out
    unfold aidl.getChargeCounterUah decodeInt
    simp only [ReadFileToString]
    rcases h : fs (battery.append "charge_counter") with _ | t
    · simp
    · rcases hs : stoi t with what | v <;> simp [hs]
  · intro fs out t v ht hv
    unfold decodeInt at hv
    unfold aidl.getChargeCounterUah
    simp only [ReadFileToString, ht]
    rcases hs : stoi t with what | w <;> rw [hs] at hv
    · cases hv
    · cases hv; rfl
  · intro fs out h
    unfold aidl.getChargeCounterUah
    simp only [ReadFileToString, h]
  · intro fs out t ht hv
    unfold decodeInt at hv
    unfold aidl.getChargeCounterUah
    simp only [ReadFileToString, ht]
    rcases hs : stoi t with what | w <;> rw [hs] at hv
    · exact ⟨(fun status h => by cases h), rfl⟩
    · cases hv
  · intro fs fs2 out h
    unfold aidl.getChargeCounterUah
    simp only [ReadFileToString, h]

/-- The accessor `getCurrentNowMicroamps` reads `current_now` only. -/
theorem getCurrentNowMicroamps_contract :
    AccessorContract aidl.getCurrentNowMicroamps (battery.append "current_now") decodeInt := by
  refine ⟨?_, ?_, ?_, ?_, ?_⟩
  · intro fs out
    unfold aidl.getCurrentNowMicroamps decodeInt
    simp only [ReadFileToString]
    rcases h : fs (battery.append "current_now") with _ | t
    · simp
    · rcases hs : stoi t with what | v <;> simp [hs]
  · intro fs out t v ht hv
    unfold decodeInt at hv
    unfold aidl.getCurrentNowMicroamps
    simp only [ReadFileToString, ht]
    rcases hs : stoi t with what | w <;> rw [hs] at hv
    · cases hv
    · cases hv; rfl
  · intro fs out h
    unfold aidl.getCurrentNowMicroamps
    simp only [ReadFileToString, h]
  · intro fs out t ht hv
    unfold decodeInt at hv
    unfold aidl.getCurrentNowMicroamps
    simp only [ReadFileToString, ht]
    rcases hs : stoi t with what | w <;> rw [hs] at hv
    · exact ⟨(fun status h => by cases h), rfl⟩
    · cases hv
  · intro fs fs2 out h
    unfold aidl.getCurrentNowMicroamps
    simp only [ReadFileToString, h]

/-- The accessor `getCurrentAverageMicroamps` reads `current_avg` only. -/
theorem getCurrentAverageMicroamps_contract :
    AccessorContract aidl.getCurrentAverageMicroamps (battery.append "current_avg") decodeInt := by
  refine ⟨?_, ?_, ?_, ?_, ?_⟩
  · intro fs out
    unfold aidl.getCurrentAverageMicroamps decodeInt
    simp only [ReadFileToString]
    rcases h : fs (battery.append "current_avg") with _ | t
    · simp
    · rcases hs : stoi t with what | v <;> simp [hs]
  · intro fs out t v ht hv
    unfold decodeInt at hv
    unfold aidl.getCurrentAverageMicroamps
    simp only [ReadFileToString, ht]
    rcases hs : stoi t with what | w <;> rw [hs] at hv
    · cases hv
    · cases hv; rfl
  · intro fs out h
    unfold aidl.getCurrentAverageMicroamps
    simp only [ReadFileToString, h]
  · intro fs out t ht hv
    unfold decodeInt at hv
    unfold aidl.getCurrentAverageMicroamps
    simp only [ReadFileToString, ht]
    rcases hs : stoi t with what | w <;> rw [hs] at hv
    · exact ⟨(fun status h => by cases h), rfl⟩
    · cases hv
  · intro fs fs2 out h
    unfold aidl.getCurrentAverageMicroamps
    simp only [ReadFileToString, h]

/-- The accessor `getCapacity` reads `capacity` only. -/
theorem getCapacity_contract :
    AccessorContract aidl.getCapacity (battery.append "capacity") decodeInt := by
  refine ⟨?_, ?_, ?_, ?_, ?_⟩
  · intro fs out
    unfold aidl.getCapacity decodeInt
    simp only [ReadFileToString]
    rcases h : fs (battery.append "capacity") with _ | t
    · simp
    · rcases hs : stoi t with what | v <;> simp [hs]
  · intro fs out t v ht hv
    unfold decodeInt at hv
    unfold aidl.getCapacity
    simp only [ReadFileToString, ht]
    rcases hs : stoi t with what | w <;> rw [hs] at hv
    · cases hv
    · cases hv; rfl
  · intro fs out h
    unfold aidl.getCapacity
    simp only [ReadFileToString, h]
  · intro fs out t ht hv
    unfold decodeInt at hv
    unfold aidl.getCapacity
    simp only [ReadFileToString, ht]
    rcases hs : stoi t with what | w <;> rw [hs] at hv
    · exact ⟨(fun status h => by cases h), rfl⟩
    · cases hv
  · intro fs fs2 out h
    unfold aidl.getCapacity
    simp only [ReadFileToString, h]

/-- The accessor `getChargeStatus` reads `status` only; its behaviour on a status
file that is unreadable or holds a non-empty text. -/
theorem getChargeStatus_reads_status :
    (∀ fs out, fs (battery.append "status") ≠ some "" →
      ((aidl.getChargeStatus fs out).completion = .returned aidl.ScopedAStatus.ok ↔
        ∃ t, fs (battery.append "status") = some t)) ∧
    (∀ fs out t, fs (battery.append "status") = some t → t ≠ "" →
      aidl.getChargeStatus fs out =
        ⟨[], .returned aidl.ScopedAStatus.ok, decodeEnum t statusLabels BatteryStatus.UNKNOWN⟩) ∧
    (∀ fs out, fs (battery.append "status") = none →
      aidl.getChargeStatus fs out = ⟨[readFailed (battery.append "status")],
        .returned (aidl.ScopedAStatus.fromExceptionCode aidl.EX_UNSUPPORTED_OPERATION), out⟩) ∧
    (∀ fs fs2 out, fs (battery.append "status") = fs2 (battery.append "status") →
      fs (battery.append "status") ≠ some "" →
      aidl.getChargeStatus fs out = aidl.getChargeStatus fs2 out) := by
  have hnone : ∀ fs out, fs (battery.append "status") = none →
      aidl.getChargeStatus fs out = ⟨[readFailed (battery.append "status")],
        .returned (aidl.ScopedAStatus.fromExceptionCode aidl.EX_UNSUPPORTED_OPERATION),
        out⟩ := by
    intro fs out h
    unfold aidl.getChargeStatus
    simp only [ReadFileToString, h]
  refine ⟨?_, ?_, hnone, ?_⟩
  · intro fs out hne
    rcases h : fs (battery.append "status") with _ | t
    · rw [hnone fs out h]
      simp
    · have hne2 : t ≠ "" := by
        rintro rfl
        exact hne h
      rw [getChargeStatus_eq_decodeEnum fs out t h hne2]
      simp
  · intro fs out t ht hne
    exact getChargeStatus_eq_decodeEnum fs out t ht hne
  · intro fs fs2 out h hne
    rcases ht : fs (battery.append "status") with _ | t
    · rw [hnone fs out ht, hnone fs2 out (h ▸ ht)]
    · have hne2 : t ≠ "" := by
        rintro rfl
        exact hne ht
      rw [getChargeStatus_eq_decodeEnum fs out t ht hne2,
        getChargeStatus_eq_decodeEnum fs2 out t (h ▸ ht) hne2]

/-- C15 (counterexample): a readable file does not make the accessor return OK.
With "abc" as the content of `capacity` (every other file of `sysfs` in place)
`getCapacity` returns no status: `std::stoi` throws `std::invalid_argument`, and
`*out` keeps its value 7. -/
theorem getCapacity_of_readable_abc_throws :
    (sysfs.withFile (battery.append "capacity") "abc") (battery.append "capacity")
      = some "abc" ∧
    aidl.getCapacity (sysfs.withFile (battery.append "capacity") "abc") 7
      = ⟨[], .threw "std::invalid_argument", 7⟩ ∧
    (aidl.getCapacity (sysfs.withFile (battery.append "capacity") "abc") 7).completion
      ≠ .returned aidl.ScopedAStatus.ok := by
  refine ⟨by decide, by decide, by decide⟩

/-- C15 (amended): each AIDL per-field accessor (`getChargeCounterUah` on
`charge_counter`, `getCurrentNowMicroamps` on `current_now`,
`getCurrentAverageMicroamps` on `current_avg`, `getCapacity` on `capacity`,
`getChargeStatus` on `status`) depends on exactly one attribute file: two
filesystems that agree on that file give the same result. A numeric accessor
returns OK with the value decoded from its file iff the file is readable and
`std::stoi` accepts its text; it returns `EX_UNSUPPORTED_OPERATION` without
writing the output when the file is unreadable; when the file is readable and
`std::stoi` throws it returns no status and the output is not written either.
`getChargeStatus`, on every filesystem whose `status` text is not the empty
text, returns OK with the decoded status iff the file is readable, and returns
`EX_UNSUPPORTED_OPERATION` without writing the output when it is unreadable;
nothing is stated for the empty `status` text. -/
theorem accessors_read_one_file :
    AccessorContract aidl.getChargeCounterUah (battery.append "charge_counter") decodeInt ∧
    AccessorContract aidl.getCurrentNowMicroamps (battery.append "current_now") decodeInt ∧
    AccessorContract aidl.getCurrentAverageMicroamps (battery.append "current_avg") decodeInt ∧
    AccessorContract aidl.getCapacity (battery.append "capacity") decodeInt ∧
    ((∀ fs out, fs (battery.append "status") ≠ some "" →
      ((aidl.getChargeStatus fs out).completion = .returned aidl.ScopedAStatus.ok ↔
        ∃ t, fs (battery.append "status") = some t)) ∧
    (∀ fs out t, fs (battery.append "status") = some t → t ≠ "" →
      aidl.getChargeStatus fs out =
        ⟨[], .returned aidl.ScopedAStatus.ok, decodeEnum t statusLabels BatteryStatus.UNKNOWN⟩) ∧
    (∀ fs out, fs (battery.append "status") = none →
      aidl.getChargeStatus fs out = ⟨[readFailed (battery.append "status")],
        .returned (aidl.ScopedAStatus.fromExceptionCode aidl.EX_UNSUPPORTED_OPERATION), out⟩) ∧
    (∀ fs fs2 out, fs (battery.append "status") = fs2 (battery.append "status") →
      fs (battery.append "status") ≠ some "" →
      aidl.getChargeStatus fs out = aidl.getChargeStatus fs2 out)) :=
  ⟨getChargeCounterUah_contract, getCurrentNowMicroamps_contract,
    getCurrentAverageMicroamps_contract, getCapacity_contract, getChargeStatus_reads_status⟩

/-- The two constant fields after a run of `healthd_board_battery_update`:
`batteryPresent` is assigned first, `chargerWirelessOnline` only after the read
of the USB `online` file. -/
theorem healthd_board_battery_update_presence (fs : FileSystem) (p : BatteryProperties)
    (r : Run Int BatteryProperties) (hr : V2_0.healthd_board_battery_update fs p = r) :
    r.state.batteryPresent = true ∧
    (r.completion = .returned 0 → r.state.chargerWirelessOnline = false) ∧
    (∀ k f, firstUnreadable fs (attributeFiles.take 12) 0 = some (k, f) →
      r.state.chargerWirelessOnline = p.chargerWirelessOnline) := by
  unfold V2_0.healthd_board_battery_update at hr
  simp only [ReadFileToString] at hr
  repeat' (split at hr)
  all_goals (subst hr)
  all_goals refine ⟨rfl, fun hc => ?_, fun k f hreach => ?_⟩
  all_goals first
    | rfl
    | cases hc
    | simp only [attributeFiles, List.take, firstUnreadable, reduceCtorEq, *] at hreach

/-- The two constant fields after a run of `BoardBatteryUpdate`:
`batteryPresent` is assigned first, `chargerWirelessOnline` only after the read
of the USB `online` file. -/
theorem BoardBatteryUpdate_presence (fs : FileSystem) (p : BatteryProperties)
    (r : Run Bool BatteryProperties) (hr : V2_1.BoardBatteryUpdate fs p = r) :
    r.state.batteryPresent = true ∧
    (r.completion = .returned true → r.state.chargerWirelessOnline = false) ∧
    (∀ k f, firstUnreadable fs (attributeFiles.take 12) 0 = some (k, f) →
      r.state.chargerWirelessOnline = p.chargerWirelessOnline) := by
  unfold V2_1.BoardBatteryUpdate at hr
  simp only [ReadFileToString] at hr
  repeat' (split at hr)
  all_goals (subst hr)
  all_goals refine ⟨rfl, fun hc => ?_, fun k f hreach => ?_⟩
  all_goals first
    | rfl
    | cases hc
    | simp only [attributeFiles, List.take, firstUnreadable, reduceCtorEq, *] at hreach

/-- The two constant fields after a run of the AIDL `UpdateHealthInfo`:
`chargerWirelessOnline` is assigned before the first battery attribute is read,
`batteryPresent` only after the `health` file has been decoded. -/
theorem aidl_UpdateHealthInfo_presence (fs : FileSystem) (hi : aidl.HealthInfo)
    (r : Run Unit aidl.HealthInfo) (hr : aidl.UpdateHealthInfo fs hi = r) :
    r.state.chargerWirelessOnline = false ∧
    (r.completion = .returned () → firstUnreadable fs (aidlBatteryFiles.take 4) 0 = none →
      r.state.batteryPresent = true) ∧
    (∀ k f, firstUnreadable fs (aidlBatteryFiles.take 4) 0 = some (k, f) →
      r.state.batteryPresent = hi.batteryPresent) := by
  unfold aidl.UpdateHealthInfo at hr
  simp only [ReadFileToString] at hr
  rcases hac : fs acOnlineFile with _ | a <;> rcases husb : fs usbOnlineFile with _ | u <;>
    simp only [hac, husb] at hr <;> (repeat' (split at hr)) <;> (subst hr) <;>
    (refine ⟨rfl, fun hc hreach => ?_, fun k f hreach => ?_⟩) <;>
    first
    | rfl
    | (cases hc; done)
    | simp only [aidlBatteryFiles, List.take, firstUnreadable, reduceCtorEq, *] at hreach

/-- C16 (counterexample): the two fields are not constant over failing calls.
The AIDL sampler on a filesystem without `current_max` returns with
`batteryPresent` still false, the value of the caller's record; the HAL 2.0 and
HAL 2.1 samplers on a filesystem without `technology` fail with
`chargerWirelessOnline` still true, the value of the caller's record. -/
theorem presence_fields_not_constant_on_failure :
    health0.batteryPresent = false ∧
    (aidl.UpdateHealthInfo (sysfs.without (battery.append "current_max")) health0).completion
      = .returned () ∧
    (aidl.UpdateHealthInfo (sysfs.without (battery.append "current_max"))
      health0).state.batteryPresent = false ∧
    (V2_0.healthd_board_battery_update (sysfs.without (battery.append "technology"))
      { props0 with chargerWirelessOnline := true }).completion = .returned 1 ∧
    (V2_0.healthd_board_battery_update (sysfs.without (battery.append "technology"))
      { props0 with chargerWirelessOnline := true }).state.chargerWirelessOnline = true ∧
    (V2_1.BoardBatteryUpdate (sysfs.without (battery.append "technology"))
      { props0 with chargerWirelessOnline := true }).completion = .returned false ∧
    (V2_1.BoardBatteryUpdate (sysfs.without (battery.append "technology"))
      { props0 with chargerWirelessOnline := true }).state.chargerWirelessOnline = true := by
  refine ⟨by decide, by decide, by decide, by decide, by decide, by decide, by decide⟩

/-- C16 (amended): battery presence and wireless-charger presence are never read
from the filesystem, and after every successful sample `batteryPresent` is true
and `chargerWirelessOnline` is false. Over all calls only one of the two is
constant per sampler. The HAL 2.0 and HAL 2.1 samplers assign `batteryPresent`
first, so it is true after every call; they assign `chargerWirelessOnline` after
the USB `online` read, so a call that fails at one of the twelve files up to
there leaves it at the caller's value. The AIDL sampler assigns
`chargerWirelessOnline` before the first battery attribute, so it is false after
every call; it assigns `batteryPresent` after decoding `health`, so a call that
fails at `current_max`, `voltage_max`, `status` or `health` leaves it at the
caller's value, and a call that returns after reading those four has set it. -/
theorem presence_fields_after_sampling (fs : FileSystem) :
    (∀ p,
      (V2_0.healthd_board_battery_update fs p).state.batteryPresent = true ∧
      ((V2_0.healthd_board_battery_update fs p).completion = .returned 0 →
        (V2_0.healthd_board_battery_update fs p).state.chargerWirelessOnline = false) ∧
      (∀ k f, firstUnreadable fs (attributeFiles.take 12) 0 = some (k, f) →
        (V2_0.healthd_board_battery_update fs p).state.chargerWirelessOnline
          = p.chargerWirelessOnline)) ∧
    (∀ p,
      (V2_1.BoardBatteryUpdate fs p).state.batteryPresent = true ∧
      ((V2_1.BoardBatteryUpdate fs p).completion = .returned true →
        (V2_1.BoardBatteryUpdate fs p).state.chargerWirelessOnline = false) ∧
      (∀ k f, firstUnreadable fs (attributeFiles.take 12) 0 = some (k, f) →
        (V2_1.BoardBatteryUpdate fs p).state.chargerWirelessOnline
          = p.chargerWirelessOnline)) ∧
    (∀ hi,
      (aidl.UpdateHealthInfo fs hi).state.chargerWirelessOnline = false ∧
      ((aidl.UpdateHealthInfo fs hi).completion = .returned () →
        firstUnreadable fs (aidlBatteryFiles.take 4) 0 = none →
        (aidl.UpdateHealthInfo fs hi).state.batteryPresent = true) ∧
      (∀ k f, firstUnreadable fs (aidlBatteryFiles.take 4) 0 = some (k, f) →
        (aidl.UpdateHealthInfo fs hi).state.batteryPresent = hi.batteryPresent)) :=
  ⟨fun p => healthd_board_battery_update_presence fs p _ rfl,
    fun p => BoardBatteryUpdate_presence fs p _ rfl,
    fun hi => aidl_UpdateHealthInfo_presence fs hi _ rfl⟩

/-- The compare chains of HAL 2.0 and HAL 2.1 are the same. -/
theorem batteryStatusOf_V2_0_eq (b : String) : V2_0.batteryStatusOf b = V2_1.batteryStatusOf b :=
  rfl

/-- The compare chains of HAL 2.0 and HAL 2.1 are the same. -/
theorem batteryHealthOf_V2_0_eq (b : String) : V2_0.batteryHealthOf b = V2_1.batteryHealthOf b :=
  rfl

/-- The run of the HAL 2.0 sampler is the run of the HAL 2.1 sampler with the
result recoded. -/
theorem healthd_board_battery_update_eq (fs : FileSystem) (p : BatteryProperties)
    (r : Run Bool BatteryProperties) (hr : V2_1.BoardBatteryUpdate fs p = r) :
    V2_0.healthd_board_battery_update fs p = ⟨r.log, resultCode r.completion, r.state⟩ := by
  unfold V2_1.BoardBatteryUpdate at hr
  simp only [ReadFileToString] at hr
  repeat' (split at hr)
  all_goals (subst hr)
  all_goals
    (unfold V2_0.healthd_board_battery_update
     simp only [ReadFileToString, resultCode, batteryStatusOf_V2_0_eq, batteryHealthOf_V2_0_eq, *])

/-- C17: the HAL 2.0 sampler `healthd_board_battery_update` and the HAL 2.1
sampler `BoardBatteryUpdate` are the same function up to the encoding of the
result. For every filesystem and every initial `BatteryProperties` the run of the
first is the run of the second with the result recoded (`true` as 0, `false` as
1, an exception or undefined behaviour as itself): the first returns 0 iff the
second returns true, the first returns 1 iff the second returns false, and both
log the same lines and leave the `BatteryProperties` in the same final state, on
success and on failure at any attribute. -/
theorem hal_2_0_sampler_eq_hal_2_1_sampler (fs : FileSystem) (p : BatteryProperties) :
    V2_0.healthd_board_battery_update fs p =
      ⟨(V2_1.BoardBatteryUpdate fs p).log, resultCode (V2_1.BoardBatteryUpdate fs p).completion,
        (V2_1.BoardBatteryUpdate fs p).state⟩ ∧
    ((V2_0.healthd_board_battery_update fs p).completion = .returned 0 ↔
      (V2_1.BoardBatteryUpdate fs p).completion = .returned true) ∧
    ((V2_0.healthd_board_battery_update fs p).completion = .returned 1 ↔
      (V2_1.BoardBatteryUpdate fs p).completion = .returned false) ∧
    (V2_0.healthd_board_battery_update fs p).state = (V2_1.BoardBatteryUpdate fs p).state ∧
    (V2_0.healthd_board_battery_update fs p).log = (V2_1.BoardBatteryUpdate fs p).log := by
  have h := healthd_board_battery_update_eq fs p _ rfl
  refine ⟨h, ?_, ?_, ?_, ?_⟩
  · rw [h]
    rcases (V2_1.BoardBatteryUpdate fs p).completion with (_ | _) | _ | _ <;>
      simp [resultCode]
  · rw [h]
    rcases (V2_1.BoardBatteryUpdate fs p).completion with (_ | _) | _ | _ <;>
      simp [resultCode]
  · rw [h]
  · rw [h]

/-- An unreadable file in the list makes `firstUnreadable` find one. -/
theorem firstUnreadable_of_unreadable (fs : FileSystem) (files : List String) (i : Nat)
    (h : ∃ f ∈ files, fs f = none) : ∃ k f, firstUnreadable fs files i = some (k, f) := by
  induction files generalizing i with
  | nil =>
    obtain ⟨f, hf, -⟩ := h
    cases hf
  | cons g rest ih =>
    unfold firstUnreadable
    rcases hg : fs g with _ | t
    · exact ⟨i, g, rfl⟩
    · obtain ⟨f, hf, hn⟩ := h
      rcases List.mem_cons.mp hf with rfl | hf2
      · rw [hg] at hn; cases hn
      · exact ih (i + 1) ⟨f, hf2, hn⟩

/-- The AIDL sampler returns on every filesystem whose numeric files hold valid
numerals and whose `status` and `health` texts are not empty. -/
theorem aidl_UpdateHealthInfo_returns (fs : FileSystem) (hi : aidl.HealthInfo)
    (r : Run Unit aidl.HealthInfo) (hr : aidl.UpdateHealthInfo fs hi = r)
    (hnum : ∀ f ∈ numericFiles, ∀ t what, fs f = some t → stoi t = .error what → False)
    (hst : fs (battery.append "status") = some "" → False)
    (hhe : fs (battery.append "health") = some "" → False) :
    r.completion = .returned () := by
  have h1 := hnum (battery.append "capacity") (by decide)
  have h2 := hnum (battery.append "current_max") (by decide)
  have h3 := hnum (battery.append "current_now") (by decide)
  have h4 := hnum (battery.append "voltage_max") (by decide)
  have h5 := hnum (battery.append "voltage_now") (by decide)
  have h6 := hnum (battery.append "temp") (by decide)
  have h7 := hnum (battery.append "cycle_count") (by decide)
  have h8 := hnum (battery.append "charge_full") (by decide)
  have h9 := hnum (battery.append "charge_counter") (by decide)
  clear hnum
  unfold aidl.UpdateHealthInfo at hr
  simp only [ReadFileToString] at hr
  rcases hac : fs acOnlineFile with _ | a <;> rcases husb : fs usbOnlineFile with _ | u <;>
    simp only [hac, husb] at hr <;> (repeat' (split at hr)) <;> (subst hr) <;>
    first
    | rfl
    | (exfalso; with_reducible (first
        | exact h1 _ _ (by assumption) (by assumption)
        | exact h2 _ _ (by assumption) (by assumption)
        | exact h3 _ _ (by assumption) (by assumption)
        | exact h4 _ _ (by assumption) (by assumption)
        | exact h5 _ _ (by assumption) (by assumption)
        | exact h6 _ _ (by assumption) (by assumption)
        | exact h7 _ _ (by assumption) (by assumption)
        | exact h8 _ _ (by assumption) (by assumption)
        | exact h9 _ _ (by assumption) (by assumption)))
    | (exfalso; have := pop_back_eq_none _ (by assumption); subst this;
       with_reducible (first | exact hst (by assumption) | exact hhe (by assumption)))

/-- The AIDL sampler treats an unreadable AC charger `online` file like one that
holds "0": on two filesystems that agree on every other file the sampler reads,
the file being unreadable in the first and holding "0" in the second, the sampler
ends the same way with the same record. -/
theorem aidl_UpdateHealthInfo_ac_unreadable (fs fs2 : FileSystem) (hi : aidl.HealthInfo)
    (r r2 : Run Unit aidl.HealthInfo) (hr : aidl.UpdateHealthInfo fs hi = r)
    (hr2 : aidl.UpdateHealthInfo fs2 hi = r2)
    (hbat : ∀ f ∈ aidlBatteryFiles, fs2 f = fs f)
    (hnone : fs acOnlineFile = none) (hzero : fs2 acOnlineFile = some "0")
    (hother : fs2 usbOnlineFile = fs usbOnlineFile) :
    r.completion = r2.completion ∧ r.state = r2.state := by
  have e1 := hbat (battery.append "current_max") (by decide)
  have e2 := hbat (battery.append "voltage_max") (by decide)
  have e3 := hbat (battery.append "status") (by decide)
  have e4 := hbat (battery.append "health") (by decide)
  have e5 := hbat (battery.append "capacity") (by decide)
  have e6 := hbat (battery.append "voltage_now") (by decide)
  have e7 := hbat (battery.append "temp") (by decide)
  have e8 := hbat (battery.append "current_now") (by decide)
  have e9 := hbat (battery.append "cycle_count") (by decide)
  have e10 := hbat (battery.append "charge_full") (by decide)
  have e11 := hbat (battery.append "charge_counter") (by decide)
  have e12 := hbat (battery.append "technology") (by decide)
  clear hbat
  unfold aidl.UpdateHealthInfo at hr hr2
  simp only [ReadFileToString] at hr hr2
  simp only [e1, e2, e3, e4, e5, e6, e7, e8, e9, e10, e11, e12, hzero, hother] at hr2
  clear e1 e2 e3 e4 e5 e6 e7 e8 e9 e10 e11 e12 hzero hother
  simp only [hnone] at hr hr2
  rcases ho : fs usbOnlineFile with _ | u <;>
    simp only [ho] at hr hr2 <;>
    (repeat' (split at hr)) <;> simp only [*] at hr2 <;> (subst hr; subst hr2) <;>
    exact ⟨rfl, rfl⟩

/-- The AIDL sampler treats an unreadable USB charger `online` file like one that
holds "0": on two filesystems that agree on every other file the sampler reads,
the file being unreadable in the first and holding "0" in the second, the sampler
ends the same way with the same record. -/
theorem aidl_UpdateHealthInfo_usb_unreadable (fs fs2 : FileSystem) (hi : aidl.HealthInfo)
    (r r2 : Run Unit aidl.HealthInfo) (hr : aidl.UpdateHealthInfo fs hi = r)
    (hr2 : aidl.UpdateHealthInfo fs2 hi = r2)
    (hbat : ∀ f ∈ aidlBatteryFiles, fs2 f = fs f)
    (hnone : fs usbOnlineFile = none) (hzero : fs2 usbOnlineFile = some "0")
    (hother : fs2 acOnlineFile = fs acOnlineFile) :
    r.completion = r2.completion ∧ r.state = r2.state := by
  have e1 := hbat (battery.append "current_max") (by decide)
  have e2 := hbat (battery.append "voltage_max") (by decide)
  have e3 := hbat (battery.append "status") (by decide)
  have e4 := hbat (battery.append "health") (by decide)
  have e5 := hbat (battery.append "capacity") (by decide)
  have e6 := hbat (battery.append "voltage_now") (by decide)
  have e7 := hbat (battery.append "temp") (by decide)
  have e8 := hbat (battery.append "current_now") (by decide)
  have e9 := hbat (battery.append "cycle_count") (by decide)
  have e10 := hbat (battery.append "charge_full") (by decide)
  have e11 := hbat (battery.append "charge_counter") (by decide)
  have e12 := hbat (battery.append "technology") (by decide)
  clear hbat
  unfold aidl.UpdateHealthInfo at hr hr2
  simp only [ReadFileToString] at hr hr2
  simp only [e1, e2, e3, e4, e5, e6, e7, e8, e9, e10, e11, e12, hzero, hother] at hr2
  clear e1 e2 e3 e4 e5 e6 e7 e8 e9 e10 e11 e12 hzero hother
  simp only [hnone] at hr hr2
  rcases ho : fs acOnlineFile with _ | u <;>
    simp only [ho] at hr hr2 <;>
    (repeat' (split at hr)) <;> simp only [*] at hr2 <;> (subst hr; subst hr2) <;>
    exact ⟨rfl, rfl⟩

/-- C18: in the AIDL sampler, whenever the read of a battery attribute
(`current_max`, `voltage_max`, `status`, `health`, `capacity`, `voltage_now`,
`temp`, `current_now`, `cycle_count`, `charge_full`, `charge_counter`,
`technology`) fails, the record on return has `batteryStatus = UNKNOWN` and
`batteryHealth = UNKNOWN`, also when the status and health files were read and
decoded earlier in the same pass (without `technology`, the last file read,
"Charging\n" and "Good\n" of `sysfs` end as `UNKNOWN`); the sampler does return
when the texts it decodes are valid. A failed charger `online` read instead sets
that charger flag to false and sampling continues: the sampler ends the same way
with the same record as if the file held "0". -/
theorem aidl_unknown_after_failed_battery_read (fs : FileSystem) (hi : aidl.HealthInfo) :
    ((∃ f ∈ aidlBatteryFiles, fs f = none) →
      (aidl.UpdateHealthInfo fs hi).completion = .returned () →
      (aidl.UpdateHealthInfo fs hi).state.batteryStatus = BatteryStatus.UNKNOWN ∧
      (aidl.UpdateHealthInfo fs hi).state.batteryHealth = BatteryHealth.UNKNOWN) ∧
    ((∀ f ∈ numericFiles, ∀ t, fs f = some t → ∃ v, stoi t = .ok v) →
      fs (battery.append "status") ≠ some "" → fs (battery.append "health") ≠ some "" →
      (aidl.UpdateHealthInfo fs hi).completion = .returned ()) ∧
    (sysfs (battery.append "status") = some "Charging\n" ∧
      sysfs (battery.append "health") = some "Good\n" ∧
      (aidl.UpdateHealthInfo (sysfs.without (battery.append "technology")) health0).log
        = [readFailed (battery.append "technology")] ∧
      (aidl.UpdateHealthInfo (sysfs.without (battery.append "technology"))
        health0).state.batteryStatus = BatteryStatus.UNKNOWN ∧
      (aidl.UpdateHealthInfo (sysfs.without (battery.append "technology"))
        health0).state.batteryHealth = BatteryHealth.UNKNOWN) ∧
    (fs acOnlineFile = none →
      (aidl.UpdateHealthInfo fs hi).state.chargerAcOnline = false ∧
      (aidl.UpdateHealthInfo fs hi).completion
        = (aidl.UpdateHealthInfo (fs.withFile acOnlineFile "0") hi).completion ∧
      (aidl.UpdateHealthInfo fs hi).state
        = (aidl.UpdateHealthInfo (fs.withFile acOnlineFile "0") hi).state) ∧
    (fs usbOnlineFile = none →
      (aidl.UpdateHealthInfo fs hi).state.chargerUsbOnline = false ∧
      (aidl.UpdateHealthInfo fs hi).completion
        = (aidl.UpdateHealthInfo (fs.withFile usbOnlineFile "0") hi).completion ∧
      (aidl.UpdateHealthInfo fs hi).state
        = (aidl.UpdateHealthInfo (fs.withFile usbOnlineFile "0") hi).state) := by
  have hrun := aidl_UpdateHealthInfo_run fs hi _ rfl
  refine ⟨?_, ?_, ⟨by decide, by decide, by decide, by decide, by decide⟩, ?_, ?_⟩
  · intro hex hret
    obtain ⟨k, f, hk⟩ := firstUnreadable_of_unreadable fs aidlBatteryFiles 0 hex
    have h := hrun.2.2 hret k f hk
    exact ⟨h.2.1, h.2.2.1⟩
  · intro hnum hst hhe
    refine aidl_UpdateHealthInfo_returns fs hi _ rfl ?_ (fun h => hst h) (fun h => hhe h)
    intro f hf t what ht hs
    obtain ⟨v, hv⟩ := hnum f hf t ht
    rw [hv] at hs
    cases hs
  · intro hnone
    have hflag := hrun.1
    rw [hnone] at hflag
    have hbat : ∀ f ∈ aidlBatteryFiles, (fs.withFile acOnlineFile "0") f = fs f := by
      intro f hf
      simp only [aidlBatteryFiles, List.mem_cons, List.mem_singleton, List.not_mem_nil,
        or_false] at hf
      rcases hf with rfl | rfl | rfl | rfl | rfl | rfl | rfl | rfl | rfl | rfl | rfl | rfl <;>
        rfl
    exact ⟨hflag, aidl_UpdateHealthInfo_ac_unreadable fs (fs.withFile acOnlineFile "0") hi _ _
      rfl rfl hbat hnone rfl rfl⟩
  · intro hnone
    have hflag := hrun.2.1
    rw [hnone] at hflag
    have hbat : ∀ f ∈ aidlBatteryFiles, (fs.withFile usbOnlineFile "0") f = fs f := by
      intro f hf
      simp only [aidlBatteryFiles, List.mem_cons, List.mem_singleton, List.not_mem_nil,
        or_false] at hf
      rcases hf with rfl | rfl | rfl | rfl | rfl | rfl | rfl | rfl | rfl | rfl | rfl | rfl <;>
        rfl
    exact ⟨hflag, aidl_UpdateHealthInfo_usb_unreadable fs (fs.withFile usbOnlineFile "0") hi _ _
      rfl rfl hbat hnone rfl rfl⟩

end Health
